import Mathlib

/-!
# Record extender plugin of ipfixcol2

Shallow embedding of `src/plugins/intermediate/extender/extender.c` and of the
types of `config.h` it relies on.

Conventions of the embedding.

* A byte is a natural number; byte strings and memory regions are `List Nat`.
* A C string is the list of the bytes that precede its terminating NUL, so
  `strlen` is the length of the list; a `char *` that may be `NULL` is an
  `Option CString`.
* Pointers into the input packet and into the output buffer are offsets.
* Machine integers are naturals, reduced modulo `2 ^ w` where the C code
  truncates (`uint16_t` fields, casts).
* A function whose C counterpart can dereference `NULL` or overrun an
  allocation returns `Option`; `none` stands for that undefined behaviour.
  Allocations (`malloc`, `calloc`, `ipx_msg_ipfix_create`,
  `ipx_msg_ipfix_add_drec_ref`) are assumed to succeed.
* libfds and the ipfixcol2 host are external: the template parser and the IE
  binder and the filter evaluator are passed in an `fds_api` record.
-/

namespace Extender

/-! ## Bytes, C strings and libc -/

/-- C string: the bytes before the terminating NUL. -/
abbrev CString := List Nat

/-- Function `strlen` of libc. -/
def strlen (s : CString) : Nat := s.length

/-- In-memory bytes of `htons(v)`; `v` is truncated to 16 bits as the C
conversion to `uint16_t` does. -/
def htons (v : Nat) : List Nat := [v / 256 % 256, v % 256]

/-- In-memory bytes of `htonl(v)`, `v` truncated to 32 bits. -/
def htonl (v : Nat) : List Nat :=
  [v / 16777216 % 256, v / 65536 % 256, v / 256 % 256, v % 256]

/-- In-memory bytes of `htobe64(v)`, `v` truncated to 64 bits. -/
def htobe64 (v : Nat) : List Nat :=
  [v / 72057594037927936 % 256, v / 281474976710656 % 256, v / 1099511627776 % 256,
   v / 4294967296 % 256, v / 16777216 % 256, v / 65536 % 256, v / 256 % 256, v % 256]

/-- Value of `ntohs(*(uint16_t *)(mem + off))`: the big-endian 16-bit value
stored at offset `off`. -/
def ntohs_at (mem : List Nat) (off : Nat) : Nat :=
  mem.getD off 0 * 256 + mem.getD (off + 1) 0

/-- The `len` bytes found at offset `off` of a memory region. -/
def mem_read (mem : List Nat) (off len : Nat) : List Nat := (mem.drop off).take len

/-- Store `bytes` at offset `off` of a region (`*(uint16_t *)(buf + off) = ...`,
`memcpy(buf + off, ...)`); the region is expected to be long enough. -/
def mem_write (mem : List Nat) (off : Nat) (bytes : List Nat) : List Nat :=
  mem.take off ++ bytes ++ mem.drop (off + bytes.length)

/-- Constants `ULONG_MAX` and `ULLONG_MAX` of an LP64 platform. -/
def ULONG_MAX : Nat := 18446744073709551615

/-- Function `isspace` in the C locale. -/
def isspace (c : Nat) : Bool := c == 32 || (9 ≤ c && c ≤ 13)

/-- Function `isdigit`. -/
def isdigit (c : Nat) : Bool := 48 ≤ c && c ≤ 57

/-- Value of a run of decimal digit characters. -/
def digits_value (ds : List Nat) : Nat := ds.foldl (fun acc c => 10 * acc + (c - 48)) 0

/-- Function `strtoul(s, NULL, 10)` (and `strtoull`, of the same width): skip
white space, accept one optional sign, convert the longest run of decimal digits
(zero when there is none), saturate at `ULONG_MAX` on overflow, and negate in
the unsigned type after a minus sign. -/
def strtoul (s : CString) : Nat :=
  let s1 := s.dropWhile isspace
  let neg := s1.head? == some 45
  let s2 := if s1.head? == some 45 || s1.head? == some 43 then s1.tail else s1
  let n := digits_value (s2.takeWhile isdigit)
  if ULONG_MAX < n then ULONG_MAX
  else if neg then (ULONG_MAX + 1 - n) % (ULONG_MAX + 1)
  else n

/-- Function `strtoull(s, NULL, 10)`. -/
def strtoull (s : CString) : Nat := strtoul s

/-- The ASCII decimal representation of a natural number, as a C string. -/
def decimal (n : Nat) : CString := (Nat.toDigits 10 n).map Char.toNat

/-- Big-endian representation of `n` on `w` bytes. -/
def be_bytes : Nat → Nat → List Nat
  | 0, _ => []
  | w + 1, n => (n / 256 ^ w % 256) :: be_bytes w n

/-- The number a big-endian byte string denotes. -/
def be_value (bs : List Nat) : Nat := bs.foldl (fun acc b => 256 * acc + b) 0

/-! ## libfds data types -/

/-- The `enum fds_iemgr_element_type` of libfds. -/
inductive fds_iemgr_element_type where
  | FDS_ET_OCTET_ARRAY
  | FDS_ET_UNSIGNED_8
  | FDS_ET_UNSIGNED_16
  | FDS_ET_UNSIGNED_32
  | FDS_ET_UNSIGNED_64
  | FDS_ET_SIGNED_8
  | FDS_ET_SIGNED_16
  | FDS_ET_SIGNED_32
  | FDS_ET_SIGNED_64
  | FDS_ET_FLOAT_32
  | FDS_ET_FLOAT_64
  | FDS_ET_BOOLEAN
  | FDS_ET_MAC_ADDRESS
  | FDS_ET_STRING
  | FDS_ET_DATE_TIME_SECONDS
  | FDS_ET_DATE_TIME_MILLISECONDS
  | FDS_ET_DATE_TIME_MICROSECONDS
  | FDS_ET_DATE_TIME_NANOSECONDS
  | FDS_ET_IPV4_ADDRESS
  | FDS_ET_IPV6_ADDRESS
  | FDS_ET_BASIC_LIST
  | FDS_ET_SUB_TEMPLATE_LIST
  | FDS_ET_SUB_TEMPLATE_MULTILIST
  | FDS_ET_UNASSIGNED
  deriving DecidableEq, Repr

/-- The `enum fds_template_type` of libfds. -/
inductive fds_template_type where
  | FDS_TYPE_TEMPLATE
  | FDS_TYPE_TEMPLATE_OPTS
  | FDS_TYPE_TEMPLATE_UNDEF
  deriving DecidableEq, Repr

/-- The fields of `struct fds_template` the plugin reads: `id` (`uint16_t`),
`type`, and `raw` (`raw.data` with `raw.length`, a `uint16_t`, its length). -/
structure fds_template where
  type : fds_template_type
  id : Nat
  raw : List Nat
  deriving DecidableEq, Repr

/-- The `struct fds_drec`: `data` points at the record (an offset into the
packet it lives in), `size` is a `uint16_t`. -/
structure fds_drec where
  data : Nat
  size : Nat
  tmplt : fds_template
  deriving DecidableEq, Repr

/-- The `struct ipx_ipfix_record` of the host; its member `rec` is called
`drec` here. -/
structure ipx_ipfix_record where
  drec : fds_drec
  deriving DecidableEq, Repr

/-- The `enum fds_ipfix_filter_match` of libfds. -/
inductive fds_ipfix_filter_match where
  | FDS_IPFIX_FILTER_NO_MATCH
  | FDS_IPFIX_FILTER_MATCH_FWD
  | FDS_IPFIX_FILTER_MATCH_REV
  | FDS_IPFIX_FILTER_MATCH_BOTH
  deriving DecidableEq, Repr

/-- A compiled filter, `fds_ipfix_filter_t *`: an opaque handle. -/
abbrev fds_ipfix_filter_t := Nat

/-- The libfds entry points the plugin calls while it processes messages.

* `fds_template_parse buffer` stands for
  `fds_template_parse(FDS_TYPE_TEMPLATE, buffer, &parsed_len, &new_tmplt)`:
  the parsed template on `FDS_OK`, `none` otherwise.
* `fds_template_ies_define tmplt` tells whether
  `fds_template_ies_define(tmplt, iemgr, false)` returns `FDS_OK`.
* `fds_ipfix_filter_eval_biflow filter packet drec` is the result of
  evaluating a compiled filter on a record; `packet` is the memory the record
  points into. -/
structure fds_api where
  fds_template_parse : List Nat → Option fds_template
  fds_template_ies_define : fds_template → Bool
  fds_ipfix_filter_eval_biflow : fds_ipfix_filter_t → List Nat → fds_drec → fds_ipfix_filter_match

/-- Constant `FDS_IPFIX_SET_TMPLT`. -/
def FDS_IPFIX_SET_TMPLT : Nat := 2

/-- Constant `FDS_IPFIX_SET_MIN_DSET`. -/
def FDS_IPFIX_SET_MIN_DSET : Nat := 256

/-- Constant `sizeof(struct fds_ipfix_msg_hdr)`. -/
def FDS_IPFIX_MSG_HDR_LEN : Nat := 16

/-! ## Configuration (`config.h`) -/

/-- Type `config_value_t`: a Candidate. `expr` and `value` are `char *` left
`NULL` by `calloc` until the parser stores a copy. -/
structure config_value_t where
  expr : Option CString
  value : Option CString
  filter : fds_ipfix_filter_t
  deriving DecidableEq, Repr

/-- Type `config_ids_t`: an Extension; `values_count` is the length of `values`. -/
structure config_ids_t where
  name : Option CString
  id : Nat
  data_type : fds_iemgr_element_type
  values : List config_value_t
  deriving DecidableEq, Repr

/-- The `struct config`; `ids_count` is the length of `ids`. -/
structure config where
  ids : List config_ids_t
  max_extension_len : Nat
  deriving DecidableEq, Repr

/-- Type `tmp_match_t`: the per-record match entry of one Extension. -/
structure tmp_match_t where
  id : Nat
  data_type : fds_iemgr_element_type
  matched : Bool
  value : Option CString
  deriving DecidableEq, Repr

/-! ## Message builder (`msg_builder.h`) -/

/-- Modelled from the spec: `msg_builder_s` of `msg_builder.h`, which is not
part of the sources at hand. `buffer` holds the bytes written so far, so the
write offset `msg_len` is its length; `dset_open` is `(flowset_id,
set_start_offset)` of the Data Set in progress; `msg` is the list of record
references of the output message (`builder.msg`). -/
structure msg_builder_s where
  msg : List ipx_ipfix_record
  buffer : List Nat
  dset_open : Option (Nat × Nat)
  deriving DecidableEq, Repr

/-- The field `msg_len` of the builder. -/
def msg_builder_s.msg_len (b : msg_builder_s) : Nat := b.buffer.length

/-- Modelled from the spec: `msg_builder_write(builder, data, len)` of
`msg_builder.h`: append the `len` bytes at `data`, advancing `msg_len`. -/
def msg_builder_write (b : msg_builder_s) (data : List Nat) (len : Nat) : msg_builder_s :=
  { b with buffer := b.buffer ++ data.take len }

/-- Return codes of the host (`IPX_OK`, `IPX_ERR_NOMEM`, `IPX_ERR_DENIED`). -/
inductive ipx_rc where
  | IPX_OK
  | IPX_ERR_NOMEM
  | IPX_ERR_DENIED
  deriving DecidableEq, Repr

/-- The `struct ipx_ipfix_set`: `ptr` points at the Set Header (an offset into
the packet). -/
structure ipx_ipfix_set where
  ptr : Nat
  deriving DecidableEq, Repr

/-- Modelled from the spec: `msg_builder_copy_set(builder, set)` of
`msg_builder.h`: append the bytes of the set verbatim, that is the
`ntohs(set->ptr->length)` bytes found at `set->ptr`. The spec describes no
failure, so the return code is `IPX_OK`. -/
def msg_builder_copy_set (b : msg_builder_s) (packet : List Nat) (set : ipx_ipfix_set) :
    ipx_rc × msg_builder_s :=
  (.IPX_OK, msg_builder_write b (packet.drop set.ptr) (ntohs_at packet (set.ptr + 2)))

/-- Modelled from the spec: `msg_builder_begin_dset(builder, flowset_id)` of
`msg_builder.h`: reserve a 4-byte Set Header at the current offset, remember
where it starts, write the placeholder header with `flowset_id` and length 0.
The spec requires that no set is open; the caller closes the open set first. -/
def msg_builder_begin_dset (b : msg_builder_s) (flowset_id : Nat) : msg_builder_s :=
  { b with buffer := b.buffer ++ (htons flowset_id ++ htons 0),
           dset_open := some (flowset_id, b.buffer.length) }

/-- Modelled from the spec: `msg_builder_end_dset(builder)` of `msg_builder.h`:
with `len = msg_len - set_start`, a set whose body is empty is elided by
rewinding `msg_len` to `set_start`; otherwise zero bytes are appended until
`len` is a multiple of 4 and the length field at `set_start + 2` is patched
with `htons(len)`. The open state is cleared. The spec describes no failure, so
the return code is `IPX_OK`; without an open set nothing changes. -/
def msg_builder_end_dset (b : msg_builder_s) : ipx_rc × msg_builder_s :=
  match b.dset_open with
  | none => (.IPX_OK, b)
  | some (_, set_start) =>
    let len := b.buffer.length - set_start
    if len = 4 then
      (.IPX_OK, { b with buffer := b.buffer.take set_start, dset_open := none })
    else
      let padding := (4 - len % 4) % 4
      let buffer := b.buffer ++ List.replicate padding 0
      (.IPX_OK, { b with buffer := mem_write buffer (set_start + 2) (htons (len + padding)),
                         dset_open := none })

/-- Modelled from the spec: `msg_builder_finish(builder)` of `msg_builder.h`:
end the open set if there is one, then patch the length field of the message
header at offset 2 with `htons(msg_len)`. -/
def msg_builder_finish (b : msg_builder_s) : msg_builder_s :=
  let b := if b.dset_open.isSome then (msg_builder_end_dset b).2 else b
  { b with buffer := mem_write b.buffer 2 (htons b.buffer.length) }

/-- Modelled from the spec: `msg_builder_is_empty_msg(builder)` of
`msg_builder.h`: the message is the 16-byte header only. -/
def msg_builder_is_empty_msg (b : msg_builder_s) : Bool := b.buffer.length == 16

/-! ## `extender.c` -/

/-- The `struct template_node`, one entry of the cache (the list `next` links). -/
structure template_node where
  old_id : Nat
  new_id : Nat
  new_tmplt : fds_template
  raw_buffer : List Nat
  deriving DecidableEq, Repr

/-- The `struct plugin_ctx`; `config` is `NULL` until `ipx_plugin_init` stores
the parsed configuration, `templates` is the linked list of cache entries,
`next_template_id` is a `uint16_t`. -/
structure plugin_ctx where
  config : Option config
  templates : List template_node
  next_template_id : Nat
  deriving DecidableEq, Repr

/-- Function `create_plugin_ctx` (extender.c:52). -/
def create_plugin_ctx : plugin_ctx :=
  { config := none, templates := [], next_template_id := 40000 }

/-- Function `record_belongs_to_set` (extender.c:93); the length of the set is
read from its header in the packet. -/
def record_belongs_to_set (packet : List Nat) (set : ipx_ipfix_set) (record : fds_drec) :
    Bool :=
  let set_begin := set.ptr
  let set_end := set_begin + ntohs_at packet (set.ptr + 2)
  let record_begin := record.data
  decide (record_begin ≥ set_begin) && decide (record_begin < set_end)

/-- Constant `UINT16_MAX`. -/
def UINT16_MAX : Nat := 65535

/-- Function `size_of_data_type` (extender.c:104). -/
def size_of_data_type (data_type : fds_iemgr_element_type) : Nat :=
  match data_type with
  | .FDS_ET_BOOLEAN | .FDS_ET_UNSIGNED_8 | .FDS_ET_SIGNED_8 => 1
  | .FDS_ET_UNSIGNED_16 | .FDS_ET_SIGNED_16 => 2
  | .FDS_ET_UNSIGNED_32 | .FDS_ET_SIGNED_32 | .FDS_ET_FLOAT_32 => 4
  | .FDS_ET_UNSIGNED_64 | .FDS_ET_SIGNED_64 | .FDS_ET_FLOAT_64 => 8
  | .FDS_ET_IPV4_ADDRESS => 4
  | .FDS_ET_IPV6_ADDRESS => 16
  | .FDS_ET_STRING | .FDS_ET_OCTET_ARRAY => UINT16_MAX
  | _ => 0

/-- The loop of extender.c:274 that stores one field specifier per Extension:
`htons(id)` at `ptr`, `htons(size_of_data_type(data_type))` at `ptr + 2`, then
`ptr += 4`. -/
def write_specifiers : List config_ids_t → List Nat → Nat → List Nat
  | [], buffer, _ => buffer
  | e :: es, buffer, ptr =>
    let buffer := mem_write buffer ptr (htons e.id)
    let buffer := mem_write buffer (ptr + 2) (htons (size_of_data_type e.data_type))
    write_specifiers es buffer (ptr + 4)

/-- The raw record of the extended Template as extender.c:251-278 builds it in
the `calloc`ed `buffer` of `new_len` bytes: a copy of the old record, the
Template ID replaced by `new_id`, the field count increased by the number of
Extensions, and the appended field specifiers. -/
def extended_raw (old_tmplt : fds_template) (new_id : Nat) (extension : List config_ids_t) :
    List Nat :=
  let old_len := old_tmplt.raw.length
  let extension_count := extension.length
  let new_len := (old_len + 4 * extension_count) % 65536
  let buffer := List.replicate new_len 0
  let buffer := mem_write buffer 0 (old_tmplt.raw.take old_len)
  let old_count := ntohs_at old_tmplt.raw 2
  let buffer := mem_write buffer 0 (htons new_id)
  let buffer := mem_write buffer 2 (htons (old_count + extension_count))
  write_specifiers extension buffer old_len

/-- The end of `get_or_create_extended_template` (extender.c:314-333), which
writes the Template Set of the new template: the Set Header with
`FDS_IPFIX_SET_TMPLT` and `set_len` (a `uint16_t`, as is `padding`), the raw
record of the parsed template, and `padding` zero bytes. -/
def write_template_set (builder : msg_builder_s) (new_len : Nat) (new_tmplt : fds_template) :
    msg_builder_s :=
  let set_len := (4 + new_len) % 65536
  let padding := if set_len % 4 ≠ 0 then 4 - set_len % 4 else 0
  let set_len := if set_len % 4 ≠ 0 then (set_len + padding) % 65536 else set_len
  let set_hdr := htons FDS_IPFIX_SET_TMPLT ++ htons set_len
  let builder := msg_builder_write builder set_hdr 4
  let builder := msg_builder_write builder new_tmplt.raw new_tmplt.raw.length
  if padding > 0 then msg_builder_write builder [0, 0, 0, 0] padding else builder

/-- Function `get_or_create_extended_template` (extender.c:221). The result is
the returned template (`none` for `NULL`), the plugin context and the builder
after the call; `extension_count` is the length of `extension`. The outer
`none` is the heap overrun of `memcpy` and of the specifier loop when `new_len`,
a `uint16_t`, wrapped around. -/
def get_or_create_extended_template (api : fds_api) (pctx : plugin_ctx)
    (old_tmplt : fds_template) (builder : msg_builder_s) (extension : List config_ids_t) :
    Option (Option fds_template × plugin_ctx × msg_builder_s) :=
  match pctx.templates.find? (fun node => node.old_id == old_tmplt.id) with
  | some node => some (some node.new_tmplt, pctx, builder)
  | none =>
    if old_tmplt.type = .FDS_TYPE_TEMPLATE_OPTS then some (none, pctx, builder)
    else
      let old_len := old_tmplt.raw.length
      let extension_count := extension.length
      let new_len := (old_len + 4 * extension_count) % 65536
      if old_len < 4 then some (none, pctx, builder)
      else if new_len < old_len + 4 * extension_count then none
      else
        let new_id := pctx.next_template_id
        let pctx := { pctx with next_template_id := (pctx.next_template_id + 1) % 65536 }
        let buffer := extended_raw old_tmplt new_id extension
        match api.fds_template_parse buffer with
        | none => some (none, pctx, builder)
        | some new_tmplt =>
          if !api.fds_template_ies_define new_tmplt then some (none, pctx, builder)
          else
            let node : template_node :=
              { old_id := old_tmplt.id, new_id := new_id, new_tmplt := new_tmplt,
                raw_buffer := buffer }
            let pctx := { pctx with templates := node :: pctx.templates }
            some (some new_tmplt, pctx, write_template_set builder new_len new_tmplt)

/-- The statement `ref->rec.size += n` on the `uint16_t` field. -/
def ref_add_size (ref : ipx_ipfix_record) (n : Nat) : ipx_ipfix_record :=
  { ref with drec := { ref.drec with size := (ref.drec.size + n) % 65536 } }

/-- Function `add_value` (extender.c:338). `none` is the crash of `strlen` or
`strtoul` on a `NULL` value of a matched entry. -/
def add_value (m : tmp_match_t) (builder : msg_builder_s) (ref : ipx_ipfix_record) :
    Option (msg_builder_s × ipx_ipfix_record) :=
  match m.data_type with
  | .FDS_ET_STRING | .FDS_ET_OCTET_ARRAY =>
    (if m.matched then m.value else some []).bind fun val =>
      let len := strlen val
      if len < 255 then
        let l := len % 256
        let builder := msg_builder_write builder [l] 1
        let builder := msg_builder_write builder val len
        some (builder, ref_add_size ref (1 + len))
      else
        let header := 255 :: htons len
        let builder := msg_builder_write builder header 3
        let builder := msg_builder_write builder val len
        some (builder, ref_add_size ref (3 + len))
  | .FDS_ET_UNSIGNED_8 =>
    (if m.matched then m.value.map strtoul else some 0).bind fun v =>
      let builder := msg_builder_write builder [v % 256] 1
      some (builder, ref_add_size ref 1)
  | .FDS_ET_UNSIGNED_16 =>
    (if m.matched then m.value.map strtoul else some 0).bind fun v =>
      let builder := msg_builder_write builder (htons v) 2
      some (builder, ref_add_size ref 2)
  | .FDS_ET_UNSIGNED_32 =>
    (if m.matched then m.value.map strtoul else some 0).bind fun v =>
      let builder := msg_builder_write builder (htonl v) 4
      some (builder, ref_add_size ref 4)
  | .FDS_ET_UNSIGNED_64 =>
    (if m.matched then m.value.map strtoull else some 0).bind fun v =>
      let builder := msg_builder_write builder (htobe64 v) 8
      some (builder, ref_add_size ref 8)
  | _ => some (builder, ref)

/-- The Candidate scan of extender.c:503: the entry stays as initialised
until a filter evaluates to something other than `FDS_IPFIX_FILTER_NO_MATCH`;
that Candidate sets `matched` and `value`, and the scan stops. -/
def scan_values (api : fds_api) (packet : List Nat) (drec : fds_drec) (m : tmp_match_t) :
    List config_value_t → tmp_match_t
  | [] => m
  | value :: rest =>
    if api.fds_ipfix_filter_eval_biflow value.filter packet drec
        ≠ .FDS_IPFIX_FILTER_NO_MATCH then
      { m with matched := true, value := value.value }
    else scan_values api packet drec m rest

/-- The body of the loop of extender.c:499 for the Extension `ids[j]`: the
entry of `match` (zeroed by `memset`, so `value` is `NULL`) receives the id
and the data type, `matched = false`, and the result of the Candidate scan. -/
def compute_match (api : fds_api) (packet : List Nat) (drec : fds_drec) (ext : config_ids_t) :
    tmp_match_t :=
  scan_values api packet drec
    { id := ext.id, data_type := ext.data_type, matched := false, value := none } ext.values

/-- The loop of extender.c:518: `add_value` for each entry of `match`, in
order. -/
def add_values : List tmp_match_t → msg_builder_s → ipx_ipfix_record →
    Option (msg_builder_s × ipx_ipfix_record)
  | [], builder, ref => some (builder, ref)
  | m :: ms, builder, ref =>
    (add_value m builder ref).bind fun r => add_values ms r.1 r.2

/-- The bytes `add_value` appends for a match entry: what it writes into an
empty builder (`none` when it crashes). -/
def appended_bytes (m : tmp_match_t) : Option (List Nat) :=
  (add_value m { msg := [], buffer := [], dset_open := none }
    { drec := { data := 0, size := 0, tmplt := ⟨.FDS_TYPE_TEMPLATE, 0, []⟩ } }).map
    fun r => r.1.buffer

/-- How one pass of the record loop of `ipx_plugin_process` ends: `goto
cleanup` with a return code, or the next iteration with the updated plugin
context, builder and `current_set_id`. -/
inductive drec_step where
  | cleanup (rc : ipx_rc) (pctx : plugin_ctx) (builder : msg_builder_s)
  | next (pctx : plugin_ctx) (builder : msg_builder_s) (current_set_id : Nat)
  deriving DecidableEq, Repr

/-- The builder after the set-boundary block of extender.c:478-485, with the
new `current_set_id`. -/
def manage_set_boundaries (builder : msg_builder_s) (current_set_id target_id : Nat) :
    ipx_rc × msg_builder_s × Nat :=
  if target_id ≠ current_set_id then
    let r := if current_set_id ≠ 0 then msg_builder_end_dset builder else (.IPX_OK, builder)
    if r.1 ≠ .IPX_OK then (r.1, r.2, current_set_id)
    else (.IPX_OK, msg_builder_begin_dset r.2 target_id, target_id)
  else (.IPX_OK, builder, current_set_id)

/-- One pass of the record loop of `ipx_plugin_process` (extender.c:460-522)
for a record that belongs to the current set. The reference obtained from
`ipx_msg_ipfix_add_drec_ref` is the last entry of `builder.msg`; it is stored
there once `add_value` has updated its size. -/
def process_record (api : fds_api) (cfg : config) (packet : List Nat) (pctx : plugin_ctx)
    (builder : msg_builder_s) (current_set_id : Nat) (record : ipx_ipfix_record) :
    Option drec_step :=
  let drec := record.drec
  match get_or_create_extended_template api pctx drec.tmplt builder cfg.ids with
  | none => none
  | some (none, pctx, builder) => some (.cleanup .IPX_ERR_NOMEM pctx builder)
  | some (some new_tmplt, pctx, builder) =>
    let target_id := new_tmplt.id
    let sb := manage_set_boundaries builder current_set_id target_id
    if sb.1 ≠ .IPX_OK then some (.cleanup sb.1 pctx sb.2.1)
    else
      let builder := sb.2.1
      let current_set_id := sb.2.2
      let ref : ipx_ipfix_record := { drec := { drec with data := builder.msg_len } }
      let builder := msg_builder_write builder (packet.drop drec.data) drec.size
      let match_arr := cfg.ids.map (compute_match api packet drec)
      let ref : ipx_ipfix_record := { drec := { ref.drec with tmplt := new_tmplt } }
      (add_values match_arr builder ref).map fun r =>
        .next pctx { r.1 with msg := r.1.msg ++ [r.2] } current_set_id

/-- How the record loop of one Data Set ends: `goto cleanup`, or `break` with
the records not yet consumed (`drec_idx`). -/
inductive dset_result where
  | cleanup (rc : ipx_rc) (pctx : plugin_ctx) (builder : msg_builder_s)
  | done (pctx : plugin_ctx) (builder : msg_builder_s) (current_set_id : Nat)
      (rest : List ipx_ipfix_record)
  deriving DecidableEq, Repr

/-- The `for (;;)` loop of extender.c:456 over the records from `drec_idx`
on: it stops at the end of the record array or at the first record that does
not belong to the set. -/
def dset_loop (api : fds_api) (cfg : config) (packet : List Nat) (set : ipx_ipfix_set) :
    List ipx_ipfix_record → plugin_ctx → msg_builder_s → Nat → Option dset_result
  | [], pctx, builder, current_set_id => some (.done pctx builder current_set_id [])
  | record :: rest, pctx, builder, current_set_id =>
    if !record_belongs_to_set packet set record.drec then
      some (.done pctx builder current_set_id (record :: rest))
    else
      match process_record api cfg packet pctx builder current_set_id record with
      | none => none
      | some (.cleanup rc pctx builder) => some (.cleanup rc pctx builder)
      | some (.next pctx builder current_set_id) =>
        dset_loop api cfg packet set rest pctx builder current_set_id

/-- How the loop over the sets ends. -/
inductive sets_result where
  | cleanup (rc : ipx_rc) (pctx : plugin_ctx) (builder : msg_builder_s)
  | done (pctx : plugin_ctx) (builder : msg_builder_s)
  deriving DecidableEq, Repr

/-- The loop of extender.c:443 over the sets of the message; `recs` are the
records from `drec_idx` on. -/
def sets_loop (api : fds_api) (cfg : config) (packet : List Nat) :
    List ipx_ipfix_set → List ipx_ipfix_record → plugin_ctx → msg_builder_s →
    Option sets_result
  | [], _, pctx, builder => some (.done pctx builder)
  | set :: sets, recs, pctx, builder =>
    let flowset_id := ntohs_at packet set.ptr
    if flowset_id < FDS_IPFIX_SET_MIN_DSET then
      let r := msg_builder_copy_set builder packet set
      if r.1 ≠ .IPX_OK then some (.cleanup r.1 pctx r.2)
      else sets_loop api cfg packet sets recs pctx r.2
    else
      match dset_loop api cfg packet set recs pctx builder 0 with
      | none => none
      | some (.cleanup rc pctx builder) => some (.cleanup rc pctx builder)
      | some (.done pctx builder current_set_id rest) =>
        let r := if current_set_id ≠ 0 then msg_builder_end_dset builder else (.IPX_OK, builder)
        if r.1 ≠ .IPX_OK then some (.cleanup r.1 pctx r.2)
        else sets_loop api cfg packet sets rest pctx r.2

/-- The parsed IPFIX message the host hands to the plugin: the raw packet,
the array of sets and the array of Data Record references. -/
structure ipx_msg_ipfix where
  packet : List Nat
  sets : List ipx_ipfix_set
  recs : List ipx_ipfix_record
  deriving DecidableEq, Repr

/-- The `max_buffer_size` of extender.c:416, the size of the output buffer. -/
def max_buffer_size (cfg : config) (msg : ipx_msg_ipfix) : Nat :=
  let max_ext_len := cfg.max_extension_len
  let drec_cnt := msg.recs.length
  let orig_size := ntohs_at msg.packet 2
  orig_size + max_ext_len * drec_cnt + 4096

/-- What a call of `ipx_plugin_process` leaves behind: the return code, the
plugin context, and the message given to `ipx_ctx_msg_pass` if there is one. -/
structure process_result where
  rc : ipx_rc
  pctx : plugin_ctx
  passed : Option msg_builder_s
  deriving DecidableEq, Repr

/-- Function `ipx_plugin_process` (extender.c:402). `none` is undefined
behaviour: a `NULL` configuration, or one of the crashes of the functions it calls. -/
def ipx_plugin_process (api : fds_api) (pctx : plugin_ctx) (msg : ipx_msg_ipfix) :
    Option process_result :=
  match pctx.config with
  | none => none
  | some cfg =>
    let builder : msg_builder_s := { msg := [], buffer := [], dset_open := none }
    let builder := msg_builder_write builder msg.packet FDS_IPFIX_MSG_HDR_LEN
    match sets_loop api cfg msg.packet msg.sets msg.recs pctx builder with
    | none => none
    | some (.cleanup rc pctx _) => some { rc := rc, pctx := pctx, passed := none }
    | some (.done pctx builder) =>
      let builder := msg_builder_finish builder
      if msg_builder_is_empty_msg builder then
        some { rc := .IPX_OK, pctx := pctx, passed := none }
      else some { rc := .IPX_OK, pctx := pctx, passed := some builder }

/-! ## `config.c` -/

/-- Constant `EXTENSION_EXPR` of `enum params_xml_nodes`. -/
def EXTENSION_EXPR : Nat := 1

/-- Constant `EXTENSION_ID` of `enum params_xml_nodes`. -/
def EXTENSION_ID : Nat := 2

/-- Constant `EXTENSION_VALUES` of `enum params_xml_nodes`. -/
def EXTENSION_VALUES : Nat := 3

/-- Constant `EXTENSION_VALUE` of `enum params_xml_nodes`. -/
def EXTENSION_VALUE : Nat := 4

/-- Constant `EXTENSION_IDS` of `enum params_xml_nodes`. -/
def EXTENSION_IDS : Nat := 5

/-- The `struct fds_xml_cont` that `fds_xml_next` yields, with the contexts
it gives access to: an element with string content (`ptr_string`) or a nested
element (`ptr_ctx`) with the elements `fds_xml_next` yields inside it, in
document order. -/
inductive fds_xml_cont where
  | ptr_string (id : Nat) (s : CString)
  | ptr_ctx (id : Nat) (children : List fds_xml_cont)

/-- An entry of `values` as `calloc` leaves it. -/
def zero_value : config_value_t := { expr := none, value := none, filter := 0 }

/-- An entry of `ids` as `calloc` leaves it; the zero of
`enum fds_iemgr_element_type` is `FDS_ET_OCTET_ARRAY`. -/
def zero_ids : config_ids_t :=
  { name := none, id := 0, data_type := .FDS_ET_OCTET_ARRAY, values := [] }

/-- Function `config_parse_values` (config.c:79) on the elements inside a
`values` element; `slot` is `id->values[id->values_count]`. The result is the
return code and the slot; `none` is the failure of
`assert(value_content->type == FDS_OPTS_T_STRING)`. -/
def config_parse_values : List fds_xml_cont → config_value_t → Option (Int × config_value_t)
  | [], slot => some (0, slot)
  | .ptr_string id s :: rest, slot =>
    if id = EXTENSION_VALUE then
      if strlen s = 0 then some (-1, slot)
      else config_parse_values rest { slot with value := some s }
    else if id = EXTENSION_EXPR then
      if strlen s = 0 then some (-1, slot)
      else config_parse_values rest { slot with expr := some s }
    else config_parse_values rest slot
  | .ptr_ctx id _ :: rest, slot =>
    if id = EXTENSION_VALUE ∨ id = EXTENSION_EXPR then none
    else config_parse_values rest slot

/-- Function `config_parse_ids` (config.c:114) on the elements inside an
`ids` element; `CONFIG_VALUSE_MAX` is the constant of `config.h`, which is not
at hand. The return value of `config_parse_values` is not looked at
(config.c:136). `none` is a failed `assert` or the use of `ptr_ctx` of an
element that has string content. -/
def config_parse_ids (CONFIG_VALUSE_MAX : Nat) :
    List fds_xml_cont → config_ids_t → Option (Int × config_ids_t)
  | [], id => some (0, id)
  | .ptr_string cid s :: rest, id =>
    if cid = EXTENSION_ID then
      if strlen s = 0 then some (-1, id)
      else config_parse_ids CONFIG_VALUSE_MAX rest { id with name := some s }
    else if cid = EXTENSION_VALUES then none
    else config_parse_ids CONFIG_VALUSE_MAX rest id
  | .ptr_ctx cid children :: rest, id =>
    if cid = EXTENSION_ID then none
    else if cid = EXTENSION_VALUES then
      if id.values.length ≥ CONFIG_VALUSE_MAX then some (-1, id)
      else
        match config_parse_values children zero_value with
        | none => none
        | some r =>
          config_parse_ids CONFIG_VALUSE_MAX rest { id with values := id.values ++ [r.2] }
    else config_parse_ids CONFIG_VALUSE_MAX rest id

/-- The loop of `config_parse` (config.c:176) over the elements inside
`params`. The inner `none` is `goto error`, the outer one a crash. -/
def config_parse_loop (CONFIG_IDS_MAX CONFIG_VALUSE_MAX : Nat) :
    List fds_xml_cont → config → Option (Option config)
  | [], cfg => some (some cfg)
  | .ptr_string cid _ :: rest, cfg =>
    if cid = EXTENSION_IDS then none
    else config_parse_loop CONFIG_IDS_MAX CONFIG_VALUSE_MAX rest cfg
  | .ptr_ctx cid children :: rest, cfg =>
    if cid = EXTENSION_IDS then
      if cfg.ids.length ≥ CONFIG_IDS_MAX then some none
      else
        match config_parse_ids CONFIG_VALUSE_MAX children zero_ids with
        | none => none
        | some r =>
          if r.1 ≠ 0 then some none
          else config_parse_loop CONFIG_IDS_MAX CONFIG_VALUSE_MAX rest
            { cfg with ids := cfg.ids ++ [r.2] }
    else config_parse_loop CONFIG_IDS_MAX CONFIG_VALUSE_MAX rest cfg

/-- Function `config_parse` (config.c:146). `params_ctx` is what
`fds_xml_parse_mem` returns for the configuration text: `none` for `NULL`,
else the elements inside `params`. The result is the configuration, `none`
for `NULL`; the outer `none` is a crash. -/
def config_parse (CONFIG_IDS_MAX CONFIG_VALUSE_MAX : Nat)
    (params_ctx : Option (List fds_xml_cont)) : Option (Option config) :=
  match params_ctx with
  | none => some none
  | some contents =>
    config_parse_loop CONFIG_IDS_MAX CONFIG_VALUSE_MAX contents
      { ids := [], max_extension_len := 0 }

/-! ## `ipx_plugin_init` -/

/-- The libfds entry points `ipx_plugin_init` calls.

* `fds_ipfix_filter_create expr` is the compiled filter when
  `fds_ipfix_filter_create(&filter, iemgr, expr)` returns `FDS_OK`, `none`
  otherwise.
* `fds_iemgr_elem_find_name name` is the `id` and the `data_type` of the
  element `fds_iemgr_elem_find_name(iemgr, name)` finds, `none` for `NULL`. -/
structure iemgr_api where
  fds_ipfix_filter_create : CString → Option fds_ipfix_filter_t
  fds_iemgr_elem_find_name : CString → Option (Nat × fds_iemgr_element_type)

/-- The loop of `get_max_len` (extender.c:137); `max_len` is the running
maximum, a Candidate whose value is `NULL` is passed over. -/
def get_max_len_loop : List config_value_t → Nat → Nat
  | [], max_len => max_len
  | value :: rest, max_len =>
    match value.value with
    | some s =>
      let len := strlen s
      if len > max_len then get_max_len_loop rest len else get_max_len_loop rest max_len
    | none => get_max_len_loop rest max_len

/-- Function `get_max_len` (extender.c:134). -/
def get_max_len (id : config_ids_t) : Nat := get_max_len_loop id.values 0

/-- The inner loop of extender.c:167 over the Candidates of one Extension:
compile the filter of the Candidate, then look the name of the Extension up
and store `id` and `data_type`, which are `elem`. The inner `none` is the
return of `IPX_ERR_DENIED`; the outer `none` is the crash on a `NULL`
expression or name. -/
def init_values (host : iemgr_api) (name : Option CString) :
    List config_value_t → Nat × fds_iemgr_element_type →
    Option (Option (List config_value_t × (Nat × fds_iemgr_element_type)))
  | [], elem => some (some ([], elem))
  | value :: rest, _ =>
    match value.expr with
    | none => none
    | some expr =>
      match host.fds_ipfix_filter_create expr with
      | none => some none
      | some filter =>
        match name with
        | none => none
        | some nm =>
          match host.fds_iemgr_elem_find_name nm with
          | none => some none
          | some elem =>
            match init_values host name rest elem with
            | none => none
            | some none => some none
            | some (some r) => some (some ({ value with filter := filter } :: r.1, r.2))

/-- The outer loop of extender.c:166 over the Extensions. -/
def init_ids (host : iemgr_api) : List config_ids_t → Option (Option (List config_ids_t))
  | [] => some (some [])
  | id :: rest =>
    match init_values host id.name id.values (id.id, id.data_type) with
    | none => none
    | some none => some none
    | some (some r) =>
      match init_ids host rest with
      | none => none
      | some none => some none
      | some (some ids) =>
        some (some ({ id with values := r.1, id := r.2.1, data_type := r.2.2 } :: ids))

/-- The loop of extender.c:194 that adds up `tmp_len`. -/
def max_extension_len_loop : List config_ids_t → Nat → Nat
  | [], tmp_len => tmp_len
  | id :: rest, tmp_len =>
    let size := size_of_data_type id.data_type
    if size = UINT16_MAX then
      let id_len := get_max_len id
      let id_len := if id_len < 255 then id_len + 1 else id_len + 3
      max_extension_len_loop rest (tmp_len + id_len)
    else max_extension_len_loop rest (tmp_len + size)

/-- Function `ipx_plugin_init` (extender.c:148). The result is the return
code and the plugin context stored with `ipx_ctx_private_set`; `none` is a
crash. -/
def ipx_plugin_init (host : iemgr_api) (CONFIG_IDS_MAX CONFIG_VALUSE_MAX : Nat)
    (params_ctx : Option (List fds_xml_cont)) : Option (ipx_rc × Option plugin_ctx) :=
  let pctx := create_plugin_ctx
  match config_parse CONFIG_IDS_MAX CONFIG_VALUSE_MAX params_ctx with
  | none => none
  | some none => some (.IPX_ERR_DENIED, none)
  | some (some cfg) =>
    match init_ids host cfg.ids with
    | none => none
    | some none => some (.IPX_ERR_DENIED, none)
    | some (some ids) =>
      let tmp_len := max_extension_len_loop ids 0
      let cfg := { cfg with ids := ids, max_extension_len := tmp_len }
      some (.IPX_OK, some { pctx with config := some cfg })

/-- The `max_extension_len` of the spec: the sum over the Extensions of the
size of the type when it is fixed-width, and for a variable-length type of
`m + 1` if `m < 255` and `m + 3` otherwise, `m` being the maximum length of
the value strings of the Candidates. -/
def spec_max_extension_len (ids : List config_ids_t) : Nat :=
  (ids.map fun id =>
    if size_of_data_type id.data_type = 65535 then
      let m := ((id.values.filterMap fun v => v.value).map List.length).foldr max 0
      if m < 255 then m + 1 else m + 3
    else size_of_data_type id.data_type).sum

/-- A sample IE manager and filter compiler: the names `interfaceName`
(IE 82, string), `sourceIPv4Address` (IE 8, IPv4 address) and
`ingressInterface` (IE 10, unsigned32) are known, written here as "if", "ip"
and "in"; every non-empty expression compiles to the filter handle 1. -/
def sample_host : iemgr_api :=
  { fds_ipfix_filter_create := fun expr => if expr = [] then none else some 1,
    fds_iemgr_elem_find_name := fun name =>
      if name = [105, 102] then some (82, .FDS_ET_STRING)
      else if name = [105, 112] then some (8, .FDS_ET_IPV4_ADDRESS)
      else if name = [105, 110] then some (10, .FDS_ET_UNSIGNED_32)
      else none }

/-- The configuration text of scenario 1: the Extension "if" with the
Candidate (expr "1", value "eth0"). -/
def sample_params : Option (List fds_xml_cont) :=
  some [.ptr_ctx 5 [.ptr_string 2 [105, 102],
    .ptr_ctx 3 [.ptr_string 1 [49], .ptr_string 4 [101, 116, 104, 48]]]]


/-! ## Sample environment -/

/-- Sum of the data lengths the `count` field specifiers starting at offset
`off` announce; a variable-length field counts for one byte. -/
def sample_data_len (buffer : List Nat) : Nat → Nat → Nat
  | 0, _ => 0
  | count + 1, off =>
    let len := ntohs_at buffer (off + 2)
    (if len = 65535 then 1 else len) + sample_data_len buffer count (off + 4)

/-- A small template parser in the manner of libfds, for IANA fields only: it
rejects a Template ID below 256, a record shorter than its field count
announces, and a template whose data record would not fit an IPFIX message
(more than 65515 bytes); the parsed template keeps the bytes it consumed. -/
def sample_parse (buffer : List Nat) : Option fds_template :=
  let id := ntohs_at buffer 0
  let count := ntohs_at buffer 2
  if buffer.length < 4 ∨ id < 256 ∨ buffer.length < 4 + 4 * count then none
  else if 65515 < sample_data_len buffer count 4 then none
  else some { type := .FDS_TYPE_TEMPLATE, id := id, raw := buffer.take (4 + 4 * count) }

/-- A sample environment: the parser above, an IE binder that succeeds, and
filters that are their own verdict: handle 0 never matches, any other handle
matches every record. -/
def sample_api : fds_api :=
  { fds_template_parse := sample_parse,
    fds_template_ies_define := fun _ => true,
    fds_ipfix_filter_eval_biflow := fun filter _ _ =>
      if filter = 0 then .FDS_IPFIX_FILTER_NO_MATCH else .FDS_IPFIX_FILTER_MATCH_FWD }

/-- Template 256 with the single field `sourceIPv4Address` (IE 8, 4 bytes). -/
def sample_tmplt : fds_template :=
  { type := .FDS_TYPE_TEMPLATE, id := 256, raw := [1, 0, 0, 1, 0, 8, 0, 4] }

/-- The Extension `interfaceName` (IE 82, a string) with one Candidate of
value "eth0" whose filter matches. -/
def sample_ext : config_ids_t :=
  { name := some [105, 102], id := 82, data_type := .FDS_ET_STRING,
    values := [{ expr := some [49], value := some [101, 116, 104, 48], filter := 1 }] }

/-- A configuration with the single Extension `sample_ext`. -/
def sample_cfg : config := { ids := [sample_ext], max_extension_len := 5 }

/-- A message: header, a Template Set with template 256, a Data Set with the
one record `C0 A8 01 01`. -/
def sample_msg : ipx_msg_ipfix :=
  { packet := [0, 10, 0, 36, 0, 0, 0, 1, 0, 0, 0, 1, 0, 0, 0, 1,
               0, 2, 0, 12, 1, 0, 0, 1, 0, 8, 0, 4,
               1, 0, 0, 8, 192, 168, 1, 1],
    sets := [⟨16⟩, ⟨28⟩],
    recs := [⟨⟨32, 4, sample_tmplt⟩⟩] }

/-- The plugin context `ipx_plugin_init` leaves for `sample_cfg`. -/
def sample_init_ctx : plugin_ctx :=
  { config := some sample_cfg, templates := [], next_template_id := 40000 }

/-- The plugin context after template 256 was extended with `sample_ext`. -/
def sample_ctx : plugin_ctx :=
  { config := some sample_cfg,
    templates :=
      [⟨256, 40000, ⟨.FDS_TYPE_TEMPLATE, 40000, [156, 64, 0, 2, 0, 8, 0, 4, 0, 82, 255, 255]⟩,
        [156, 64, 0, 2, 0, 8, 0, 4, 0, 82, 255, 255]⟩],
    next_template_id := 40001 }

/-- Options Template 256: the same Template ID as `sample_tmplt`, one scope
field and one other field. -/
def sample_opts_tmplt : fds_template :=
  { type := .FDS_TYPE_TEMPLATE_OPTS, id := 256,
    raw := [1, 0, 0, 2, 0, 1, 0, 149, 0, 4, 0, 41, 0, 8] }

/-- A parser that accepts every buffer as a template record and keeps its
bytes, an IE binder that succeeds, filters that never match. -/
def accept_api : fds_api :=
  { fds_template_parse := fun buffer =>
      some { type := .FDS_TYPE_TEMPLATE, id := ntohs_at buffer 0, raw := buffer },
    fds_template_ies_define := fun _ => true,
    fds_ipfix_filter_eval_biflow := fun _ _ _ => .FDS_IPFIX_FILTER_NO_MATCH }

/-- Template 256 with 16377 fields `paddingOctets` (IE 210) of length 1: a raw
record of 65512 bytes, the longest that fits an IPFIX message. -/
def wide_tmplt : fds_template :=
  { type := .FDS_TYPE_TEMPLATE, id := 256,
    raw := [1, 0, 63, 249] ++ (List.replicate 16377 [0, 210, 0, 1]).flatten }

/-! ## Reachable plugin contexts -/

/-- The plugin contexts reachable from `create_plugin_ctx`, once
`ipx_plugin_init` has stored a configuration, by calls of
`get_or_create_extended_template` with any template (its `id` is a
`uint16_t`), builder and Extension list, in any environment. -/
inductive Reachable : plugin_ctx → Prop where
  | init (cfg : Option config) : Reachable { create_plugin_ctx with config := cfg }
  | step (api : fds_api) (pctx : plugin_ctx) (old_tmplt : fds_template)
      (builder : msg_builder_s) (extension : List config_ids_t) (r : Option fds_template)
      (pctx1 : plugin_ctx) (builder1 : msg_builder_s) :
      Reachable pctx → old_tmplt.id < 65536 →
      get_or_create_extended_template api pctx old_tmplt builder extension
        = some (r, pctx1, builder1) →
      Reachable pctx1

/-- The plugin contexts reachable by calls none of which fails after it has
allocated a Template ID: each call returns a template or leaves the context
as it was. -/
inductive ReachableClean : plugin_ctx → Prop where
  | init (cfg : Option config) : ReachableClean { create_plugin_ctx with config := cfg }
  | step (api : fds_api) (pctx : plugin_ctx) (old_tmplt : fds_template)
      (builder : msg_builder_s) (extension : List config_ids_t) (r : Option fds_template)
      (pctx1 : plugin_ctx) (builder1 : msg_builder_s) :
      ReachableClean pctx → old_tmplt.id < 65536 →
      get_or_create_extended_template api pctx old_tmplt builder extension
        = some (r, pctx1, builder1) →
      (r.isSome = true ∨ pctx1 = pctx) →
      ReachableClean pctx1

/-- Template 257 with the single field of IE 1 and length 65515; extended by
one more field its data record would no longer fit an IPFIX message. -/
def heavy_tmplt : fds_template :=
  { type := .FDS_TYPE_TEMPLATE, id := 257, raw := [1, 1, 0, 1, 0, 1, 255, 235] }

/-- Template 258 with the single field `sourceIPv4Address`. -/
def other_tmplt : fds_template :=
  { type := .FDS_TYPE_TEMPLATE, id := 258, raw := [1, 2, 0, 1, 0, 8, 0, 4] }

/-- The context after a failed derivation for template 257 followed by the
derivation for template 256. -/
def late_ctx : plugin_ctx :=
  { config := some sample_cfg,
    templates :=
      [⟨256, 40001, ⟨.FDS_TYPE_TEMPLATE, 40001, [156, 65, 0, 2, 0, 8, 0, 4, 0, 82, 255, 255]⟩,
        [156, 65, 0, 2, 0, 8, 0, 4, 0, 82, 255, 255]⟩],
    next_template_id := 40002 }

/-- The context after the derivation for template 256, 65535 failed
derivations for template 257, and the derivation for template 258. -/
def dup_ctx : plugin_ctx :=
  { config := some sample_cfg,
    templates :=
      [⟨258, 40000, ⟨.FDS_TYPE_TEMPLATE, 40000, [156, 64, 0, 2, 0, 8, 0, 4, 0, 82, 255, 255]⟩,
        [156, 64, 0, 2, 0, 8, 0, 4, 0, 82, 255, 255]⟩,
       ⟨256, 40000, ⟨.FDS_TYPE_TEMPLATE, 40000, [156, 64, 0, 2, 0, 8, 0, 4, 0, 82, 255, 255]⟩,
        [156, 64, 0, 2, 0, 8, 0, 4, 0, 82, 255, 255]⟩],
    next_template_id := 40001 }

/-! ## Records of full size -/

/-- Template 256 with the single variable-length field `applicationName`
(IE 96). -/
def var_tmplt : fds_template :=
  { type := .FDS_TYPE_TEMPLATE, id := 256, raw := [1, 0, 0, 1, 0, 96, 255, 255] }

/-- The Extension `interfaceDescription` (IE 83, a string) with one Candidate
whose filter matches and whose value has 30 bytes. -/
def long_ext : config_ids_t :=
  { name := some [105, 102], id := 83, data_type := .FDS_ET_STRING,
    values := [{ expr := some [49], value := some (List.replicate 30 120), filter := 1 }] }

/-- A configuration with the single Extension `long_ext`. -/
def long_cfg : config := { ids := [long_ext], max_extension_len := 31 }

/-- A packet of 65535 bytes whose Data Set 256 holds one record of 65515
bytes: a variable-length field with the 3-byte length prefix `FF FF E8` and
65512 bytes of payload. -/
def var_packet : List Nat :=
  [0, 10, 255, 255, 0, 0, 0, 1, 0, 0, 0, 1, 0, 0, 0, 1, 1, 0, 255, 239, 255, 255, 232]
    ++ List.replicate 65512 97

/-- A configuration text whose Candidate has an empty value: the Extension
"if" with the Candidate (expr "1", value ""). -/
def empty_value_params : Option (List fds_xml_cont) :=
  some [.ptr_ctx 5 [.ptr_string 2 [105, 102],
    .ptr_ctx 3 [.ptr_string 1 [49], .ptr_string 4 []]]]

/-- A configuration text with one Extension of unknown name "zz" and no
Candidates. -/
def unknown_name_params : Option (List fds_xml_cont) :=
  some [.ptr_ctx 5 [.ptr_string 2 [122, 122]]]

/-- A configuration text with the Extension "ip" (`sourceIPv4Address`, an
IPv4 address) and the Candidate (expr "1", value "10.0.0.1"). -/
def ipv4_params : Option (List fds_xml_cont) :=
  some [.ptr_ctx 5 [.ptr_string 2 [105, 112],
    .ptr_ctx 3 [.ptr_string 1 [49], .ptr_string 4 [49, 48, 46, 48, 46, 48, 46, 49]]]]

/-- The Extension that `ipx_plugin_init` builds from `ipv4_params`. -/
def ipv4_ext : config_ids_t :=
  { name := some [105, 112], id := 8, data_type := .FDS_ET_IPV4_ADDRESS,
    values := [{ expr := some [49], value := some [49, 48, 46, 48, 46, 48, 46, 49],
                 filter := 1 }] }

/-- Options Template 257: one scope field (IE 149, 4 bytes) and one other
field (IE 41, 8 bytes). -/
def opts_tmplt : fds_template :=
  { type := .FDS_TYPE_TEMPLATE_OPTS, id := 257,
    raw := [1, 1, 0, 2, 0, 1, 0, 149, 0, 4, 0, 41, 0, 8] }

/-- A message with a Data Set 256 holding the record `C0 A8 01 01` under
`sample_tmplt`, followed by a Data Set 257 holding one record of 12 bytes
under the Options Template `opts_tmplt`. -/
def opts_msg : ipx_msg_ipfix :=
  { packet := [0, 10, 0, 40, 0, 0, 0, 1, 0, 0, 0, 1, 0, 0, 0, 1,
               1, 0, 0, 8, 192, 168, 1, 1,
               1, 1, 0, 16, 0, 0, 0, 1, 0, 0, 0, 0, 0, 0, 0, 5],
    sets := [⟨16⟩, ⟨24⟩],
    recs := [⟨⟨20, 4, sample_tmplt⟩⟩, ⟨⟨28, 12, opts_tmplt⟩⟩] }

/-- The message `opts_msg` without its Options Data Set. -/
def plain_msg : ipx_msg_ipfix :=
  { packet := [0, 10, 0, 24, 0, 0, 0, 1, 0, 0, 0, 1, 0, 0, 0, 1,
               1, 0, 0, 8, 192, 168, 1, 1],
    sets := [⟨16⟩],
    recs := [⟨⟨20, 4, sample_tmplt⟩⟩] }


/-- Template 256 with 4000 fields `paddingOctets` (IE 210) of length 1: a raw
record of 16004 bytes. -/
def broad_tmplt : fds_template :=
  { type := .FDS_TYPE_TEMPLATE, id := 256,
    raw := [1, 0, 15, 160] ++ (List.replicate 4000 [0, 210, 0, 1]).flatten }

/-- A message of 4020 bytes whose Data Set 256 holds one record of 4000 bytes
under `broad_tmplt`. -/
def broad_msg : ipx_msg_ipfix :=
  { packet := [0, 10, 15, 180, 0, 0, 0, 1, 0, 0, 0, 1, 0, 0, 0, 1, 1, 0, 15, 164]
      ++ List.replicate 4000 0,
    sets := [⟨16⟩],
    recs := [⟨⟨20, 4000, broad_tmplt⟩⟩] }


/-- The plugin context `ipx_plugin_init` leaves for a configuration without
Extensions. -/
def bare_ctx : plugin_ctx :=
  { config := some { ids := [], max_extension_len := 0 }, templates := [],
    next_template_id := 40000 }

/-- A message that holds no Data Set: the header and the Template Set of
`sample_msg`. -/
def tmplt_only_msg : ipx_msg_ipfix :=
  { packet := [0, 10, 0, 28, 0, 0, 0, 1, 0, 0, 0, 1, 0, 0, 0, 1,
               0, 2, 0, 12, 1, 0, 0, 1, 0, 8, 0, 4],
    sets := [⟨16⟩],
    recs := [] }

/-- The sets of a message hold no Data Set and lie one after the other from
offset `off` to the end of the packet: each starts where the one before it
ends, has a Set ID below 256, and has the length its header announces inside
the packet. -/
def nondata_sets_tile (packet : List Nat) : List ipx_ipfix_set → Nat → Bool
  | [], off => off == packet.length
  | set :: sets, off =>
    set.ptr == off && decide (ntohs_at packet off < FDS_IPFIX_SET_MIN_DSET)
      && decide (off + ntohs_at packet (off + 2) ≤ packet.length)
      && nondata_sets_tile packet sets (off + ntohs_at packet (off + 2))


/-- The bytes `bytes`, at least one, stand at offset `off` of the buffer of
the builder, behind the Version and Length fields of the message header and
clear of the Set Header of the open Data Set: the places that
`msg_builder_end_dset` and `msg_builder_finish` patch or rewind. -/
def Keeps (off : Nat) (bytes : List Nat) (b : msg_builder_s) : Prop :=
  bytes ≠ [] ∧ 4 ≤ off ∧ mem_read b.buffer off bytes.length = bytes ∧
    ∀ id s, b.dset_open = some (id, s) → off + bytes.length ≤ s ∨ s + 4 ≤ off

/-- No Data Set is open with an empty body: the buffer extends beyond the
Set Header of the open Data Set. -/
def BodyOpen (b : msg_builder_s) : Prop :=
  ∀ id s, b.dset_open = some (id, s) → s + 4 < b.buffer.length

/-- The layout of an output buffer `out` with respect to the sets of the
input message, in input order, from offset `off` on. A set with an ID below
256 occupies the next bytes of the output, which are the bytes of the set
(the `ntohs(length)` bytes at its start, as far as the packet holds them). A
Data Set occupies a region `[off, off1)` of the output, into which all the
record references added for it (`refs1`) point. `refs` are the record
references of the output message, in order. -/
inductive Tiled (packet out : List Nat) :
    List ipx_ipfix_set → List ipx_ipfix_record → Nat → Prop where
  | nil (off : Nat) : off ≤ out.length → Tiled packet out [] [] off
  | copied (set : ipx_ipfix_set) (sets : List ipx_ipfix_set) (refs : List ipx_ipfix_record)
      (off : Nat) :
      ntohs_at packet set.ptr < 256 →
      mem_read out off (mem_read packet set.ptr (ntohs_at packet (set.ptr + 2))).length
        = mem_read packet set.ptr (ntohs_at packet (set.ptr + 2)) →
      Tiled packet out sets refs
        (off + (mem_read packet set.ptr (ntohs_at packet (set.ptr + 2))).length) →
      Tiled packet out (set :: sets) refs off
  | dset (set : ipx_ipfix_set) (sets : List ipx_ipfix_set) (refs1 refs2 : List ipx_ipfix_record)
      (off off1 : Nat) :
      ¬ ntohs_at packet set.ptr < 256 →
      off ≤ off1 →
      (∀ r ∈ refs1, off ≤ r.drec.data ∧ r.drec.data < off1) →
      Tiled packet out sets refs2 off1 →
      Tiled packet out (set :: sets) (refs1 ++ refs2) off


/-- The builder holds at least the first four bytes of the message header,
and the Set Header of the open Data Set lies behind them, inside the
buffer. -/
def Framed (b : msg_builder_s) : Prop :=
  4 ≤ b.buffer.length ∧ ∀ id s, b.dset_open = some (id, s) → 4 ≤ s ∧ s + 4 ≤ b.buffer.length


/-- The template `t` is the extended Template of an entry of the cache
`cache0`. -/
def Cached (cache0 : List template_node) (t : fds_template) : Prop :=
  ∃ node ∈ cache0, node.new_tmplt = t

/-- The invariant of `ipx_plugin_process` behind claim C12, `cache0` being
the cache when the message arrives: the builder is framed; the extended
Template of every cache entry was in `cache0`, or its Template Set (Set ID 2,
a length, the raw record) stands in the buffer; and the extended Template of
every record reference was in `cache0`, or its Template Set stands in the
buffer and ends at or before the offset of the record. -/
def TemplateSetsKept (cache0 : List template_node) (p : plugin_ctx) (b : msg_builder_s) :
    Prop :=
  Framed b ∧
  (∀ node ∈ p.templates, Cached cache0 node.new_tmplt ∨
    ∃ o L, Keeps o (htons 2 ++ htons L ++ node.new_tmplt.raw) b) ∧
  (∀ ref ∈ b.msg, Cached cache0 ref.drec.tmplt ∨
    ∃ o L, o + (4 + ref.drec.tmplt.raw.length) ≤ ref.drec.data ∧
      Keeps o (htons 2 ++ htons L ++ ref.drec.tmplt.raw) b)


/-- The Data Record has at least one byte, and it starts inside the packet. -/
def NonEmptyRecord (packet : List Nat) (r : ipx_ipfix_record) : Prop :=
  0 < r.drec.size ∧ r.drec.data < packet.length

/-- The invariant of the record loop of one Data Set behind claim C14, `b0`
being the builder when the Data Set is reached: the builder is framed, its
open Data Set has a body, the buffer has not shrunk, and the record references
added since point into the part of the buffer written since. -/
def RegionGrows (b0 : msg_builder_s) (b : msg_builder_s) : Prop :=
  Framed b ∧ BodyOpen b ∧ b0.buffer.length ≤ b.buffer.length ∧
    ∃ refs, b.msg = b0.msg ++ refs ∧
      ∀ r ∈ refs, b0.buffer.length ≤ r.drec.data ∧ r.drec.data < b.buffer.length

/-- The output message the sample environment gives for `sample_msg` with an
empty cache: the Template Set of the input, the Template Set of Template
40000, and the Data Set 40000 with the extended record. -/
def sample_out : msg_builder_s :=
  { msg := [⟨⟨48, 9, ⟨.FDS_TYPE_TEMPLATE, 40000, [156, 64, 0, 2, 0, 8, 0, 4, 0, 82, 255, 255]⟩⟩⟩],
    buffer := [0, 10, 0, 60, 0, 0, 0, 1, 0, 0, 0, 1, 0, 0, 0, 1,
               0, 2, 0, 12, 1, 0, 0, 1, 0, 8, 0, 4,
               0, 2, 0, 16, 156, 64, 0, 2, 0, 8, 0, 4, 0, 82, 255, 255,
               156, 64, 0, 16, 192, 168, 1, 1, 4, 101, 116, 104, 48, 0, 0, 0],
    dset_open := none }

/-- The output message the sample environment gives for `plain_msg` once
Template 256 is in the cache: the Data Set 40000 with the extended record,
and no Template Set. -/
def plain_out : msg_builder_s :=
  { msg := [⟨⟨20, 9, ⟨.FDS_TYPE_TEMPLATE, 40000, [156, 64, 0, 2, 0, 8, 0, 4, 0, 82, 255, 255]⟩⟩⟩],
    buffer := [0, 10, 0, 32, 0, 0, 0, 1, 0, 0, 0, 1, 0, 0, 0, 1,
               156, 64, 0, 16, 192, 168, 1, 1, 4, 101, 116, 104, 48, 0, 0, 0],
    dset_open := none }


/-- The `ids` elements of a configuration text, each given by the elements
inside it: the Extensions of the configuration, in document order. -/
def extension_elems : List fds_xml_cont → List (List fds_xml_cont)
  | [] => []
  | .ptr_string _ _ :: rest => extension_elems rest
  | .ptr_ctx cid children :: rest =>
    if cid = EXTENSION_IDS then children :: extension_elems rest else extension_elems rest

/-- The number of `values` elements inside an `ids` element: the number of
Candidates of the Extension. -/
def candidate_count : List fds_xml_cont → Nat
  | [] => 0
  | .ptr_string _ _ :: rest => candidate_count rest
  | .ptr_ctx cid _ :: rest =>
    if cid = EXTENSION_VALUES then candidate_count rest + 1 else candidate_count rest

/-- The elements inside a `values` element have the type that `values_params`
(config.c:61) declares: `expr` and `value` have string content. -/
def values_typed : List fds_xml_cont → Bool
  | [] => true
  | .ptr_string _ _ :: rest => values_typed rest
  | .ptr_ctx cid _ :: rest =>
    !(decide (cid = EXTENSION_VALUE ∨ cid = EXTENSION_EXPR)) && values_typed rest

/-- The elements inside an `ids` element have the type that `ids_params`
(config.c:67) declares: `id` has string content, `values` is a nested
element whose content is typed in turn. -/
def ids_typed : List fds_xml_cont → Bool
  | [] => true
  | .ptr_string cid _ :: rest => !(decide (cid = EXTENSION_VALUES)) && ids_typed rest
  | .ptr_ctx cid children :: rest =>
    !(decide (cid = EXTENSION_ID)) && (!(decide (cid = EXTENSION_VALUES)) || values_typed children)
      && ids_typed rest

/-- The elements inside `params` have the type that `args_params`
(config.c:73) declares: `ids` is a nested element whose content is typed in
turn. This is what `fds_xml_parse_mem` yields for a configuration text it
accepts. -/
def params_typed : List fds_xml_cont → Bool
  | [] => true
  | .ptr_string cid _ :: rest => !(decide (cid = EXTENSION_IDS)) && params_typed rest
  | .ptr_ctx cid children :: rest =>
    (!(decide (cid = EXTENSION_IDS)) || ids_typed children) && params_typed rest

/-- A configuration text with two Extensions, "if" with two Candidates and
"in" with one. -/
def two_ids_params : List fds_xml_cont :=
  [.ptr_ctx 5 [.ptr_string 2 [105, 102],
     .ptr_ctx 3 [.ptr_string 1 [49], .ptr_string 4 [101, 116, 104, 48]],
     .ptr_ctx 3 [.ptr_string 1 [50], .ptr_string 4 [101, 116, 104, 49]]],
   .ptr_ctx 5 [.ptr_string 2 [105, 110],
     .ptr_ctx 3 [.ptr_string 1 [49], .ptr_string 4 [55]]]]


/-- What one Extension adds to `tmp_len` in the loop of extender.c:194: the
size of its data type, or for a variable-length type the longest value
string of its Candidates plus 1 or 3 bytes for the length prefix. -/
def extension_len (id : config_ids_t) : Nat :=
  let size := size_of_data_type id.data_type
  if size = UINT16_MAX then
    let id_len := get_max_len id
    if id_len < 255 then id_len + 1 else id_len + 3
  else size

/-- The bytes `add_value` appends for a record over all Extensions, in
declared order (nothing for an entry on which it crashes). -/
def extension_bytes (api : fds_api) (cfg : config) (packet : List Nat) (drec : fds_drec) :
    List Nat :=
  (cfg.ids.map fun ext => (appended_bytes (compute_match api packet drec ext)).getD []).flatten

/-- The words of the spec for the records of one Data Set: the records are
written one after the other, in input order, into the Data Set that is open;
each gets a record reference at the offset where its bytes start, with the
extended Template `t`, and its input bytes followed by the bytes of its
Extensions are appended. No Data Set is opened or closed. -/
def spec_write_records (api : fds_api) (cfg : config) (packet : List Nat) (t : fds_template) :
    List ipx_ipfix_record → msg_builder_s → msg_builder_s
  | [], b => b
  | r :: rs, b =>
    spec_write_records api cfg packet t rs
      { msg := b.msg ++ [⟨⟨b.buffer.length,
          (r.drec.size + (extension_bytes api cfg packet r.drec).length) % 65536, t⟩⟩],
        buffer := b.buffer ++ mem_read packet r.drec.data r.drec.size
          ++ extension_bytes api cfg packet r.drec,
        dset_open := b.dset_open }

/-- A message with one Data Set 256 that holds two records under Template
256. -/
def pair_msg : ipx_msg_ipfix :=
  { packet := [0, 10, 0, 28, 0, 0, 0, 1, 0, 0, 0, 1, 0, 0, 0, 1,
               1, 0, 0, 12, 192, 168, 1, 1, 192, 168, 1, 2],
    sets := [⟨16⟩],
    recs := [⟨⟨20, 4, sample_tmplt⟩⟩, ⟨⟨24, 4, sample_tmplt⟩⟩] }


/-- The passes of the record loop of `dset_loop` for one Data Set:
`DsetPass api cfg packet set recs p b cur p2 b2 cur2 r` says that the loop
started with the records `recs`, the plugin context `p`, the builder `b` and
`current_set_id = cur` comes to process the record `r` with the plugin
context `p2`, the builder `b2` and `current_set_id = cur2`. -/
inductive DsetPass (api : fds_api) (cfg : config) (packet : List Nat) (set : ipx_ipfix_set) :
    List ipx_ipfix_record → plugin_ctx → msg_builder_s → Nat →
    plugin_ctx → msg_builder_s → Nat → ipx_ipfix_record → Prop where
  | here (record : ipx_ipfix_record) (rest : List ipx_ipfix_record) (p : plugin_ctx)
      (b : msg_builder_s) (cur : Nat) :
      record_belongs_to_set packet set record.drec = true →
      DsetPass api cfg packet set (record :: rest) p b cur p b cur record
  | later (record : ipx_ipfix_record) (rest : List ipx_ipfix_record) (p : plugin_ctx)
      (b : msg_builder_s) (cur : Nat) (p1 : plugin_ctx) (b1 : msg_builder_s) (cur1 : Nat)
      (p2 : plugin_ctx) (b2 : msg_builder_s) (cur2 : Nat) (r : ipx_ipfix_record) :
      record_belongs_to_set packet set record.drec = true →
      process_record api cfg packet p b cur record = some (.next p1 b1 cur1) →
      DsetPass api cfg packet set rest p1 b1 cur1 p2 b2 cur2 r →
      DsetPass api cfg packet set (record :: rest) p b cur p2 b2 cur2 r

/-- The passes of the record loop that `sets_loop` executes:
`Pass api cfg packet sets recs p b before p2 b2 cur r` says that the loop over
the sets `sets`, started with the records `recs`, the plugin context `p` and
the builder `b`, comes to process the record `r` of a Data Set with the plugin
context `p2`, the builder `b2` and `current_set_id = cur`; `before` are the
sets of `sets` in front of that Data Set. -/
inductive Pass (api : fds_api) (cfg : config) (packet : List Nat) :
    List ipx_ipfix_set → List ipx_ipfix_record → plugin_ctx → msg_builder_s →
    List ipx_ipfix_set → plugin_ctx → msg_builder_s → Nat → ipx_ipfix_record → Prop where
  | in_dset (set : ipx_ipfix_set) (sets : List ipx_ipfix_set) (recs : List ipx_ipfix_record)
      (p : plugin_ctx) (b : msg_builder_s) (p2 : plugin_ctx) (b2 : msg_builder_s) (cur : Nat)
      (r : ipx_ipfix_record) :
      ¬ ntohs_at packet set.ptr < FDS_IPFIX_SET_MIN_DSET →
      DsetPass api cfg packet set recs p b 0 p2 b2 cur r →
      Pass api cfg packet (set :: sets) recs p b [] p2 b2 cur r
  | after_copy (set : ipx_ipfix_set) (sets : List ipx_ipfix_set) (recs : List ipx_ipfix_record)
      (p : plugin_ctx) (b : msg_builder_s) (before : List ipx_ipfix_set) (p2 : plugin_ctx)
      (b2 : msg_builder_s) (cur : Nat) (r : ipx_ipfix_record) :
      ntohs_at packet set.ptr < FDS_IPFIX_SET_MIN_DSET →
      Pass api cfg packet sets recs p (msg_builder_copy_set b packet set).2 before p2 b2 cur r →
      Pass api cfg packet (set :: sets) recs p b (set :: before) p2 b2 cur r
  | after_dset (set : ipx_ipfix_set) (sets : List ipx_ipfix_set) (recs : List ipx_ipfix_record)
      (p : plugin_ctx) (b : msg_builder_s) (p1 : plugin_ctx) (b1 : msg_builder_s) (cur1 : Nat)
      (rest : List ipx_ipfix_record) (before : List ipx_ipfix_set) (p2 : plugin_ctx)
      (b2 : msg_builder_s) (cur : Nat) (r : ipx_ipfix_record) :
      ¬ ntohs_at packet set.ptr < FDS_IPFIX_SET_MIN_DSET →
      dset_loop api cfg packet set recs p b 0 = some (.done p1 b1 cur1 rest) →
      Pass api cfg packet sets rest p1
        (if cur1 ≠ 0 then msg_builder_end_dset b1 else (.IPX_OK, b1)).2 before p2 b2 cur r →
      Pass api cfg packet (set :: sets) recs p b (set :: before) p2 b2 cur r

/-- The records of each Data Set of the message are described by one
Template: what the host guarantees for the records it parsed, the Template
being the one the Set ID names. -/
def SetsShareTemplate (msg : ipx_msg_ipfix) : Prop :=
  ∀ set ∈ msg.sets, ∀ r1 ∈ msg.recs, ∀ r2 ∈ msg.recs,
    record_belongs_to_set msg.packet set r1.drec = true →
    record_belongs_to_set msg.packet set r2.drec = true → r1.drec.tmplt = r2.drec.tmplt

/-- No extended Template of the cache has the Template ID 0. -/
def CacheIdsNonzero (p : plugin_ctx) : Prop :=
  ∀ node ∈ p.templates, node.new_tmplt.id ≠ 0

/-- The invariant of the record loop of the Data Set `set` when its records
share one Template, `recs` being the records of the message: the builder is
framed, the cache holds no Template ID 0, no Data Set is open while
`current_set_id` is 0, and once `current_set_id` is not 0 the Template of
every record of the set is in the cache. -/
def InDset (packet : List Nat) (set : ipx_ipfix_set) (recs : List ipx_ipfix_record)
    (p : plugin_ctx) (b : msg_builder_s) (cur : Nat) : Prop :=
  Framed b ∧ CacheIdsNonzero p ∧ (cur = 0 → b.dset_open = none) ∧
    (cur ≠ 0 → ∀ r ∈ recs, record_belongs_to_set packet set r.drec = true →
      (p.templates.find? (fun n => n.old_id == r.drec.tmplt.id)).isSome = true)


/-- Two Extensions of type `unsigned64` (IE 1 and IE 2), each with one
Candidate of value "1" whose filter matches: together they add 16 bytes to a
record. -/
def count_cfg : config :=
  { ids := [⟨some [111], 1, .FDS_ET_UNSIGNED_64, [⟨some [49], some [49], 1⟩]⟩,
            ⟨some [112], 2, .FDS_ET_UNSIGNED_64, [⟨some [49], some [49], 1⟩]⟩],
    max_extension_len := 16 }

/-- The plugin context `ipx_plugin_init` leaves for `count_cfg`. -/
def count_ctx : plugin_ctx :=
  { config := some count_cfg, templates := [], next_template_id := 40000 }

/-- Template 256 with the single field of IE 313 and length 65500; extended
by two fields of 8 bytes its data record would no longer fit an IPFIX
message. -/
def tall_tmplt : fds_template :=
  { type := .FDS_TYPE_TEMPLATE, id := 256, raw := [1, 0, 0, 1, 1, 57, 255, 220] }

/-- A message of 65532 bytes: header, a Template Set with `tall_tmplt`, and a
Data Set 256 that holds one record of 65500 bytes under it. -/
def tall_msg : ipx_msg_ipfix :=
  { packet := [0, 10, 255, 252, 0, 0, 0, 1, 0, 0, 0, 1, 0, 0, 0, 1,
               0, 2, 0, 12, 1, 0, 0, 1, 1, 57, 255, 220,
               1, 0, 255, 224]
      ++ List.replicate 65500 0,
    sets := [⟨16⟩, ⟨28⟩],
    recs := [⟨⟨32, 65500, tall_tmplt⟩⟩] }

theorem digits_value_acc (l : List Nat) (a : Nat) :
    l.foldl (fun acc c => 10 * acc + (c - 48)) a = a * 10 ^ l.length + digits_value l := by
  induction l generalizing a with
  | nil => simp [digits_value]
  | cons c cs ih =>
    simp only [List.foldl_cons, digits_value, List.length_cons]
    rw [ih (10 * a + (c - 48)), ih (10 * 0 + (c - 48))]
    simp only [digits_value]
    ring

theorem digits_value_cons (c : Nat) (l : List Nat) :
    digits_value (c :: l) = (c - 48) * 10 ^ l.length + digits_value l := by
  have h := digits_value_acc l (10 * 0 + (c - 48))
  simp only [digits_value, List.foldl_cons] at h ⊢
  rw [h]
  simp

theorem digitChar_toNat (k : Nat) (hk : k < 10) : (Nat.digitChar k).toNat = 48 + k := by
  interval_cases k <;> rfl

theorem toDigitsCore_spec (fuel : Nat) : ∀ (n : Nat) (ds : List Char), n < fuel →
    (∀ c ∈ ds.map Char.toNat, isdigit c = true) →
    (∀ c ∈ (Nat.toDigitsCore 10 fuel n ds).map Char.toNat, isdigit c = true) ∧
    digits_value ((Nat.toDigitsCore 10 fuel n ds).map Char.toNat)
      = n * 10 ^ ds.length + digits_value (ds.map Char.toNat) ∧
    Nat.toDigitsCore 10 fuel n ds ≠ [] := by
  induction fuel with
  | zero => intro n ds h; omega
  | succ f ih =>
    intro n ds hn hds
    have hd : (Nat.digitChar (n % 10)).toNat = 48 + n % 10 :=
      digitChar_toNat _ (Nat.mod_lt _ (by decide))
    have hds2 : ∀ c ∈ (Nat.digitChar (n % 10) :: ds).map Char.toNat, isdigit c = true := by
      intro c hc
      simp only [List.map_cons, List.mem_cons] at hc
      rcases hc with hc | hc
      · rw [hc, hd]
        have : n % 10 < 10 := Nat.mod_lt _ (by decide)
        simp [isdigit]
        omega
      · exact hds c hc
    have hval : digits_value ((Nat.digitChar (n % 10) :: ds).map Char.toNat)
        = (n % 10) * 10 ^ ds.length + digits_value (ds.map Char.toNat) := by
      rw [List.map_cons, digits_value_cons, hd]
      simp
    unfold Nat.toDigitsCore
    by_cases h0 : n / 10 = 0
    · simp only [h0, if_true]
      refine ⟨hds2, ?_, by simp⟩
      rw [hval]
      have : n % 10 = n := by omega
      rw [this]
    · simp only [h0, if_false]
      have hlt : n / 10 < f := by omega
      obtain ⟨h1, h2, h3⟩ := ih (n / 10) (Nat.digitChar (n % 10) :: ds) hlt hds2
      refine ⟨h1, ?_, h3⟩
      rw [h2, hval, List.length_cons, pow_succ]
      have hdm : n = 10 * (n / 10) + n % 10 := (Nat.div_add_mod n 10).symm
      generalize n / 10 = q at hdm ⊢
      generalize n % 10 = r at hdm ⊢
      subst hdm
      ring

theorem decimal_digits (n : Nat) : ∀ c ∈ decimal n, isdigit c = true :=
  (toDigitsCore_spec (n + 1) n [] (Nat.lt_succ_self n) (by simp)).1

theorem digits_value_decimal (n : Nat) : digits_value (decimal n) = n := by
  have h := (toDigitsCore_spec (n + 1) n [] (Nat.lt_succ_self n) (by simp)).2.1
  simpa [decimal, Nat.toDigits, digits_value] using h

theorem decimal_ne_nil (n : Nat) : decimal n ≠ [] := by
  have h := (toDigitsCore_spec (n + 1) n [] (Nat.lt_succ_self n) (by simp)).2.2
  simpa [decimal, Nat.toDigits] using h

/-- Function `strtoul` converts a non-empty string of decimal digits to the
number it denotes, when that number fits an `unsigned long`. -/
theorem strtoul_digits (s : CString) (hne : s ≠ []) (hall : ∀ c ∈ s, isdigit c = true)
    (hn : digits_value s ≤ ULONG_MAX) : strtoul s = digits_value s := by
  cases s with
  | nil => exact absurd rfl hne
  | cons c cs =>
    have hc : isdigit c = true := hall c (by simp)
    have hc2 : 48 ≤ c ∧ c ≤ 57 := by simpa [isdigit] using hc
    have hsp : isspace c = false := by
      simp only [isspace, Bool.or_eq_false_iff, beq_eq_false_iff_ne, Bool.and_eq_false_iff,
        decide_eq_false_iff_not]
      omega
    have h45 : (c == 45) = false := by simp; omega
    have h43 : (c == 43) = false := by simp; omega
    have htw : (c :: cs).takeWhile isdigit = c :: cs :=
      List.takeWhile_eq_self_iff.mpr hall
    have hle : ¬ ULONG_MAX < digits_value (c :: cs) := by omega
    simp only [strtoul, List.dropWhile_cons, hsp, List.head?_cons, Option.some_beq_some, h45,
      h43, Bool.or_self, if_false, htw, hle, Bool.false_eq_true]

/-- Function `strtoul` reads back the decimal representation of every number
that fits an `unsigned long`. -/
theorem strtoul_decimal (n : Nat) (hn : n ≤ ULONG_MAX) : strtoul (decimal n) = n := by
  have h := strtoul_digits (decimal n) (decimal_ne_nil n) (decimal_digits n)
    (by rw [digits_value_decimal]; exact hn)
  rw [h, digits_value_decimal]

theorem be_bytes_length (w n : Nat) : (be_bytes w n).length = w := by
  induction w with
  | zero => rfl
  | succ w ih => simp [be_bytes, ih]

theorem be_value_acc (l : List Nat) (a : Nat) :
    l.foldl (fun acc b => 256 * acc + b) a = a * 256 ^ l.length + be_value l := by
  induction l generalizing a with
  | nil => simp [be_value]
  | cons c cs ih =>
    simp only [List.foldl_cons, be_value, List.length_cons]
    rw [ih (256 * a + c), ih (256 * 0 + c)]
    simp only [be_value]
    ring

theorem be_value_be_bytes (w n : Nat) : be_value (be_bytes w n) = n % 256 ^ w := by
  induction w with
  | zero => simp [be_bytes, be_value, Nat.mod_one]
  | succ w ih =>
    have h := be_value_acc (be_bytes w n) (256 * 0 + n / 256 ^ w % 256)
    simp only [be_bytes, be_value, List.foldl_cons] at h ⊢
    rw [h, be_bytes_length]
    simp only [be_value] at ih
    rw [ih, Nat.mod_pow_succ]
    ring

theorem be_bytes_one (v : Nat) : [v % 256] = be_bytes 1 v := by
  simp [be_bytes]

theorem htons_eq_be_bytes (v : Nat) : htons v = be_bytes 2 v := by
  simp [be_bytes, htons]

theorem htonl_eq_be_bytes (v : Nat) : htonl v = be_bytes 4 v := by
  simp [be_bytes, htonl]

theorem htobe64_eq_be_bytes (v : Nat) : htobe64 v = be_bytes 8 v := by
  simp [be_bytes, htobe64]

theorem be_bytes_zero_value (w : Nat) : be_bytes w 0 = List.replicate w 0 := by
  induction w with
  | zero => rfl
  | succ w ih => simp [be_bytes, ih, List.replicate_succ]

/-! ## `add_value` -/

/-- C1: for an entry of type STRING or OCTET_ARRAY, `add_value` appends the
IPFIX variable-length encoding: a matched value of length `len < 255` gives the
byte `len` and the payload; a matched value with `255 ≤ len < 65536` gives
`0xFF`, `len` on two bytes big-endian and the payload; an entry that did not
match gives the single byte `0x00`. The record size grows by the same number
of bytes. -/
theorem add_value_string_encoding (m : tmp_match_t) (b : msg_builder_s) (ref : ipx_ipfix_record)
    (hty : m.data_type = .FDS_ET_STRING ∨ m.data_type = .FDS_ET_OCTET_ARRAY) :
    (∀ val, m.matched = true → m.value = some val → strlen val < 255 →
      add_value m b ref =
        some ({ b with buffer := b.buffer ++ strlen val :: val },
              ref_add_size ref (1 + strlen val))) ∧
    (∀ val, m.matched = true → m.value = some val → 255 ≤ strlen val → strlen val < 65536 →
      add_value m b ref =
        some ({ b with buffer := b.buffer ++ 255 :: strlen val / 256 :: strlen val % 256 :: val },
              ref_add_size ref (3 + strlen val))) ∧
    (m.matched = false →
      add_value m b ref = some ({ b with buffer := b.buffer ++ [0] }, ref_add_size ref 1)) := by
  simp only [strlen]
  refine ⟨?_, ?_, ?_⟩
  · intro val hm hv hlen
    have h256 : val.length % 256 = val.length := Nat.mod_eq_of_lt (by omega)
    rcases hty with h | h <;>
      simp [add_value, h, hm, hv, hlen, h256, msg_builder_write, strlen]
  · intro val hm hv hlo hhi
    have hnot : ¬ val.length < 255 := by omega
    have hdiv : val.length / 256 % 256 = val.length / 256 := Nat.mod_eq_of_lt (by omega)
    rcases hty with h | h <;>
      simp [add_value, h, hm, hv, hnot, hdiv, htons, msg_builder_write, strlen]
  · intro hm
    rcases hty with h | h <;>
      simp [add_value, h, hm, msg_builder_write, strlen]

/-- Witness of C1: the matched value "eth0" appends `04 65 74 68 30`. -/
theorem add_value_string_encoding_witness :
    add_value ⟨82, .FDS_ET_STRING, true, some [101, 116, 104, 48]⟩ ⟨[], [], none⟩
        ⟨⟨0, 4, ⟨.FDS_TYPE_TEMPLATE, 256, []⟩⟩⟩
      = some (⟨[], [4, 101, 116, 104, 48], none⟩, ⟨⟨0, 9, ⟨.FDS_TYPE_TEMPLATE, 256, []⟩⟩⟩) :=
  (add_value_string_encoding ⟨82, .FDS_ET_STRING, true, some [101, 116, 104, 48]⟩ ⟨[], [], none⟩
    ⟨⟨0, 4, ⟨.FDS_TYPE_TEMPLATE, 256, []⟩⟩⟩ (Or.inl rfl)).1 [101, 116, 104, 48] rfl rfl
    (by decide)

/-- C2: for an entry of type U8, U16, U32 or U64, of width `w` = 1, 2, 4, 8
bytes, a matched value that is the decimal representation of `n < 2 ^ (8 w)`
makes `add_value` append the `w` bytes of `n` in network byte order (a byte
string of length `w` that denotes `n`); the same holds of every non-empty
string of decimal digits that denotes such an `n`, leading zeros included; and
an entry that did not match makes it append `w` zero bytes. -/
theorem add_value_unsigned_encoding (dt : fds_iemgr_element_type) (w : Nat)
    (hty : (dt = .FDS_ET_UNSIGNED_8 ∧ w = 1) ∨ (dt = .FDS_ET_UNSIGNED_16 ∧ w = 2) ∨
      (dt = .FDS_ET_UNSIGNED_32 ∧ w = 4) ∨ (dt = .FDS_ET_UNSIGNED_64 ∧ w = 8))
    (id : Nat) (b : msg_builder_s) (ref : ipx_ipfix_record) :
    (∀ n, n < 2 ^ (8 * w) →
      add_value ⟨id, dt, true, some (decimal n)⟩ b ref =
          some ({ b with buffer := b.buffer ++ be_bytes w n }, ref_add_size ref w) ∧
        (be_bytes w n).length = w ∧ be_value (be_bytes w n) = n) ∧
    (∀ s : CString, s ≠ [] → (∀ c ∈ s, isdigit c = true) → digits_value s < 2 ^ (8 * w) →
      add_value ⟨id, dt, true, some s⟩ b ref =
        some ({ b with buffer := b.buffer ++ be_bytes w (digits_value s) },
          ref_add_size ref w)) ∧
    (∀ v, add_value ⟨id, dt, false, v⟩ b ref =
      some ({ b with buffer := b.buffer ++ List.replicate w 0 }, ref_add_size ref w)) := by
  have hpow : (256 : Nat) ^ w = 2 ^ (8 * w) := by
    rw [pow_mul]; norm_num
  have hmax : ∀ n, n < 2 ^ (8 * w) → n ≤ ULONG_MAX := by
    intro n hn
    have : (2 : Nat) ^ (8 * w) ≤ 2 ^ 64 :=
      Nat.pow_le_pow_right (by decide) (by rcases hty with h | h | h | h <;> omega)
    simp only [ULONG_MAX]
    omega
  have hdig : ∀ s : CString, s ≠ [] → (∀ c ∈ s, isdigit c = true) →
      digits_value s < 2 ^ (8 * w) →
      add_value ⟨id, dt, true, some s⟩ b ref =
        some ({ b with buffer := b.buffer ++ be_bytes w (digits_value s) },
          ref_add_size ref w) := by
    intro s hne hall hn
    have hs := strtoul_digits s hne hall (hmax _ hn)
    rcases hty with ⟨h1, h2⟩ | ⟨h1, h2⟩ | ⟨h1, h2⟩ | ⟨h1, h2⟩ <;> subst h1 <;> subst h2
    · simp [add_value, hs, msg_builder_write, be_bytes]
    · simp [add_value, hs, msg_builder_write, ← htons_eq_be_bytes, htons]
    · simp [add_value, hs, msg_builder_write, ← htonl_eq_be_bytes, htonl]
    · simp [add_value, strtoull, hs, msg_builder_write, ← htobe64_eq_be_bytes, htobe64]
  refine ⟨?_, hdig, ?_⟩
  · intro n hn
    refine ⟨?_, be_bytes_length w n, ?_⟩
    · have h := hdig (decimal n) (decimal_ne_nil n) (decimal_digits n)
        (by rw [digits_value_decimal]; exact hn)
      rw [digits_value_decimal] at h
      exact h
    · rw [be_value_be_bytes, hpow]
      exact Nat.mod_eq_of_lt hn
  · intro v
    rcases hty with ⟨h1, h2⟩ | ⟨h1, h2⟩ | ⟨h1, h2⟩ | ⟨h1, h2⟩ <;> subst h1 <;> subst h2 <;>
      simp [add_value, msg_builder_write, htons, htonl, htobe64, List.replicate]

/-- Witness of C2: a U16 entry matched with the value "42" appends `00 2A`. -/
theorem add_value_unsigned_encoding_witness :
    add_value ⟨1, .FDS_ET_UNSIGNED_16, true, some [52, 50]⟩ ⟨[], [], none⟩
        ⟨⟨0, 4, ⟨.FDS_TYPE_TEMPLATE, 256, []⟩⟩⟩
      = some (⟨[], [0, 42], none⟩, ⟨⟨0, 6, ⟨.FDS_TYPE_TEMPLATE, 256, []⟩⟩⟩) :=
  ((add_value_unsigned_encoding .FDS_ET_UNSIGNED_16 2 (Or.inr (Or.inl ⟨rfl, rfl⟩)) 1
    ⟨[], [], none⟩ ⟨⟨0, 4, ⟨.FDS_TYPE_TEMPLATE, 256, []⟩⟩⟩).1 42 (by decide)).1

/-! ## Candidate scan -/

theorem scan_values_no_match (api : fds_api) (packet : List Nat) (drec : fds_drec)
    (m : tmp_match_t) (vs : List config_value_t)
    (h : ∀ v ∈ vs, api.fds_ipfix_filter_eval_biflow v.filter packet drec
      = .FDS_IPFIX_FILTER_NO_MATCH) :
    scan_values api packet drec m vs = m := by
  induction vs with
  | nil => rfl
  | cons v vs ih =>
    have hv := h v (by simp)
    simp only [scan_values, hv, ne_eq, not_true_eq_false, if_false]
    exact ih (fun x hx => h x (List.mem_cons_of_mem _ hx))

theorem scan_values_first (api : fds_api) (packet : List Nat) (drec : fds_drec)
    (m : tmp_match_t) (pre post : List config_value_t) (c : config_value_t)
    (hpre : ∀ v ∈ pre, api.fds_ipfix_filter_eval_biflow v.filter packet drec
      = .FDS_IPFIX_FILTER_NO_MATCH)
    (hc : api.fds_ipfix_filter_eval_biflow c.filter packet drec ≠ .FDS_IPFIX_FILTER_NO_MATCH) :
    scan_values api packet drec m (pre ++ c :: post)
      = { m with matched := true, value := c.value } := by
  induction pre with
  | nil => simp [scan_values, hc]
  | cons v vs ih =>
    have hv := hpre v (by simp)
    simp only [List.cons_append, scan_values, hv, ne_eq, not_true_eq_false, if_false]
    exact ih (fun x hx => hpre x (List.mem_cons_of_mem _ hx))

theorem exists_first_match (api : fds_api) (packet : List Nat) (drec : fds_drec)
    (vs : List config_value_t)
    (h : ∃ v ∈ vs, api.fds_ipfix_filter_eval_biflow v.filter packet drec
      ≠ .FDS_IPFIX_FILTER_NO_MATCH) :
    ∃ pre c post, vs = pre ++ c :: post ∧
      (∀ v ∈ pre, api.fds_ipfix_filter_eval_biflow v.filter packet drec
        = .FDS_IPFIX_FILTER_NO_MATCH) ∧
      api.fds_ipfix_filter_eval_biflow c.filter packet drec ≠ .FDS_IPFIX_FILTER_NO_MATCH := by
  induction vs with
  | nil => simp at h
  | cons v vs ih =>
    by_cases hv : api.fds_ipfix_filter_eval_biflow v.filter packet drec
        = .FDS_IPFIX_FILTER_NO_MATCH
    · obtain ⟨x, hx, hne⟩ := h
      have hx2 : x ∈ vs := by
        rcases List.mem_cons.mp hx with rfl | hx
        · exact absurd hv hne
        · exact hx
      obtain ⟨pre, c, post, heq, hpre, hc⟩ := ih ⟨x, hx2, hne⟩
      refine ⟨v :: pre, c, post, by simp [heq], ?_, hc⟩
      intro y hy
      rcases List.mem_cons.mp hy with rfl | hy
      · exact hv
      · exact hpre y hy
    · exact ⟨[], v, vs, rfl, by simp, hv⟩

/-- C5: the match entry of an Extension is computed first-match-wins over its
Candidates in configured order. If the Candidates before `c` all evaluate to
NO_MATCH and `c` does not, the entry is matched with the value of `c`,
whatever Candidates follow; a Candidate that does not evaluate to NO_MATCH
always yields such a first one; and if every Candidate evaluates to NO_MATCH
(in particular if there is none) the entry is not matched. -/
theorem compute_match_first_match_wins (api : fds_api) (packet : List Nat) (drec : fds_drec)
    (ext : config_ids_t) :
    (∀ pre c post, ext.values = pre ++ c :: post →
      (∀ v ∈ pre, api.fds_ipfix_filter_eval_biflow v.filter packet drec
        = .FDS_IPFIX_FILTER_NO_MATCH) →
      api.fds_ipfix_filter_eval_biflow c.filter packet drec ≠ .FDS_IPFIX_FILTER_NO_MATCH →
      compute_match api packet drec ext
        = { id := ext.id, data_type := ext.data_type, matched := true, value := c.value }) ∧
    ((∃ v ∈ ext.values, api.fds_ipfix_filter_eval_biflow v.filter packet drec
        ≠ .FDS_IPFIX_FILTER_NO_MATCH) →
      ∃ pre c post, ext.values = pre ++ c :: post ∧
        (∀ v ∈ pre, api.fds_ipfix_filter_eval_biflow v.filter packet drec
          = .FDS_IPFIX_FILTER_NO_MATCH) ∧
        api.fds_ipfix_filter_eval_biflow c.filter packet drec ≠ .FDS_IPFIX_FILTER_NO_MATCH ∧
        compute_match api packet drec ext
          = { id := ext.id, data_type := ext.data_type, matched := true, value := c.value }) ∧
    ((∀ v ∈ ext.values, api.fds_ipfix_filter_eval_biflow v.filter packet drec
        = .FDS_IPFIX_FILTER_NO_MATCH) →
      compute_match api packet drec ext
        = { id := ext.id, data_type := ext.data_type, matched := false, value := none }) := by
  refine ⟨?_, ?_, ?_⟩
  · intro pre c post heq hpre hc
    simp only [compute_match, heq]
    rw [scan_values_first api packet drec _ pre post c hpre hc]
  · intro h
    obtain ⟨pre, c, post, heq, hpre, hc⟩ := exists_first_match api packet drec ext.values h
    refine ⟨pre, c, post, heq, hpre, hc, ?_⟩
    simp only [compute_match, heq]
    rw [scan_values_first api packet drec _ pre post c hpre hc]
  · intro h
    simp only [compute_match]
    rw [scan_values_no_match api packet drec _ ext.values h]

/-- Witness of C5: of the Candidates "a" (no match), "b" (match), "c" (match)
the second one wins. -/
theorem compute_match_first_match_wins_witness :
    compute_match sample_api [] ⟨0, 0, sample_tmplt⟩
        { name := none, id := 82, data_type := .FDS_ET_STRING,
          values := [⟨some [49], some [97], 0⟩, ⟨some [49], some [98], 1⟩,
            ⟨some [49], some [99], 2⟩] }
      = { id := 82, data_type := .FDS_ET_STRING, matched := true, value := some [98] } :=
  (compute_match_first_match_wins sample_api [] ⟨0, 0, sample_tmplt⟩
    { name := none, id := 82, data_type := .FDS_ET_STRING,
      values := [⟨some [49], some [97], 0⟩, ⟨some [49], some [98], 1⟩,
        ⟨some [49], some [99], 2⟩] }).1
    [⟨some [49], some [97], 0⟩] ⟨some [49], some [98], 1⟩ [⟨some [49], some [99], 2⟩] rfl
    (by decide) (by decide)


/-! ## Template cache -/

theorem get_or_create_hit (api : fds_api) (pctx : plugin_ctx) (old_tmplt : fds_template)
    (builder : msg_builder_s) (extension : List config_ids_t) (node : template_node)
    (h : pctx.templates.find? (fun n => n.old_id == old_tmplt.id) = some node) :
    get_or_create_extended_template api pctx old_tmplt builder extension
      = some (some node.new_tmplt, pctx, builder) := by
  simp only [get_or_create_extended_template, h]

/-- A call that returns a template leaves a cache in which the lookup of the
same Template ID finds an entry holding that template. -/
theorem get_or_create_some_cached (api : fds_api) (pctx : plugin_ctx) (old_tmplt : fds_template)
    (builder : msg_builder_s) (extension : List config_ids_t) (t : fds_template)
    (pctx1 : plugin_ctx) (builder1 : msg_builder_s)
    (h : get_or_create_extended_template api pctx old_tmplt builder extension
      = some (some t, pctx1, builder1)) :
    ∃ node, pctx1.templates.find? (fun n => n.old_id == old_tmplt.id) = some node ∧
      node.new_tmplt = t := by
  unfold get_or_create_extended_template at h
  split at h
  · rename_i node hfind
    simp only [Option.some.injEq, Prod.mk.injEq] at h
    obtain ⟨h1, h2, _⟩ := h
    subst h2
    exact ⟨node, hfind, h1⟩
  · split at h
    · simp at h
    · dsimp only at h
      split at h
      · simp at h
      · split at h
        · simp at h
        · split at h
          · simp at h
          · split at h
            · simp at h
            · simp only [Option.some.injEq, Prod.mk.injEq] at h
              obtain ⟨h1, h2, _⟩ := h
              subst h2
              refine ⟨⟨old_tmplt.id, pctx.next_template_id, t,
                extended_raw old_tmplt pctx.next_template_id extension⟩, ?_, rfl⟩
              subst h1
              simp [List.find?]

/-- C9: when the Template ID of the input Template equals the `old_id` of a
cache entry, `get_or_create_extended_template` returns the extended Template
of the first such entry, and leaves the builder (nothing is written), the
cache list and `next_template_id` as they were. Consequently, after a call
that returned an extended Template, a second call for the same input Template
returns the same Template and writes nothing: its Template Set is emitted
once. -/
theorem cache_hit_returns_entry (api : fds_api) (pctx : plugin_ctx) (old_tmplt : fds_template)
    (builder : msg_builder_s) (extension : List config_ids_t) :
    ((∃ n ∈ pctx.templates, n.old_id = old_tmplt.id) →
      ∃ node ∈ pctx.templates, node.old_id = old_tmplt.id ∧
        pctx.templates.find? (fun n => n.old_id == old_tmplt.id) = some node ∧
        get_or_create_extended_template api pctx old_tmplt builder extension
          = some (some node.new_tmplt, pctx, builder)) ∧
    (∀ t pctx1 builder1,
      get_or_create_extended_template api pctx old_tmplt builder extension
        = some (some t, pctx1, builder1) →
      ∀ builder2,
        get_or_create_extended_template api pctx1 old_tmplt builder2 extension
          = some (some t, pctx1, builder2)) := by
  refine ⟨?_, ?_⟩
  · rintro ⟨n, hn, hid⟩
    have hsome : (pctx.templates.find? (fun n => n.old_id == old_tmplt.id)).isSome := by
      rw [List.find?_isSome]
      exact ⟨n, hn, by simp [hid]⟩
    obtain ⟨node, hnode⟩ := Option.isSome_iff_exists.mp hsome
    refine ⟨node, List.mem_of_find?_eq_some hnode, ?_, hnode, ?_⟩
    · simpa using List.find?_some hnode
    · exact get_or_create_hit api pctx old_tmplt builder extension node hnode
  · intro t pctx1 builder1 h builder2
    obtain ⟨node, hfind, ht⟩ :=
      get_or_create_some_cached api pctx old_tmplt builder extension t pctx1 builder1 h
    rw [get_or_create_hit api pctx1 old_tmplt builder2 extension node hfind, ht]

/-- Witness of C9: template 256 resolved twice in succession from the initial
context. -/
theorem cache_hit_returns_entry_witness :
    get_or_create_extended_template sample_api sample_ctx sample_tmplt
        ⟨[], [0, 10, 0, 16], none⟩ [sample_ext]
      = some (some ⟨.FDS_TYPE_TEMPLATE, 40000, [156, 64, 0, 2, 0, 8, 0, 4, 0, 82, 255, 255]⟩,
          sample_ctx, ⟨[], [0, 10, 0, 16], none⟩) :=
  (cache_hit_returns_entry sample_api sample_init_ctx
    sample_tmplt ⟨[], [], none⟩ [sample_ext]).2
    ⟨.FDS_TYPE_TEMPLATE, 40000, [156, 64, 0, 2, 0, 8, 0, 4, 0, 82, 255, 255]⟩ sample_ctx
    ⟨[], [0, 2, 0, 16, 156, 64, 0, 2, 0, 8, 0, 4, 0, 82, 255, 255], none⟩ (by decide)
    ⟨[], [0, 10, 0, 16], none⟩

/-- C10, as stated, fails: once Template ID 256 has a cache entry (here
created by resolving the ordinary template 256 from the initial context), an
Options Template with the same ID is answered from the cache: the call returns
the extended Template instead of `NULL`. -/
theorem options_template_cache_hit_counterexample :
    get_or_create_extended_template sample_api
        sample_init_ctx sample_tmplt ⟨[], [], none⟩
        [sample_ext]
      = some (some ⟨.FDS_TYPE_TEMPLATE, 40000, [156, 64, 0, 2, 0, 8, 0, 4, 0, 82, 255, 255]⟩,
          sample_ctx,
          ⟨[], [0, 2, 0, 16, 156, 64, 0, 2, 0, 8, 0, 4, 0, 82, 255, 255], none⟩) ∧
    sample_opts_tmplt.type = .FDS_TYPE_TEMPLATE_OPTS ∧
    get_or_create_extended_template sample_api sample_ctx sample_opts_tmplt ⟨[], [], none⟩
        [sample_ext]
      = some (some ⟨.FDS_TYPE_TEMPLATE, 40000, [156, 64, 0, 2, 0, 8, 0, 4, 0, 82, 255, 255]⟩,
          sample_ctx, ⟨[], [], none⟩) := by
  decide

/-- C10, amended: for an Options Template whose Template ID has no cache
entry, `get_or_create_extended_template` returns `NULL`, writes nothing to the
builder and leaves the cache and `next_template_id` unchanged. -/
theorem options_template_not_extended (api : fds_api) (pctx : plugin_ctx)
    (old_tmplt : fds_template) (builder : msg_builder_s) (extension : List config_ids_t)
    (hmiss : ∀ node ∈ pctx.templates, node.old_id ≠ old_tmplt.id)
    (hopts : old_tmplt.type = .FDS_TYPE_TEMPLATE_OPTS) :
    get_or_create_extended_template api pctx old_tmplt builder extension
      = some (none, pctx, builder) := by
  have hfind : pctx.templates.find? (fun n => n.old_id == old_tmplt.id) = none := by
    rw [List.find?_eq_none]
    intro n hn
    simpa using hmiss n hn
  simp only [get_or_create_extended_template, hfind, hopts, if_true]

/-- Witness of the amended C10: an Options Template met by the initial
context. -/
theorem options_template_not_extended_witness :
    get_or_create_extended_template sample_api create_plugin_ctx sample_opts_tmplt
        ⟨[], [0, 10], none⟩ [sample_ext]
      = some (none, create_plugin_ctx, ⟨[], [0, 10], none⟩) :=
  options_template_not_extended sample_api create_plugin_ctx sample_opts_tmplt
    ⟨[], [0, 10], none⟩ [sample_ext] (by simp [create_plugin_ctx]) rfl


/-! ## The raw record of the extended Template -/

theorem mem_write_mid (a x c bytes : List Nat) (h : x.length = bytes.length) :
    mem_write (a ++ x ++ c) a.length bytes = a ++ bytes ++ c := by
  unfold mem_write
  have h1 : List.take a.length (a ++ x ++ c) = a := by
    rw [List.append_assoc, List.take_left]
  have h2 : List.drop (a.length + bytes.length) (a ++ x ++ c) = c := by
    rw [← h, ← List.length_append, List.drop_left]
  rw [h1, h2]

theorem htons_length (v : Nat) : (htons v).length = 2 := rfl

/-- The field specifier of an Extension, as the loop of extender.c:274 stores
it. -/
theorem write_specifiers_eq (es : List config_ids_t) (pre : List Nat) :
    write_specifiers es (pre ++ List.replicate (4 * es.length) 0) pre.length
      = pre ++ es.flatMap
          (fun e => htons e.id ++ htons (size_of_data_type e.data_type)) := by
  induction es generalizing pre with
  | nil => simp [write_specifiers]
  | cons e es ih =>
    have hrep : List.replicate (4 * (e :: es).length) (0 : Nat)
        = List.replicate 2 0 ++ (List.replicate 2 0 ++ List.replicate (4 * es.length) 0) := by
      rw [← List.replicate_add, ← List.replicate_add]
      congr 1
      simp only [List.length_cons]
      omega
    have s1 : mem_write (pre ++ List.replicate (4 * (e :: es).length) 0) pre.length (htons e.id)
        = pre ++ htons e.id ++ (List.replicate 2 0 ++ List.replicate (4 * es.length) 0) := by
      rw [hrep, ← List.append_assoc]
      exact mem_write_mid pre _ _ _ (by simp [htons])
    have s2 : mem_write
        (pre ++ htons e.id ++ (List.replicate 2 0 ++ List.replicate (4 * es.length) 0))
        (pre.length + 2) (htons (size_of_data_type e.data_type))
        = pre ++ htons e.id ++ htons (size_of_data_type e.data_type)
          ++ List.replicate (4 * es.length) 0 := by
      have hl : pre.length + 2 = (pre ++ htons e.id).length := by simp [htons]
      rw [hl, ← List.append_assoc]
      exact mem_write_mid _ _ _ _ (by simp [htons])
    have hl4 : pre.length + 4
        = (pre ++ htons e.id ++ htons (size_of_data_type e.data_type)).length := by
      simp [htons]
    simp only [write_specifiers]
    rw [s1, s2, hl4, ih]
    simp [List.flatMap_cons, List.append_assoc]

/-- Closed form of the buffer that extender.c:251-278 builds, when the old
record has its 4-byte header and `new_len` does not wrap. -/
theorem extended_raw_eq (t : fds_template) (new_id : Nat) (ext : List config_ids_t)
    (h4 : 4 ≤ t.raw.length) (hb : t.raw.length + 4 * ext.length ≤ 65535) :
    extended_raw t new_id ext
      = htons new_id ++ htons (ntohs_at t.raw 2 + ext.length) ++ t.raw.drop 4
        ++ ext.flatMap (fun e => htons e.id ++ htons (size_of_data_type e.data_type)) := by
  have hmod : (t.raw.length + 4 * ext.length) % 65536 = t.raw.length + 4 * ext.length :=
    Nat.mod_eq_of_lt (by omega)
  have e1 : mem_write (List.replicate (t.raw.length + 4 * ext.length) 0) 0
      (t.raw.take t.raw.length) = t.raw ++ List.replicate (4 * ext.length) 0 := by
    have := mem_write_mid [] (List.replicate t.raw.length 0) (List.replicate (4 * ext.length) 0)
      t.raw (by simp)
    simpa [← List.replicate_add] using this
  have e2 : mem_write (t.raw ++ List.replicate (4 * ext.length) 0) 0 (htons new_id)
      = htons new_id ++ t.raw.drop 2 ++ List.replicate (4 * ext.length) 0 := by
    have hsplit : t.raw = t.raw.take 2 ++ t.raw.drop 2 := (List.take_append_drop 2 t.raw).symm
    have := mem_write_mid [] (t.raw.take 2)
      (t.raw.drop 2 ++ List.replicate (4 * ext.length) 0) (htons new_id)
      (by simp [htons]; omega)
    simp only [List.nil_append, List.length_nil] at this
    rw [← List.append_assoc, ← hsplit] at this
    rw [this, List.append_assoc]
  have e3 : mem_write (htons new_id ++ t.raw.drop 2 ++ List.replicate (4 * ext.length) 0) 2
      (htons (ntohs_at t.raw 2 + ext.length))
      = htons new_id ++ htons (ntohs_at t.raw 2 + ext.length) ++ t.raw.drop 4
        ++ List.replicate (4 * ext.length) 0 := by
    have hsplit : t.raw.drop 2 = (t.raw.drop 2).take 2 ++ t.raw.drop 4 := by
      have := (List.take_append_drop 2 (t.raw.drop 2)).symm
      simpa [List.drop_drop] using this
    have := mem_write_mid (htons new_id) ((t.raw.drop 2).take 2)
      (t.raw.drop 4 ++ List.replicate (4 * ext.length) 0)
      (htons (ntohs_at t.raw 2 + ext.length)) (by simp [htons]; omega)
    rw [htons_length] at this
    rw [List.append_assoc (htons new_id), hsplit, List.append_assoc, List.append_assoc,
      ← List.append_assoc (htons new_id)]
    exact this
  have hlen : t.raw.length
      = (htons new_id ++ htons (ntohs_at t.raw 2 + ext.length) ++ t.raw.drop 4).length := by
    simp [htons]
    omega
  unfold extended_raw
  simp only [hmod, e1, e2, e3]
  rw [hlen]
  exact write_specifiers_eq ext _

theorem flatMap_specifiers_length (es : List config_ids_t) :
    (es.flatMap (fun e => htons e.id ++ htons (size_of_data_type e.data_type))).length
      = 4 * es.length := by
  induction es with
  | nil => rfl
  | cons e es ih =>
    simp only [List.flatMap_cons, List.length_append, ih, htons_length, List.length_cons]
    omega

theorem read_specifier (es : List config_ids_t) (i : Nat) (hi : i < es.length) :
    mem_read (es.flatMap (fun e => htons e.id ++ htons (size_of_data_type e.data_type)))
      (4 * i) 4 = htons es[i].id ++ htons (size_of_data_type es[i].data_type) := by
  induction es generalizing i with
  | nil => simp at hi
  | cons e es ih =>
    cases i with
    | zero =>
      simp [mem_read, List.flatMap_cons, htons]
    | succ i =>
      have hi2 : i < es.length := by simpa using hi
      have := ih i hi2
      simp only [mem_read, List.flatMap_cons] at this ⊢
      have h4 : 4 * (i + 1) = (htons e.id ++ htons (size_of_data_type e.data_type)).length
          + 4 * i := by
        simp [htons]
        omega
      rw [h4, ← List.drop_drop, List.drop_left]
      simpa using this


theorem find_none_of_miss (pctx : plugin_ctx) (id : Nat)
    (hmiss : ∀ node ∈ pctx.templates, node.old_id ≠ id) :
    pctx.templates.find? (fun n => n.old_id == id) = none := by
  rw [List.find?_eq_none]
  intro n hn
  simpa using hmiss n hn

/-- What `get_or_create_extended_template` does on a cache miss for a
template that is not an Options Template, has its 4-byte header, and whose
extended record fits 16 bits: the outcome is decided by the parser and the IE
binder applied to the buffer `extended_raw` builds. -/
theorem get_or_create_miss (api : fds_api) (pctx : plugin_ctx) (t : fds_template)
    (b : msg_builder_s) (ext : List config_ids_t)
    (hmiss : ∀ node ∈ pctx.templates, node.old_id ≠ t.id)
    (hty : t.type ≠ .FDS_TYPE_TEMPLATE_OPTS)
    (h4 : 4 ≤ t.raw.length) (hb : t.raw.length + 4 * ext.length ≤ 65535) :
    get_or_create_extended_template api pctx t b ext =
      match api.fds_template_parse (extended_raw t pctx.next_template_id ext) with
      | none =>
        some (none, { pctx with next_template_id := (pctx.next_template_id + 1) % 65536 }, b)
      | some nt =>
        if api.fds_template_ies_define nt = true then
          some (some nt,
            { config := pctx.config,
              templates := ⟨t.id, pctx.next_template_id, nt,
                extended_raw t pctx.next_template_id ext⟩ :: pctx.templates,
              next_template_id := (pctx.next_template_id + 1) % 65536 },
            write_template_set b (t.raw.length + 4 * ext.length) nt)
        else
          some (none, { pctx with next_template_id := (pctx.next_template_id + 1) % 65536 }, b)
    := by
  have hfind := find_none_of_miss pctx t.id hmiss
  have hmod : (t.raw.length + 4 * ext.length) % 65536 = t.raw.length + 4 * ext.length :=
    Nat.mod_eq_of_lt (by omega)
  have hlt : ¬ t.raw.length < 4 := by omega
  unfold get_or_create_extended_template
  simp only [hfind, hty, if_false, hlt, hmod, lt_irrefl]
  cases hp : api.fds_template_parse (extended_raw t pctx.next_template_id ext) with
  | none => rfl
  | some nt =>
    cases hd : api.fds_template_ies_define nt <;> simp [hd]

/-- On such a miss, a buffer that the parser and the IE binder accept yields
a new cache entry that holds it, and its Template Set is written. -/
theorem get_or_create_miss_some (api : fds_api) (pctx : plugin_ctx) (t : fds_template)
    (b : msg_builder_s) (ext : List config_ids_t) (nt : fds_template)
    (hmiss : ∀ node ∈ pctx.templates, node.old_id ≠ t.id)
    (hty : t.type ≠ .FDS_TYPE_TEMPLATE_OPTS)
    (h4 : 4 ≤ t.raw.length) (hb : t.raw.length + 4 * ext.length ≤ 65535)
    (hp : api.fds_template_parse (extended_raw t pctx.next_template_id ext) = some nt)
    (hd : api.fds_template_ies_define nt = true) :
    get_or_create_extended_template api pctx t b ext
      = some (some nt,
          { config := pctx.config,
            templates := ⟨t.id, pctx.next_template_id, nt,
              extended_raw t pctx.next_template_id ext⟩ :: pctx.templates,
            next_template_id := (pctx.next_template_id + 1) % 65536 },
          write_template_set b (t.raw.length + 4 * ext.length) nt) := by
  rw [get_or_create_miss api pctx t b ext hmiss hty h4 hb, hp]
  simp [hd]

theorem extended_raw_length (t : fds_template) (new_id : Nat) (ext : List config_ids_t)
    (h4 : 4 ≤ t.raw.length) (hb : t.raw.length + 4 * ext.length ≤ 65535) :
    (extended_raw t new_id ext).length = t.raw.length + 4 * ext.length := by
  rw [extended_raw_eq t new_id ext h4 hb]
  simp only [List.length_append, htons_length, List.length_drop, flatMap_specifiers_length]
  omega

/-- C6: on a cache miss for a non-Options Template with raw length
`old_len ≥ 4` and `old_len + 4 * ext_count ≤ 65535`, the raw buffer that
`get_or_create_extended_template` builds (and stores in the new cache entry
when the parser and the IE binder accept it) has length
`old_len + 4 * ext_count`; its bytes `[0..2)` are `new_id` big-endian; its
bytes `[2..4)` are the original field count plus `ext_count`, big-endian (the
exact sum for a well-formed record, whose `old_count` specifiers fit in
`old_len`); its bytes `[4..old_len)` are those of the input record; and for
each `i < ext_count` the 4 bytes at `old_len + 4 i` are the IE id of the
`i`-th Extension and `size_of_data_type` of its data type, both big-endian,
the size being `0xFFFF` for the variable-length types. -/
theorem extended_raw_layout (api : fds_api) (pctx : plugin_ctx) (t : fds_template)
    (b : msg_builder_s) (ext : List config_ids_t)
    (hmiss : ∀ node ∈ pctx.templates, node.old_id ≠ t.id)
    (hty : t.type ≠ .FDS_TYPE_TEMPLATE_OPTS)
    (h4 : 4 ≤ t.raw.length) (hb : t.raw.length + 4 * ext.length ≤ 65535) :
    (∀ nt, api.fds_template_parse (extended_raw t pctx.next_template_id ext) = some nt →
      api.fds_template_ies_define nt = true →
      get_or_create_extended_template api pctx t b ext
        = some (some nt,
            { config := pctx.config,
              templates := ⟨t.id, pctx.next_template_id, nt,
                extended_raw t pctx.next_template_id ext⟩ :: pctx.templates,
              next_template_id := (pctx.next_template_id + 1) % 65536 },
            write_template_set b (t.raw.length + 4 * ext.length) nt)) ∧
    (extended_raw t pctx.next_template_id ext).length = t.raw.length + 4 * ext.length ∧
    mem_read (extended_raw t pctx.next_template_id ext) 0 2
      = be_bytes 2 pctx.next_template_id ∧
    mem_read (extended_raw t pctx.next_template_id ext) 2 2
      = be_bytes 2 (ntohs_at t.raw 2 + ext.length) ∧
    (4 + 4 * ntohs_at t.raw 2 ≤ t.raw.length →
      be_value (mem_read (extended_raw t pctx.next_template_id ext) 2 2)
        = ntohs_at t.raw 2 + ext.length) ∧
    mem_read (extended_raw t pctx.next_template_id ext) 4 (t.raw.length - 4)
      = mem_read t.raw 4 (t.raw.length - 4) ∧
    (∀ i (hi : i < ext.length),
      mem_read (extended_raw t pctx.next_template_id ext) (t.raw.length + 4 * i) 4
        = be_bytes 2 ext[i].id ++ be_bytes 2 (size_of_data_type ext[i].data_type) ∧
      ((ext[i].data_type = .FDS_ET_STRING ∨ ext[i].data_type = .FDS_ET_OCTET_ARRAY) →
        be_bytes 2 (size_of_data_type ext[i].data_type) = [255, 255])) := by
  have hraw := extended_raw_eq t pctx.next_template_id ext h4 hb
  have hfl := flatMap_specifiers_length ext
  have hpre : (htons pctx.next_template_id ++ htons (ntohs_at t.raw 2 + ext.length)
      ++ t.raw.drop 4).length = t.raw.length := by
    simp [htons]
    omega
  have hread2 : mem_read (extended_raw t pctx.next_template_id ext) 2 2
      = be_bytes 2 (ntohs_at t.raw 2 + ext.length) := by
    rw [hraw, ← htons_eq_be_bytes]
    simp [mem_read, htons]
  refine ⟨?_, ?_, ?_, hread2, ?_, ?_, ?_⟩
  · intro nt hp hd
    exact get_or_create_miss_some api pctx t b ext nt hmiss hty h4 hb hp hd
  · rw [hraw, List.length_append, hpre, hfl]
  · rw [hraw, ← htons_eq_be_bytes]
    simp [mem_read, htons]
  · intro hwf
    rw [hread2, be_value_be_bytes]
    exact Nat.mod_eq_of_lt (by norm_num; omega)
  · rw [hraw]
    have hd4 : (t.raw.drop 4).length = t.raw.length - 4 := by simp
    simp only [mem_read, List.append_assoc]
    have : List.drop 4 (htons pctx.next_template_id ++ (htons (ntohs_at t.raw 2 + ext.length)
        ++ (t.raw.drop 4 ++ ext.flatMap
          (fun e => htons e.id ++ htons (size_of_data_type e.data_type)))))
        = t.raw.drop 4 ++ ext.flatMap
          (fun e => htons e.id ++ htons (size_of_data_type e.data_type)) := by
      simp [htons]
    rw [this, ← hd4, List.take_left, List.take_length]
  · intro i hi
    refine ⟨?_, ?_⟩
    · rw [hraw, ← htons_eq_be_bytes, ← htons_eq_be_bytes, ← read_specifier ext i hi]
      simp only [mem_read]
      rw [← hpre, ← List.drop_drop, List.drop_left]
    · intro hv
      rcases hv with hv | hv <;> rw [hv] <;> decide

/-- Witness of C6: template 256 extended with `sample_ext` is built as
`9C 40 00 02 00 08 00 04 00 52 FF FF`. -/
theorem extended_raw_layout_witness :
    (extended_raw sample_tmplt 40000 [sample_ext]).length = 8 + 4 * 1 ∧
    get_or_create_extended_template sample_api sample_init_ctx sample_tmplt ⟨[], [], none⟩
        [sample_ext]
      = some (some ⟨.FDS_TYPE_TEMPLATE, 40000, [156, 64, 0, 2, 0, 8, 0, 4, 0, 82, 255, 255]⟩,
          { config := some sample_cfg,
            templates := ⟨256, 40000,
              ⟨.FDS_TYPE_TEMPLATE, 40000, [156, 64, 0, 2, 0, 8, 0, 4, 0, 82, 255, 255]⟩,
              extended_raw sample_tmplt 40000 [sample_ext]⟩ :: [],
            next_template_id := (40000 + 1) % 65536 },
          write_template_set ⟨[], [], none⟩ (8 + 4 * 1)
            ⟨.FDS_TYPE_TEMPLATE, 40000, [156, 64, 0, 2, 0, 8, 0, 4, 0, 82, 255, 255]⟩) :=
  have h := extended_raw_layout sample_api sample_init_ctx sample_tmplt ⟨[], [], none⟩
    [sample_ext] (by simp [sample_init_ctx]) (by decide) (by decide) (by decide)
  ⟨h.2.1, h.1 ⟨.FDS_TYPE_TEMPLATE, 40000, [156, 64, 0, 2, 0, 8, 0, 4, 0, 82, 255, 255]⟩
    (by decide) (by decide)⟩


/-! ## The Template Set of a new extended Template -/

theorem take_zeros (k : Nat) (hk : k ≤ 4) : List.take k [0, 0, 0, 0] = List.replicate k 0 := by
  interval_cases k <;> rfl

/-- The bytes `write_template_set` appends, in terms of the `uint16_t`
arithmetic of extender.c:317-322. -/
theorem write_template_set_buffer (b : msg_builder_s) (new_len : Nat) (nt : fds_template) :
    (write_template_set b new_len nt).buffer
      = b.buffer ++ (htons 2 ++ htons
          (if (4 + new_len) % 65536 % 4 ≠ 0 then
            ((4 + new_len) % 65536 + (4 - (4 + new_len) % 65536 % 4)) % 65536
           else (4 + new_len) % 65536)
        ++ nt.raw
        ++ List.replicate (if (4 + new_len) % 65536 % 4 ≠ 0 then 4 - (4 + new_len) % 65536 % 4
            else 0) 0) := by
  unfold write_template_set
  by_cases h : (4 + new_len) % 65536 % 4 ≠ 0
  · have hpos : 4 - (4 + new_len) % 65536 % 4 > 0 := by omega
    have hle : 4 - (4 + new_len) % 65536 % 4 ≤ 4 := by omega
    simp only [h, if_true, hpos, msg_builder_write, FDS_IPFIX_SET_TMPLT, List.take_length,
      take_zeros _ hle, ne_eq, not_false_eq_true]
    simp [htons, List.append_assoc]
  · simp only [h, if_false, msg_builder_write, FDS_IPFIX_SET_TMPLT, List.take_length,
      gt_iff_lt, lt_irrefl]
    simp [htons, List.append_assoc]

/-- C7, amended: for a newly derived extended Template whose raw length
`raw_len` is at most 65528, the Template Set written to the builder is the
Set Header with `flowset_id = 2` and length `L`, both big-endian, then the
`raw_len` bytes of the Template record, then zero bytes, where `L` is the
smallest multiple of 4 that is at least `4 + raw_len`; the number of bytes
written is `L`, the value the Length field holds. -/
theorem template_set_framing (api : fds_api) (pctx : plugin_ctx) (t : fds_template)
    (b : msg_builder_s) (ext : List config_ids_t) (nt : fds_template)
    (hmiss : ∀ node ∈ pctx.templates, node.old_id ≠ t.id)
    (hty : t.type ≠ .FDS_TYPE_TEMPLATE_OPTS)
    (h4 : 4 ≤ t.raw.length) (hb : t.raw.length + 4 * ext.length ≤ 65528)
    (hp : api.fds_template_parse (extended_raw t pctx.next_template_id ext) = some nt)
    (hd : api.fds_template_ies_define nt = true)
    (hraw : nt.raw.length = t.raw.length + 4 * ext.length) :
    ∃ pctx1 b1 L,
      get_or_create_extended_template api pctx t b ext = some (some nt, pctx1, b1) ∧
      b1.buffer = b.buffer
        ++ (be_bytes 2 2 ++ be_bytes 2 L ++ nt.raw
          ++ List.replicate (L - (4 + nt.raw.length)) 0) ∧
      4 ∣ L ∧ 4 + nt.raw.length ≤ L ∧ (∀ m, 4 ∣ m → 4 + nt.raw.length ≤ m → L ≤ m) ∧
      b1.buffer.length = b.buffer.length + L ∧
      be_value (be_bytes 2 L) = L := by
  have hres := get_or_create_miss_some api pctx t b ext nt hmiss hty h4 (by omega) hp hd
  refine ⟨_, _, (4 + nt.raw.length + 3) / 4 * 4, hres, ?_, ?_, ?_, ?_, ?_, ?_⟩
  · rw [write_template_set_buffer, ← hraw, ← htons_eq_be_bytes, ← htons_eq_be_bytes]
    have hm : (4 + nt.raw.length) % 65536 = 4 + nt.raw.length := Nat.mod_eq_of_lt (by omega)
    rw [hm]
    by_cases h : (4 + nt.raw.length) % 4 ≠ 0
    · have hm2 : (4 + nt.raw.length + (4 - (4 + nt.raw.length) % 4)) % 65536
          = (4 + nt.raw.length + 3) / 4 * 4 := by
        rw [Nat.mod_eq_of_lt (by omega)]
        omega
      have hpad : 4 - (4 + nt.raw.length) % 4
          = (4 + nt.raw.length + 3) / 4 * 4 - (4 + nt.raw.length) := by omega
      simp only [h, if_true, ne_eq, not_false_eq_true]
      rw [hm2, hpad]
    · have hm2 : 4 + nt.raw.length = (4 + nt.raw.length + 3) / 4 * 4 := by omega
      have hpad : (4 + nt.raw.length + 3) / 4 * 4 - (4 + nt.raw.length) = 0 := by omega
      simp only [h, if_false, hpad]
      rw [← hm2]
  · exact Dvd.intro_left _ rfl
  · omega
  · intro m hm hle
    obtain ⟨k, rfl⟩ := hm
    omega
  · rw [write_template_set_buffer, ← hraw]
    have hm : (4 + nt.raw.length) % 65536 = 4 + nt.raw.length := Nat.mod_eq_of_lt (by omega)
    simp only [hm, List.length_append, htons_length, List.length_replicate]
    split <;> omega
  · rw [be_value_be_bytes]
    exact Nat.mod_eq_of_lt (by norm_num; omega)

/-- Witness of the amended C7: the Template Set of template 40000 derived from
template 256 is `00 02 00 10` followed by the 12 bytes of the record. -/
theorem template_set_framing_witness :
    ∃ pctx1 b1 L,
      get_or_create_extended_template sample_api sample_init_ctx sample_tmplt
        ⟨[], [], none⟩ [sample_ext]
        = some (some ⟨.FDS_TYPE_TEMPLATE, 40000, [156, 64, 0, 2, 0, 8, 0, 4, 0, 82, 255, 255]⟩,
            pctx1, b1) ∧
      b1.buffer = [] ++ (be_bytes 2 2 ++ be_bytes 2 L
          ++ [156, 64, 0, 2, 0, 8, 0, 4, 0, 82, 255, 255]
          ++ List.replicate (L - (4 + 12)) 0) ∧
      4 ∣ L ∧ 4 + 12 ≤ L ∧ (∀ m, 4 ∣ m → 4 + 12 ≤ m → L ≤ m) ∧
      b1.buffer.length = 0 + L ∧ be_value (be_bytes 2 L) = L :=
  template_set_framing sample_api sample_init_ctx sample_tmplt ⟨[], [], none⟩ [sample_ext]
    ⟨.FDS_TYPE_TEMPLATE, 40000, [156, 64, 0, 2, 0, 8, 0, 4, 0, 82, 255, 255]⟩
    (by simp [sample_init_ctx]) (by decide) (by decide) (by decide) (by decide) rfl rfl

theorem wide_raw_length (n : Nat) :
    ([1, 0, 63, 249] ++ (List.replicate n [0, 210, 0, 1]).flatten).length = 4 + 4 * n := by
  simp only [List.length_append, List.length_flatten, List.map_replicate,
    List.sum_replicate, List.length_cons, List.length_nil, smul_eq_mul]
  omega

theorem wide_tmplt_length : wide_tmplt.raw.length = 65512 := by
  show ([1, 0, 63, 249] ++ (List.replicate 16377 [0, 210, 0, 1]).flatten).length = 65512
  rw [wide_raw_length]

/-- C7, as stated, fails: template 256 with 16377 fields, extended by five
Extensions, has a raw record of 65532 bytes; `set_len = 4 + new_len` wraps to
0, so the Set Header that is written announces length 0 while 65536 bytes are
written for the set. -/
theorem template_set_length_wraps_counterexample :
    ∃ nt pctx1 b1,
      get_or_create_extended_template accept_api create_plugin_ctx wide_tmplt ⟨[], [], none⟩
        [sample_ext, sample_ext, sample_ext, sample_ext, sample_ext]
        = some (some nt, pctx1, b1) ∧
      nt.raw.length = 65532 ∧
      mem_read b1.buffer 0 4 = [0, 2, 0, 0] ∧
      b1.buffer.length = 65536 := by
  have hlen := wide_tmplt_length
  have hb : wide_tmplt.raw.length
      + 4 * [sample_ext, sample_ext, sample_ext, sample_ext, sample_ext].length ≤ 65535 := by
    rw [hlen]
    decide
  have h4 : 4 ≤ wide_tmplt.raw.length := by
    rw [hlen]
    decide
  have hbuf : (extended_raw wide_tmplt create_plugin_ctx.next_template_id
      [sample_ext, sample_ext, sample_ext, sample_ext, sample_ext]).length = 65532 := by
    rw [extended_raw_length _ _ _ h4 hb, hlen]
    rfl
  have hres := get_or_create_miss_some accept_api create_plugin_ctx wide_tmplt ⟨[], [], none⟩
    [sample_ext, sample_ext, sample_ext, sample_ext, sample_ext] ⟨.FDS_TYPE_TEMPLATE, _, _⟩
    (fun node hn => by simp [create_plugin_ctx] at hn) (fun h => by cases h) h4 hb rfl rfl
  have hset : (4 + (wide_tmplt.raw.length
      + 4 * [sample_ext, sample_ext, sample_ext, sample_ext, sample_ext].length)) % 65536 = 0 := by
    rw [hlen]
    rfl
  refine ⟨_, _, _, hres, hbuf, ?_, ?_⟩
  · rw [write_template_set_buffer, hset]
    simp [mem_read, htons]
  · rw [write_template_set_buffer, hset]
    simp only [List.length_append, htons_length, hbuf]
    simp


/-! ## Template IDs assigned by the cache -/

/-- The three ways a call of `get_or_create_extended_template` can leave the
plugin context: unchanged; one Template ID consumed and no entry created (the
parser or the IE binder failed); or one Template ID consumed and an entry for
a Template ID that had none put in front of the list. -/
theorem get_or_create_outcomes (api : fds_api) (pctx : plugin_ctx) (t : fds_template)
    (b : msg_builder_s) (ext : List config_ids_t) (r : Option fds_template)
    (pctx1 : plugin_ctx) (b1 : msg_builder_s)
    (h : get_or_create_extended_template api pctx t b ext = some (r, pctx1, b1)) :
    pctx1 = pctx ∨
    (r = none ∧
      pctx1 = { pctx with next_template_id := (pctx.next_template_id + 1) % 65536 }) ∨
    (∃ nt buf, r = some nt ∧ (∀ n ∈ pctx.templates, n.old_id ≠ t.id) ∧
      pctx1 = { config := pctx.config,
                templates := ⟨t.id, pctx.next_template_id, nt, buf⟩ :: pctx.templates,
                next_template_id := (pctx.next_template_id + 1) % 65536 }) := by
  unfold get_or_create_extended_template at h
  split at h
  · simp only [Option.some.injEq, Prod.mk.injEq] at h
    exact Or.inl h.2.1.symm
  · rename_i hfind
    split at h
    · simp only [Option.some.injEq, Prod.mk.injEq] at h
      exact Or.inl h.2.1.symm
    · dsimp only at h
      split at h
      · simp only [Option.some.injEq, Prod.mk.injEq] at h
        exact Or.inl h.2.1.symm
      · split at h
        · simp at h
        · split at h
          · simp only [Option.some.injEq, Prod.mk.injEq] at h
            exact Or.inr (Or.inl ⟨h.1.symm, h.2.1.symm⟩)
          · split at h
            · simp only [Option.some.injEq, Prod.mk.injEq] at h
              exact Or.inr (Or.inl ⟨h.1.symm, h.2.1.symm⟩)
            · simp only [Option.some.injEq, Prod.mk.injEq] at h
              refine Or.inr (Or.inr ⟨_, _, h.1.symm, ?_, h.2.1.symm⟩)
              intro n hn
              have := List.find?_eq_none.mp hfind n hn
              simpa using this

/-- The invariant of the cache along calls that never lose a Template ID: the
`old_id`s are pairwise distinct 16-bit values, `next_template_id` is 40000
plus the number of entries modulo `2 ^ 16`, and the `new_id`s are, from the
oldest entry to the newest, 40000, 40001, ... modulo `2 ^ 16`. -/
theorem clean_invariant (p : plugin_ctx) (h : ReachableClean p) :
    (p.templates.map (fun n => n.old_id)).Nodup ∧
    (∀ n ∈ p.templates, n.old_id < 65536) ∧
    p.next_template_id = (40000 + p.templates.length) % 65536 ∧
    p.templates.map (fun n => n.new_id)
      = (List.range p.templates.length).reverse.map (fun i => (40000 + i) % 65536) := by
  induction h with
  | init cfg => simp [create_plugin_ctx]
  | step api pctx t b ext r pctx1 b1 _ hid hcall hclean ih =>
    obtain ⟨ih1, ih2, ih3, ih4⟩ := ih
    rcases get_or_create_outcomes api pctx t b ext r pctx1 b1 hcall with h | h | h
    · subst h
      exact ⟨ih1, ih2, ih3, ih4⟩
    · obtain ⟨hr, _⟩ := h
      rcases hclean with hc | hc
      · simp [hr] at hc
      · subst hc
        exact ⟨ih1, ih2, ih3, ih4⟩
    · obtain ⟨nt, buf, _, hmiss, hp⟩ := h
      subst hp
      refine ⟨?_, ?_, ?_, ?_⟩
      · simp only [List.map_cons, List.nodup_cons]
        refine ⟨?_, ih1⟩
        intro hmem
        obtain ⟨n, hn, hne⟩ := List.mem_map.mp hmem
        exact hmiss n hn hne
      · intro n hn
        rcases List.mem_cons.mp hn with rfl | hn
        · exact hid
        · exact ih2 n hn
      · simp only [List.length_cons, ih3]
        omega
      · simp only [List.map_cons, List.length_cons, List.range_succ, List.reverse_append,
          List.reverse_cons, List.reverse_nil, List.nil_append, List.singleton_append, ih4, ih3]

theorem length_le_of_nodup_bounded (l : List Nat) (n : Nat) (hnd : l.Nodup)
    (hb : ∀ x ∈ l, x < n) : l.length ≤ n := by
  have hsub : l.toFinset ⊆ Finset.range n := by
    intro x hx
    exact Finset.mem_range.mpr (hb x (List.mem_toFinset.mp hx))
  have hcard := Finset.card_le_card hsub
  rw [List.toFinset_card_of_nodup hnd, Finset.card_range] at hcard
  exact hcard

/-- C8, amended: in every plugin context reachable from `create_plugin_ctx`
by calls of `get_or_create_extended_template` none of which fails after it
has allocated a Template ID, the `new_id`s of the cache entries are pairwise
distinct, and the first entry ever created (the last of the list) has
`new_id = 40000`. -/
theorem new_ids_distinct_from_40000 (p : plugin_ctx) (h : ReachableClean p) :
    (p.templates.map (fun n => n.new_id)).Nodup ∧
    (∀ node, p.templates.getLast? = some node → node.new_id = 40000) := by
  obtain ⟨h1, h2, _, h4⟩ := clean_invariant p h
  have hlen : p.templates.length ≤ 65536 := by
    have := length_le_of_nodup_bounded (p.templates.map (fun n => n.old_id)) 65536 h1
      (by
        intro x hx
        obtain ⟨n, hn, rfl⟩ := List.mem_map.mp hx
        exact h2 n hn)
    simpa using this
  refine ⟨?_, ?_⟩
  · rw [h4]
    apply List.Nodup.map_on
    · intro x hx y hy hxy
      have hx2 : x < p.templates.length := by simpa using hx
      have hy2 : y < p.templates.length := by simpa using hy
      simp only at hxy
      omega
    · exact List.nodup_reverse.mpr (List.nodup_range _)
  · intro node hnode
    have hl : (p.templates.map (fun n => n.new_id)).getLast? = some node.new_id := by
      rw [List.getLast?_map, hnode]
      rfl
    rw [h4, List.getLast?_map, List.getLast?_reverse] at hl
    cases hk : p.templates.length with
    | zero =>
      have : p.templates = [] := List.length_eq_zero.mp hk
      rw [this] at hnode
      simp at hnode
    | succ k =>
      rw [hk] at hl
      have h0 : (List.range (k + 1)).head? = some 0 := by
        rw [List.range_succ_eq_map]
        rfl
      rw [h0] at hl
      simp only [Option.map_some', Option.some.injEq] at hl
      omega

/-- Witness of the amended C8: the context after template 256 was extended
is reachable without a failure. -/
theorem new_ids_distinct_from_40000_witness :
    (sample_ctx.templates.map (fun n => n.new_id)).Nodup ∧
    (∀ node, sample_ctx.templates.getLast? = some node → node.new_id = 40000) :=
  new_ids_distinct_from_40000 sample_ctx
    (ReachableClean.step sample_api sample_init_ctx sample_tmplt ⟨[], [], none⟩ [sample_ext]
      (some ⟨.FDS_TYPE_TEMPLATE, 40000, [156, 64, 0, 2, 0, 8, 0, 4, 0, 82, 255, 255]⟩)
      sample_ctx ⟨[], [0, 2, 0, 16, 156, 64, 0, 2, 0, 8, 0, 4, 0, 82, 255, 255], none⟩
      (ReachableClean.init (some sample_cfg)) (by decide) (by decide) (Or.inl rfl))


theorem heavy_parse_fails (id : Nat) :
    sample_parse (extended_raw heavy_tmplt id [sample_ext]) = none := by
  rw [extended_raw_eq heavy_tmplt id [sample_ext] (by decide) (by decide)]
  have hlist : htons id ++ htons (ntohs_at heavy_tmplt.raw 2 + [sample_ext].length)
      ++ heavy_tmplt.raw.drop 4
      ++ [sample_ext].flatMap (fun e => htons e.id ++ htons (size_of_data_type e.data_type))
      = [id / 256 % 256, id % 256, 0, 2, 0, 1, 255, 235, 0, 82, 255, 255] := by
    have h1 : htons (ntohs_at heavy_tmplt.raw 2 + [sample_ext].length) = [0, 2] := by decide
    have h2 : heavy_tmplt.raw.drop 4 = [0, 1, 255, 235] := by decide
    have h3 : [sample_ext].flatMap
        (fun e => htons e.id ++ htons (size_of_data_type e.data_type)) = [0, 82, 255, 255] := by
      decide
    rw [h1, h2, h3]
    rfl
  rw [hlist]
  have hcount : ntohs_at [id / 256 % 256, id % 256, 0, 2, 0, 1, 255, 235, 0, 82, 255, 255] 2
      = 2 := by norm_num [ntohs_at]
  have hdata : sample_data_len
      [id / 256 % 256, id % 256, 0, 2, 0, 1, 255, 235, 0, 82, 255, 255] 2 4 = 65516 := by
    norm_num [sample_data_len, ntohs_at]
  unfold sample_parse
  simp only [hcount, hdata]
  split
  · rfl
  · rfl

/-- Under the sample parser the derivation for `heavy_tmplt` fails after the
Template ID was taken. -/
theorem heavy_step (p : plugin_ctx) (b : msg_builder_s)
    (hmiss : ∀ node ∈ p.templates, node.old_id ≠ 257) :
    get_or_create_extended_template sample_api p heavy_tmplt b [sample_ext]
      = some (none, { p with next_template_id := (p.next_template_id + 1) % 65536 }, b) := by
  rw [get_or_create_miss sample_api p heavy_tmplt b [sample_ext] hmiss (by decide) (by decide)
    (by decide)]
  have : sample_api.fds_template_parse (extended_raw heavy_tmplt p.next_template_id [sample_ext])
      = none := heavy_parse_fails _
  rw [this]

theorem reachable_after_failures (p : plugin_ctx) (hp : Reachable p)
    (hmiss : ∀ node ∈ p.templates, node.old_id ≠ 257) (n : Nat) :
    Reachable { p with next_template_id := (p.next_template_id + (n + 1)) % 65536 } := by
  induction n with
  | zero =>
    exact Reachable.step sample_api p heavy_tmplt ⟨[], [], none⟩ [sample_ext] none _ _ hp
      (by decide) (heavy_step p _ hmiss)
  | succ n ih =>
    have hstep := heavy_step
      { p with next_template_id := (p.next_template_id + (n + 1)) % 65536 } ⟨[], [], none⟩ hmiss
    have hreach := Reachable.step sample_api _ heavy_tmplt ⟨[], [], none⟩ [sample_ext] none _ _
      ih (by decide) hstep
    have heq : ((p.next_template_id + (n + 1)) % 65536 + 1) % 65536
        = (p.next_template_id + (n + 1 + 1)) % 65536 := by omega
    simp only [heq] at hreach
    exact hreach

theorem reachable_sample_ctx : Reachable sample_ctx :=
  Reachable.step sample_api sample_init_ctx sample_tmplt ⟨[], [], none⟩ [sample_ext]
    (some ⟨.FDS_TYPE_TEMPLATE, 40000, [156, 64, 0, 2, 0, 8, 0, 4, 0, 82, 255, 255]⟩)
    sample_ctx ⟨[], [0, 2, 0, 16, 156, 64, 0, 2, 0, 8, 0, 4, 0, 82, 255, 255], none⟩
    (Reachable.init (some sample_cfg)) (by decide) (by decide)

/-- C8, as stated, fails, in both parts. A derivation that fails in the parser
has already taken a Template ID (extender.c:263 precedes 283): after one
failure for template 257 the first entry ever created, for template 256, has
`new_id = 40001`. And after the entry for template 256 (`new_id = 40000`) and
65535 such failures the 16-bit counter is back at 40000, so the entry created
for template 258 has `new_id = 40000` as well. -/
theorem new_id_counterexample :
    (Reachable late_ctx ∧
      ∃ node, late_ctx.templates.getLast? = some node ∧ node.new_id ≠ 40000) ∧
    (Reachable dup_ctx ∧ ¬ (dup_ctx.templates.map (fun n => n.new_id)).Nodup) := by
  refine ⟨⟨?_, ?_⟩, ⟨?_, ?_⟩⟩
  · have h1 := reachable_after_failures sample_init_ctx (Reachable.init (some sample_cfg))
      (by simp [sample_init_ctx]) 0
    exact Reachable.step sample_api _ sample_tmplt ⟨[], [], none⟩ [sample_ext]
      (some ⟨.FDS_TYPE_TEMPLATE, 40001, [156, 65, 0, 2, 0, 8, 0, 4, 0, 82, 255, 255]⟩)
      late_ctx ⟨[], [0, 2, 0, 16, 156, 65, 0, 2, 0, 8, 0, 4, 0, 82, 255, 255], none⟩
      h1 (by decide) (by decide)
  · exact ⟨_, rfl, by decide⟩
  · have h1 := reachable_after_failures sample_ctx reachable_sample_ctx
      (by simp [sample_ctx]) 65534
    exact Reachable.step sample_api _ other_tmplt ⟨[], [], none⟩ [sample_ext]
      (some ⟨.FDS_TYPE_TEMPLATE, 40000, [156, 64, 0, 2, 0, 8, 0, 4, 0, 82, 255, 255]⟩)
      dup_ctx ⟨[], [0, 2, 0, 16, 156, 64, 0, 2, 0, 8, 0, 4, 0, 82, 255, 255], none⟩
      h1 (by decide) (by decide)
  · decide


/-! ## One pass of the record loop -/

theorem ref_add_size_add (ref : ipx_ipfix_record) (a b : Nat) :
    ref_add_size (ref_add_size ref a) b = ref_add_size ref (a + b) := by
  simp only [ref_add_size]
  congr 2
  omega

theorem ref_add_size_zero (ref : ipx_ipfix_record) (h : ref.drec.size < 65536) :
    ref_add_size ref 0 = ref := by
  cases ref with
  | mk d =>
    cases d with
    | mk data size tmplt =>
      simp only [ref_add_size, Nat.add_zero]
      congr
      exact Nat.mod_eq_of_lt h

theorem ref_add_size_lt (ref : ipx_ipfix_record) (n : Nat) :
    (ref_add_size ref n).drec.size < 65536 := by
  simp only [ref_add_size]
  omega

/-- Function `add_value` appends `appended_bytes` to the builder, whatever the
builder holds, and adds their number to the `uint16_t` size of the record. -/
theorem add_value_eq (m : tmp_match_t) (b : msg_builder_s) (ref : ipx_ipfix_record)
    (hsz : ref.drec.size < 65536) :
    add_value m b ref = (appended_bytes m).map
      (fun e => ({ b with buffer := b.buffer ++ e }, ref_add_size ref e.length)) := by
  have h0 := ref_add_size_zero ref hsz
  obtain ⟨id, dt, matched, value⟩ := m
  cases dt <;> cases matched <;> cases value <;>
    simp [add_value, appended_bytes, msg_builder_write, strlen, htons, htonl, htobe64, h0]
  all_goals split <;> simp [Nat.add_comm]
  all_goals congr 1; omega

theorem add_values_eq (ms : List tmp_match_t) (encs : List (List Nat))
    (h : List.Forall₂ (fun m e => appended_bytes m = some e) ms encs)
    (b : msg_builder_s) (ref : ipx_ipfix_record) (hsz : ref.drec.size < 65536) :
    add_values ms b ref
      = some ({ b with buffer := b.buffer ++ encs.flatten },
          ref_add_size ref encs.flatten.length) := by
  induction h generalizing b ref with
  | nil => simp [add_values, ref_add_size_zero ref hsz]
  | @cons m e ms es hm _ ih =>
    simp only [add_values, add_value_eq m b ref hsz, hm, Option.map_some', Option.some_bind]
    rw [ih _ _ (ref_add_size_lt ref _), ref_add_size_add]
    simp [List.append_assoc]

theorem scan_values_value (api : fds_api) (packet : List Nat) (drec : fds_drec)
    (m : tmp_match_t) (vs : List config_value_t) (hm : m.matched = false)
    (hv : ∀ v ∈ vs, v.value ≠ none) :
    (scan_values api packet drec m vs).matched = true →
      (scan_values api packet drec m vs).value ≠ none := by
  induction vs with
  | nil => simp [scan_values, hm]
  | cons v vs ih =>
    simp only [scan_values]
    split
    · intro _
      exact hv v (by simp)
    · exact ih (fun x hx => hv x (List.mem_cons_of_mem _ hx))

theorem appended_bytes_isSome (m : tmp_match_t) (h : m.matched = true → m.value ≠ none) :
    ∃ e, appended_bytes m = some e := by
  obtain ⟨id, dt, matched, value⟩ := m
  cases matched <;> cases value <;> simp at h <;> cases dt <;>
    simp [appended_bytes, add_value] <;> split <;> simp

/-- With no `NULL` Candidate value in the configuration, `add_value` has
bytes to append for the match entry of every Extension. -/
theorem encodings_exist (api : fds_api) (packet : List Nat) (drec : fds_drec)
    (ids : List config_ids_t) (hval : ∀ ext ∈ ids, ∀ v ∈ ext.values, v.value ≠ none) :
    ∃ encs, List.Forall₂
      (fun ext e => appended_bytes (compute_match api packet drec ext) = some e) ids encs := by
  induction ids with
  | nil => exact ⟨[], List.Forall₂.nil⟩
  | cons ext ids ih =>
    obtain ⟨encs, hencs⟩ := ih (fun x hx => hval x (List.mem_cons_of_mem _ hx))
    obtain ⟨e, he⟩ := appended_bytes_isSome (compute_match api packet drec ext)
      (scan_values_value api packet drec _ ext.values rfl (hval ext (by simp)))
    exact ⟨e :: encs, List.Forall₂.cons he hencs⟩


theorem msg_builder_end_dset_ok (b : msg_builder_s) : (msg_builder_end_dset b).1 = .IPX_OK := by
  unfold msg_builder_end_dset
  split
  · rfl
  · dsimp only
    split <;> rfl

theorem msg_builder_end_dset_msg (b : msg_builder_s) : (msg_builder_end_dset b).2.msg = b.msg := by
  unfold msg_builder_end_dset
  split
  · rfl
  · dsimp only
    split <;> rfl

theorem manage_set_boundaries_ok (b : msg_builder_s) (cur tid : Nat) :
    (manage_set_boundaries b cur tid).1 = .IPX_OK := by
  by_cases h1 : tid = cur <;> by_cases h2 : cur = 0 <;>
    simp [manage_set_boundaries, h1, h2, msg_builder_end_dset_ok]
  split_ifs <;> rfl

theorem manage_set_boundaries_msg (b : msg_builder_s) (cur tid : Nat) :
    (manage_set_boundaries b cur tid).2.1.msg = b.msg := by
  by_cases h1 : tid = cur <;> by_cases h2 : cur = 0 <;>
    simp [manage_set_boundaries, h1, h2, msg_builder_end_dset_ok, msg_builder_begin_dset,
      msg_builder_end_dset_msg]
  split_ifs <;> rfl

theorem write_template_set_msg (b : msg_builder_s) (n : Nat) (t : fds_template) :
    (write_template_set b n t).msg = b.msg := by
  unfold write_template_set
  dsimp only
  split_ifs <;> rfl

/-- Function `get_or_create_extended_template` does not touch the record
references of the output message. -/
theorem get_or_create_msg (api : fds_api) (pctx : plugin_ctx) (t : fds_template)
    (b : msg_builder_s) (ext : List config_ids_t) (r : Option fds_template)
    (pctx1 : plugin_ctx) (b1 : msg_builder_s)
    (h : get_or_create_extended_template api pctx t b ext = some (r, pctx1, b1)) :
    b1.msg = b.msg := by
  unfold get_or_create_extended_template at h
  split at h
  · simp only [Option.some.injEq, Prod.mk.injEq] at h
    rw [← h.2.2]
  · split at h
    · simp only [Option.some.injEq, Prod.mk.injEq] at h
      rw [← h.2.2]
    · dsimp only at h
      split at h
      · simp only [Option.some.injEq, Prod.mk.injEq] at h
        rw [← h.2.2]
      · split at h
        · simp at h
        · split at h
          · simp only [Option.some.injEq, Prod.mk.injEq] at h
            rw [← h.2.2]
          · split at h
            · simp only [Option.some.injEq, Prod.mk.injEq] at h
              rw [← h.2.2]
            · simp only [Option.some.injEq, Prod.mk.injEq] at h
              rw [← h.2.2]
              exact write_template_set_msg _ _ _

/-- One pass of the record loop, for a record whose extended Template is
returned and whose match entries all have bytes to append: the record
reference is added with the write offset as `data`, the size grown modulo
`2 ^ 16` by the bytes appended, and the extended Template; the buffer
receives the bytes of the record and the appended bytes. -/
theorem process_record_eq (api : fds_api) (cfg : config) (packet : List Nat)
    (pctx : plugin_ctx) (b : msg_builder_s) (cur : Nat) (record : ipx_ipfix_record)
    (t : fds_template) (pctx1 : plugin_ctx) (b1 : msg_builder_s) (encs : List (List Nat))
    (hres : get_or_create_extended_template api pctx record.drec.tmplt b cfg.ids
      = some (some t, pctx1, b1))
    (henc : List.Forall₂
      (fun ext e => appended_bytes (compute_match api packet record.drec ext) = some e)
      cfg.ids encs)
    (hsz : record.drec.size < 65536) :
    process_record api cfg packet pctx b cur record
      = some (.next pctx1
          { msg := b.msg ++
              [⟨⟨(manage_set_boundaries b1 cur t.id).2.1.buffer.length,
                (record.drec.size + encs.flatten.length) % 65536, t⟩⟩],
            buffer := (manage_set_boundaries b1 cur t.id).2.1.buffer
              ++ mem_read packet record.drec.data record.drec.size ++ encs.flatten,
            dset_open := (manage_set_boundaries b1 cur t.id).2.1.dset_open }
          (manage_set_boundaries b1 cur t.id).2.2) := by
  have hms : List.Forall₂ (fun m e => appended_bytes m = some e)
      (cfg.ids.map (compute_match api packet record.drec)) encs := by
    rw [List.forall₂_map_left_iff]
    exact henc
  have hmsg := get_or_create_msg api pctx record.drec.tmplt b cfg.ids _ pctx1 b1 hres
  have hok := manage_set_boundaries_ok b1 cur t.id
  have hmsg2 := manage_set_boundaries_msg b1 cur t.id
  unfold process_record
  simp only [hres, hok, ne_eq, not_true_eq_false, if_false]
  rw [add_values_eq _ encs hms _ _ (by simpa using hsz)]
  simp only [Option.map_some', msg_builder_write, msg_builder_s.msg_len, mem_read, ref_add_size,
    hmsg2, hmsg, List.append_assoc]


/-- C4, amended: for every processed Data Record for which `drec.size` plus
the number of bytes `add_value` appended for all Extensions fits the
`uint16_t` size field (is at most 65535), the record reference exposed
downstream has that sum as `size`, has as `data` the output-buffer offset at
which the copy of the original record bytes begins, and has the extended
Template as `tmplt`. -/
theorem record_ref_fields (api : fds_api) (cfg : config) (packet : List Nat)
    (pctx : plugin_ctx) (b : msg_builder_s) (cur : Nat) (record : ipx_ipfix_record)
    (t : fds_template) (pctx1 : plugin_ctx) (b1 : msg_builder_s) (encs : List (List Nat))
    (hres : get_or_create_extended_template api pctx record.drec.tmplt b cfg.ids
      = some (some t, pctx1, b1))
    (henc : List.Forall₂
      (fun ext e => appended_bytes (compute_match api packet record.drec ext) = some e)
      cfg.ids encs)
    (hfit : record.drec.size + encs.flatten.length ≤ 65535) :
    ∃ b2 cur2 pre,
      process_record api cfg packet pctx b cur record = some (.next pctx1 b2 cur2) ∧
      b2.msg = b.msg ++
        [{ drec := { data := pre.length, size := record.drec.size + encs.flatten.length,
                     tmplt := t } }] ∧
      b2.buffer = pre ++ mem_read packet record.drec.data record.drec.size ++ encs.flatten := by
  have h := process_record_eq api cfg packet pctx b cur record t pctx1 b1 encs hres henc
    (by omega)
  rw [Nat.mod_eq_of_lt (by omega)] at h
  exact ⟨_, _, _, h, rfl, rfl⟩

/-- Witness of the amended C4: the reference of the record of the sample
message has size 4 + 5 and points at offset 48 of the output buffer. -/
theorem record_ref_fields_witness :
    ∃ b2 cur2 pre,
      process_record sample_api sample_cfg sample_msg.packet sample_init_ctx
        ⟨[], sample_msg.packet.take 28, none⟩ 0 ⟨⟨32, 4, sample_tmplt⟩⟩
        = some (.next sample_ctx b2 cur2) ∧
      b2.msg = [] ++
        [{ drec := { data := pre.length, size := 4 + [[4, 101, 116, 104, 48]].flatten.length,
                     tmplt := ⟨.FDS_TYPE_TEMPLATE, 40000,
                       [156, 64, 0, 2, 0, 8, 0, 4, 0, 82, 255, 255]⟩ } }] ∧
      b2.buffer = pre ++ mem_read sample_msg.packet 32 4 ++ [[4, 101, 116, 104, 48]].flatten :=
  record_ref_fields sample_api sample_cfg sample_msg.packet sample_init_ctx
    ⟨[], sample_msg.packet.take 28, none⟩ 0 ⟨⟨32, 4, sample_tmplt⟩⟩
    ⟨.FDS_TYPE_TEMPLATE, 40000, [156, 64, 0, 2, 0, 8, 0, 4, 0, 82, 255, 255]⟩ sample_ctx
    ⟨[], sample_msg.packet.take 28
      ++ [0, 2, 0, 16, 156, 64, 0, 2, 0, 8, 0, 4, 0, 82, 255, 255], none⟩
    [[4, 101, 116, 104, 48]]
    (by decide) (List.Forall₂.cons (by decide) List.Forall₂.nil) (by decide)

theorem var_record_length (n : Nat) :
    (mem_read
      ([0, 10, 255, 255, 0, 0, 0, 1, 0, 0, 0, 1, 0, 0, 0, 1, 1, 0, 255, 239, 255, 255, 232]
        ++ List.replicate n 97) 20 (n + 3)).length = n + 3 := by
  simp only [mem_read, List.length_take, List.length_drop, List.length_append,
    List.length_replicate, List.length_cons, List.length_nil]
  omega

theorem var_packet_record_length : (mem_read var_packet 20 65515).length = 65515 :=
  var_record_length 65512

/-- C4, as stated, fails: a record of 65515 bytes extended with a string of
30 bytes is written on 65546 bytes (the record, the length byte and the
string), but the `uint16_t` size of its reference wraps around to 10. -/
theorem record_size_wraps_counterexample :
    ∃ (pctx1 : plugin_ctx) (b2 : msg_builder_s) (cur2 : Nat) (pre : List Nat)
        (t : fds_template),
      process_record sample_api long_cfg var_packet
        { config := some long_cfg, templates := [], next_template_id := 40000 }
        ⟨[], var_packet.take 16, none⟩ 0 ⟨⟨20, 65515, var_tmplt⟩⟩
        = some (.next pctx1 b2 cur2) ∧
      b2.msg = [{ drec := { data := pre.length, size := 10, tmplt := t } }] ∧
      b2.buffer.length = pre.length + 65546 := by
  have hres : get_or_create_extended_template sample_api
      { config := some long_cfg, templates := [], next_template_id := 40000 }
      var_tmplt ⟨[], var_packet.take 16, none⟩ long_cfg.ids
      = some (some ⟨.FDS_TYPE_TEMPLATE, 40000, [156, 64, 0, 2, 0, 96, 255, 255, 0, 83, 255, 255]⟩,
          { config := some long_cfg,
            templates := [⟨256, 40000,
              ⟨.FDS_TYPE_TEMPLATE, 40000, [156, 64, 0, 2, 0, 96, 255, 255, 0, 83, 255, 255]⟩,
              [156, 64, 0, 2, 0, 96, 255, 255, 0, 83, 255, 255]⟩],
            next_template_id := 40001 },
          ⟨[], var_packet.take 16
            ++ [0, 2, 0, 16, 156, 64, 0, 2, 0, 96, 255, 255, 0, 83, 255, 255], none⟩) := by
    decide
  have henc : List.Forall₂
      (fun ext e => appended_bytes
        (compute_match sample_api var_packet ⟨20, 65515, var_tmplt⟩ ext) = some e)
      long_cfg.ids [30 :: List.replicate 30 120] :=
    List.Forall₂.cons (by decide) List.Forall₂.nil
  have h := process_record_eq sample_api long_cfg var_packet _ _ 0 ⟨⟨20, 65515, var_tmplt⟩⟩
    _ _ _ _ hres henc (by decide)
  refine ⟨_, _, _, _, _, h, rfl, ?_⟩
  simp only [List.length_append, var_packet_record_length]
  rfl


/-! ## Configuration and initialisation -/

/-- C19: `size_of_data_type` returns 1 for BOOL, U8, S8; 2 for U16, S16; 4
for U32, S32, F32; 8 for U64, S64, F64; 4 for IPv4; 16 for IPv6; `0xFFFF` for
STRING and OCTET_ARRAY; and 0 for every other type. -/
theorem size_of_data_type_table (dt : fds_iemgr_element_type) :
    ((dt = .FDS_ET_BOOLEAN ∨ dt = .FDS_ET_UNSIGNED_8 ∨ dt = .FDS_ET_SIGNED_8) →
      size_of_data_type dt = 1) ∧
    ((dt = .FDS_ET_UNSIGNED_16 ∨ dt = .FDS_ET_SIGNED_16) → size_of_data_type dt = 2) ∧
    ((dt = .FDS_ET_UNSIGNED_32 ∨ dt = .FDS_ET_SIGNED_32 ∨ dt = .FDS_ET_FLOAT_32) →
      size_of_data_type dt = 4) ∧
    ((dt = .FDS_ET_UNSIGNED_64 ∨ dt = .FDS_ET_SIGNED_64 ∨ dt = .FDS_ET_FLOAT_64) →
      size_of_data_type dt = 8) ∧
    (dt = .FDS_ET_IPV4_ADDRESS → size_of_data_type dt = 4) ∧
    (dt = .FDS_ET_IPV6_ADDRESS → size_of_data_type dt = 16) ∧
    ((dt = .FDS_ET_STRING ∨ dt = .FDS_ET_OCTET_ARRAY) → size_of_data_type dt = 65535) ∧
    ((dt ≠ .FDS_ET_BOOLEAN ∧ dt ≠ .FDS_ET_UNSIGNED_8 ∧ dt ≠ .FDS_ET_SIGNED_8 ∧
      dt ≠ .FDS_ET_UNSIGNED_16 ∧ dt ≠ .FDS_ET_SIGNED_16 ∧
      dt ≠ .FDS_ET_UNSIGNED_32 ∧ dt ≠ .FDS_ET_SIGNED_32 ∧ dt ≠ .FDS_ET_FLOAT_32 ∧
      dt ≠ .FDS_ET_UNSIGNED_64 ∧ dt ≠ .FDS_ET_SIGNED_64 ∧ dt ≠ .FDS_ET_FLOAT_64 ∧
      dt ≠ .FDS_ET_IPV4_ADDRESS ∧ dt ≠ .FDS_ET_IPV6_ADDRESS ∧
      dt ≠ .FDS_ET_STRING ∧ dt ≠ .FDS_ET_OCTET_ARRAY) → size_of_data_type dt = 0) := by
  cases dt <;> simp [size_of_data_type, UINT16_MAX]

/-- Witness of C19: a MAC address is one of the other types. -/
theorem size_of_data_type_table_witness :
    size_of_data_type .FDS_ET_MAC_ADDRESS = 0 ∧ size_of_data_type .FDS_ET_IPV6_ADDRESS = 16 :=
  ⟨(size_of_data_type_table .FDS_ET_MAC_ADDRESS).2.2.2.2.2.2.2 (by decide),
   (size_of_data_type_table .FDS_ET_IPV6_ADDRESS).2.2.2.2.2.1 rfl⟩

theorem get_max_len_loop_eq (vs : List config_value_t) (a : Nat) :
    get_max_len_loop vs a
      = max a (((vs.filterMap fun v => v.value).map List.length).foldr max 0) := by
  induction vs generalizing a with
  | nil => simp [get_max_len_loop]
  | cons v vs ih =>
    cases hv : v.value with
    | none => simp [get_max_len_loop, hv, ih]
    | some s =>
      simp only [get_max_len_loop, hv, strlen, List.filterMap_cons, List.map_cons,
        List.foldr_cons]
      split
      · rw [ih]
        omega
      · rw [ih]
        omega

theorem max_extension_len_loop_eq (ids : List config_ids_t) (a : Nat) :
    max_extension_len_loop ids a = a + spec_max_extension_len ids := by
  induction ids generalizing a with
  | nil => simp [max_extension_len_loop, spec_max_extension_len]
  | cons id ids ih =>
    simp only [max_extension_len_loop, spec_max_extension_len, List.map_cons, List.sum_cons,
      UINT16_MAX, get_max_len, get_max_len_loop_eq, Nat.zero_max]
    simp only [spec_max_extension_len] at ih
    split
    · rw [ih]
      omega
    · rw [ih]
      omega

/-- C20: the `max_extension_len` that `ipx_plugin_init` stores equals the
sum over the Extensions of the configuration of `size_of_data_type` of the
data type when the type is fixed-width, and, for a variable-length type, of
`m + 1` if `m < 255` and `m + 3` if `m ≥ 255`, where `m` is the maximum byte
length of the value strings of the Candidates of the Extension (0 when there
is none). -/
theorem max_extension_len_formula (host : iemgr_api) (CONFIG_IDS_MAX CONFIG_VALUSE_MAX : Nat)
    (params_ctx : Option (List fds_xml_cont)) (pctx : plugin_ctx)
    (h : ipx_plugin_init host CONFIG_IDS_MAX CONFIG_VALUSE_MAX params_ctx
      = some (.IPX_OK, some pctx)) :
    ∃ cfg, pctx.config = some cfg ∧
      cfg.max_extension_len = spec_max_extension_len cfg.ids := by
  unfold ipx_plugin_init at h
  split at h
  · simp at h
  · simp at h
  · split at h
    · simp at h
    · simp at h
    · simp only [Option.some.injEq, Prod.mk.injEq, true_and] at h
      subst h
      refine ⟨_, rfl, ?_⟩
      simp [max_extension_len_loop_eq]

/-- Witness of C20: for the configuration of scenario 1 the sum is 4 + 1. -/
theorem max_extension_len_formula_witness :
    ∃ cfg, sample_init_ctx.config = some cfg ∧
      cfg.max_extension_len = spec_max_extension_len cfg.ids :=
  max_extension_len_formula sample_host 16 16 sample_params sample_init_ctx (by decide)


/-- Claim C17, the input on which the code departs from it: the configuration
whose only Candidate has the expression "1" and an empty value. Whatever the
limits of `config.h` (at least one Extension and one Candidate allowed),
`config_parse` returns a configuration, in which the Candidate is counted and
its value is `NULL`, and `ipx_plugin_init` succeeds on it, since
`config_parse_ids` does not look at what `config_parse_values` returns. With
the plugin context so initialised, `ipx_plugin_process` crashes on
`sample_msg`: the Candidate matches and `add_value` takes `strlen` of the
`NULL` value. -/
theorem empty_value_accepted (K V : Nat) :
    config_parse (K + 1) (V + 1) empty_value_params
      = some (some ⟨[⟨some [105, 102], 0, .FDS_ET_OCTET_ARRAY, [⟨some [49], none, 0⟩]⟩], 0⟩)
    ∧ ipx_plugin_init sample_host (K + 1) (V + 1) empty_value_params
      = some (.IPX_OK, some ⟨some ⟨[⟨some [105, 102], 82, .FDS_ET_STRING,
                                      [⟨some [49], none, 1⟩]⟩], 1⟩, [], 40000⟩)
    ∧ ipx_plugin_process sample_api ⟨some ⟨[⟨some [105, 102], 82, .FDS_ET_STRING,
          [⟨some [49], none, 1⟩]⟩], 1⟩, [], 40000⟩ sample_msg = none := by
  have h : config_parse (K + 1) (V + 1) empty_value_params
      = some (some ⟨[⟨some [105, 102], 0, .FDS_ET_OCTET_ARRAY, [⟨some [49], none, 0⟩]⟩], 0⟩) := by
    simp [config_parse, empty_value_params, config_parse_loop, config_parse_ids,
      config_parse_values, zero_ids, zero_value, EXTENSION_IDS, EXTENSION_ID, EXTENSION_VALUES,
      EXTENSION_VALUE, EXTENSION_EXPR, strlen]
  refine ⟨h, ?_, by decide⟩
  unfold ipx_plugin_init
  rw [h]
  decide

/-- Claim C18, the input on which the code departs from it: the configuration
with the single Extension "zz", a name the IE manager does not know, and no
Candidates. Whatever the limits of `config.h`, `ipx_plugin_init` returns
`IPX_OK`, and the Extension keeps the id 0 and the data type
`FDS_ET_OCTET_ARRAY` of the zeroed allocation, since the name is looked up only
inside the loop over the Candidates. -/
theorem unknown_name_accepted (K V : Nat) :
    sample_host.fds_iemgr_elem_find_name [122, 122] = none
    ∧ ipx_plugin_init sample_host (K + 1) (V + 1) unknown_name_params
      = some (.IPX_OK, some ⟨some ⟨[⟨some [122, 122], 0, .FDS_ET_OCTET_ARRAY, []⟩], 1⟩,
                              [], 40000⟩) := by
  have h : config_parse (K + 1) (V + 1) unknown_name_params
      = some (some ⟨[⟨some [122, 122], 0, .FDS_ET_OCTET_ARRAY, []⟩], 0⟩) := by
    simp [config_parse, unknown_name_params, config_parse_loop, config_parse_ids,
      zero_ids, EXTENSION_IDS, EXTENSION_ID, EXTENSION_VALUES, strlen]
  refine ⟨by decide, ?_⟩
  unfold ipx_plugin_init
  rw [h]
  decide

/-- Claim C15, the input on which the code departs from it: the Extension
"ip" of type IPv4 address. Whatever the limits of `config.h`,
`ipx_plugin_init` accepts it; the field specifier written for it announces
`size_of_data_type = 4` bytes; and `add_value` appends no byte for it, whether
a Candidate matched or not. -/
theorem ipv4_extension_not_encoded (K V : Nat) :
    ipx_plugin_init sample_host (K + 1) (V + 1) ipv4_params
      = some (.IPX_OK, some { config := some { ids := [ipv4_ext], max_extension_len := 4 },
                              templates := [], next_template_id := 40000 })
    ∧ size_of_data_type ipv4_ext.data_type = 4
    ∧ mem_read (extended_raw sample_tmplt 40000 [ipv4_ext]) 8 4 = htons 8 ++ htons 4
    ∧ ∀ (api : fds_api) (packet : List Nat) (drec : fds_drec),
        appended_bytes (compute_match api packet drec ipv4_ext) = some [] := by
  have h : config_parse (K + 1) (V + 1) ipv4_params
      = some (some ⟨[⟨some [105, 112], 0, .FDS_ET_OCTET_ARRAY,
                      [⟨some [49], some [49, 48, 46, 48, 46, 48, 46, 49], 0⟩]⟩], 0⟩) := by
    simp [config_parse, ipv4_params, config_parse_loop, config_parse_ids,
      config_parse_values, zero_ids, zero_value, EXTENSION_IDS, EXTENSION_ID, EXTENSION_VALUES,
      EXTENSION_VALUE, EXTENSION_EXPR, strlen]
  refine ⟨?_, by decide, by decide, ?_⟩
  · unfold ipx_plugin_init
    rw [h]
    decide
  · intro api packet drec
    have hdt : ∀ (vs : List config_value_t) (m : tmp_match_t),
        (scan_values api packet drec m vs).data_type = m.data_type := by
      intro vs
      induction vs with
      | nil => intro m; rfl
      | cons v rest ih =>
        intro m
        unfold scan_values
        split
        · rfl
        · exact ih m
    have h1 : (compute_match api packet drec ipv4_ext).data_type = .FDS_ET_IPV4_ADDRESS :=
      hdt _ _
    unfold appended_bytes add_value
    rw [h1]
    rfl

/-! ## Messages with a record whose Template is not resolved -/

/-- A record whose Template `get_or_create_extended_template` does not resolve
ends the pass of the record loop with `goto cleanup` and `IPX_ERR_NOMEM`. -/
theorem process_record_unresolved (api : fds_api) (cfg : config) (packet : List Nat)
    (pctx : plugin_ctx) (b : msg_builder_s) (cur : Nat) (record : ipx_ipfix_record)
    (pctx1 : plugin_ctx) (b1 : msg_builder_s)
    (h : get_or_create_extended_template api pctx record.drec.tmplt b cfg.ids
      = some (none, pctx1, b1)) :
    process_record api cfg packet pctx b cur record
      = some (.cleanup .IPX_ERR_NOMEM pctx1 b1) := by
  unfold process_record
  simp only [h]

/-- Claim C11, the input on which the code departs from it: a message with a
Data Set 256 under a Template, followed by a Data Set 257 under an Options
Template. The same Data Set 256 alone is extended and forwarded; with the
Options Data Set behind it, `ipx_plugin_process` returns `IPX_ERR_NOMEM` and
forwards nothing, although `get_or_create_extended_template` has only declined
to extend the Options Template. -/
theorem options_record_drops_message :
    get_or_create_extended_template sample_api sample_ctx opts_tmplt ⟨[], [], none⟩ [sample_ext]
      = some (none, sample_ctx, ⟨[], [], none⟩)
    ∧ (ipx_plugin_process sample_api sample_init_ctx plain_msg).map (fun r => (r.rc, r.passed))
      = some (.IPX_OK, some
          ⟨[⟨⟨36, 9, ⟨.FDS_TYPE_TEMPLATE, 40000, [156, 64, 0, 2, 0, 8, 0, 4, 0, 82, 255, 255]⟩⟩⟩],
           [0, 10, 0, 48, 0, 0, 0, 1, 0, 0, 0, 1, 0, 0, 0, 1,
            0, 2, 0, 16, 156, 64, 0, 2, 0, 8, 0, 4, 0, 82, 255, 255,
            156, 64, 0, 16, 192, 168, 1, 1, 4, 101, 116, 104, 48, 0, 0, 0], none⟩)
    ∧ ipx_plugin_process sample_api sample_init_ctx opts_msg
      = some { rc := .IPX_ERR_NOMEM, pctx := sample_ctx, passed := none } := by
  refine ⟨by decide, by decide, by decide⟩

/-! ## The size of the output buffer -/

theorem mem_write_length (mem : List Nat) (off : Nat) (bytes : List Nat)
    (h : off + bytes.length ≤ mem.length) : (mem_write mem off bytes).length = mem.length := by
  unfold mem_write
  simp only [List.length_append, List.length_take, List.length_drop]
  omega

theorem fields_length (n : Nat) (f : List Nat) :
    ((List.replicate n f).flatten).length = f.length * n := by
  simp only [List.length_flatten, List.map_replicate, List.sum_replicate, smul_eq_mul]
  exact Nat.mul_comm _ _

theorem broad_tmplt_length : broad_tmplt.raw.length = 16004 := by
  show ([1, 0, 15, 160] ++ (List.replicate 4000 [0, 210, 0, 1]).flatten).length = 16004
  rw [List.length_append, fields_length]
  rfl

theorem broad_record_length : (mem_read broad_msg.packet 20 4000).length = 4000 := by
  show (mem_read ([0, 10, 15, 180, 0, 0, 0, 1, 0, 0, 0, 1, 0, 0, 0, 1, 1, 0, 15, 164]
      ++ List.replicate 4000 0) 20 4000).length = 4000
  have h : ∀ n : Nat, (mem_read ([0, 10, 15, 180, 0, 0, 0, 1, 0, 0, 0, 1, 0, 0, 0, 1, 1, 0, 15, 164]
      ++ List.replicate n 0) 20 n).length = n := by
    intro n
    simp [mem_read]
  exact h 4000


theorem msg_builder_end_dset_closed (b : msg_builder_s) :
    (msg_builder_end_dset b).2.dset_open = none := by
  unfold msg_builder_end_dset
  split
  · assumption
  · dsimp only
    split <;> rfl

/-- The length of the buffer after `msg_builder_end_dset` closes a set with a
body: the padding to a multiple of 4 is all that is added. -/
theorem msg_builder_end_dset_length (b : msg_builder_s) (id s : Nat)
    (h : b.dset_open = some (id, s)) (hs : s + 4 < b.buffer.length) :
    (msg_builder_end_dset b).2.buffer.length
      = b.buffer.length + (4 - (b.buffer.length - s) % 4) % 4 := by
  unfold msg_builder_end_dset
  rw [h]
  dsimp only
  rw [if_neg (by omega)]
  dsimp only
  rw [mem_write_length]
  · simp
  · simp only [htons_length, List.length_append, List.length_replicate]
    omega

theorem msg_builder_finish_length (b : msg_builder_s) (h : b.dset_open = none)
    (h4 : 4 ≤ b.buffer.length) : (msg_builder_finish b).buffer.length = b.buffer.length := by
  unfold msg_builder_finish
  simp only [h, Option.isSome_none, Bool.false_eq_true, if_false]
  exact mem_write_length _ _ _ (by simpa [htons_length] using h4)

/-- A message with one Data Set and one record that belongs to it. -/
theorem sets_loop_one_record (api : fds_api) (cfg : config) (packet : List Nat)
    (set : ipx_ipfix_set) (record : ipx_ipfix_record) (p p1 : plugin_ctx)
    (b b1 : msg_builder_s) (cur : Nat)
    (hfs : ¬ ntohs_at packet set.ptr < 256)
    (hbel : record_belongs_to_set packet set record.drec = true)
    (hrec : process_record api cfg packet p b 0 record = some (.next p1 b1 cur))
    (hcur : cur ≠ 0) :
    sets_loop api cfg packet [set] [record] p b
      = some (.done p1 (msg_builder_end_dset b1).2) := by
  simp [sets_loop, dset_loop, hfs, hbel, hrec, hcur, msg_builder_end_dset_ok,
    FDS_IPFIX_SET_MIN_DSET]

/-- The end of `ipx_plugin_process` when the loop over the sets completes and
the message is not empty. -/
theorem process_of_sets_done (api : fds_api) (p p1 : plugin_ctx) (msg : ipx_msg_ipfix)
    (cfg : config) (b1 : msg_builder_s) (hc : p.config = some cfg)
    (h : sets_loop api cfg msg.packet msg.sets msg.recs p ⟨[], msg.packet.take 16, none⟩
      = some (.done p1 b1))
    (hne : (msg_builder_finish b1).buffer.length ≠ 16) :
    ipx_plugin_process api p msg
      = some { rc := .IPX_OK, pctx := p1, passed := some (msg_builder_finish b1) } := by
  unfold ipx_plugin_process
  simp only [hc, msg_builder_write, FDS_IPFIX_MSG_HDR_LEN, List.nil_append, h,
    msg_builder_is_empty_msg, beq_iff_eq, hne, if_false]

/-- Claim C16, the input on which the code departs from it: a message of
4020 bytes with one record under a Template of 4000 fields, processed with an
empty cache. The buffer is allocated with `max_buffer_size` = 8121 bytes
(4020 + 5 * 1 + 4096), and 20036 bytes are written into it: the Template Set
of the extended Template alone has 16012 bytes. -/
theorem template_set_exceeds_buffer :
    ∃ p b, ipx_plugin_process accept_api sample_init_ctx broad_msg
        = some { rc := .IPX_OK, pctx := p, passed := some b } ∧
      max_buffer_size sample_cfg broad_msg = 8121 ∧
      b.buffer.length = 20036 := by
  have hlen := broad_tmplt_length
  have h4 : 4 ≤ broad_tmplt.raw.length := by rw [hlen]; decide
  have hb : broad_tmplt.raw.length + 4 * [sample_ext].length ≤ 65535 := by rw [hlen]; decide
  have hraw := extended_raw_eq broad_tmplt 40000 [sample_ext] h4 hb
  have hrawlen := extended_raw_length broad_tmplt 40000 [sample_ext] h4 hb
  rw [hlen] at hrawlen
  have hid : ntohs_at (extended_raw broad_tmplt 40000 [sample_ext]) 0 = 40000 := by
    rw [hraw]
    rfl
  have hres := get_or_create_miss_some accept_api sample_init_ctx broad_tmplt
    ⟨[], broad_msg.packet.take 16, none⟩ [sample_ext] ⟨.FDS_TYPE_TEMPLATE, _, _⟩
    (fun node hn => by simp [sample_init_ctx] at hn) (fun h => by cases h) h4 hb rfl rfl
  have henc : List.Forall₂ (fun ext e => appended_bytes
      (compute_match accept_api broad_msg.packet ⟨20, 4000, broad_tmplt⟩ ext) = some e)
      sample_cfg.ids [[0]] := List.Forall₂.cons rfl List.Forall₂.nil
  have hrec := process_record_eq accept_api sample_cfg broad_msg.packet sample_init_ctx
    ⟨[], broad_msg.packet.take 16, none⟩ 0 ⟨⟨20, 4000, broad_tmplt⟩⟩ _ _ _ [[0]] hres henc
    (by decide)
  have hmsb : ∀ b : msg_builder_s, manage_set_boundaries b 0 40000
      = (.IPX_OK, msg_builder_begin_dset b 40000, 40000) := by
    intro b
    simp [manage_set_boundaries]
  have hfs : ntohs_at broad_msg.packet 16 = 256 := rfl
  have hbel : record_belongs_to_set broad_msg.packet ⟨16⟩ ⟨20, 4000, broad_tmplt⟩ = true := by
    decide
  dsimp only at hrec
  rw [show sample_init_ctx.next_template_id = 40000 from rfl] at hrec
  rw [hid, hmsb] at hrec
  dsimp only at hrec
  have hwts := write_template_set_buffer ⟨[], broad_msg.packet.take 16, none⟩
    (broad_tmplt.raw.length + 4 * [sample_ext].length)
    ⟨.FDS_TYPE_TEMPLATE, 40000, extended_raw broad_tmplt 40000 [sample_ext]⟩
  have hwl : (write_template_set ⟨[], broad_msg.packet.take 16, none⟩
      (broad_tmplt.raw.length + 4 * [sample_ext].length)
      ⟨.FDS_TYPE_TEMPLATE, 40000, extended_raw broad_tmplt 40000 [sample_ext]⟩).buffer.length
      = 16028 := by
    rw [hwts, hlen]
    simp only [List.length_append, htons_length, hrawlen, List.length_replicate]
    rfl
  generalize hb1 : write_template_set ⟨[], broad_msg.packet.take 16, none⟩
    (broad_tmplt.raw.length + 4 * [sample_ext].length)
    ⟨.FDS_TYPE_TEMPLATE, 40000, extended_raw broad_tmplt 40000 [sample_ext]⟩ = b1 at hrec hwl
  have hsets := sets_loop_one_record accept_api sample_cfg broad_msg.packet ⟨16⟩
    ⟨⟨20, 4000, broad_tmplt⟩⟩ sample_init_ctx _ ⟨[], broad_msg.packet.take 16, none⟩ _ 40000
    (by rw [hfs]; decide) hbel hrec (by decide)
  have hRlen : ((msg_builder_begin_dset b1 40000).buffer ++ mem_read broad_msg.packet 20 4000
      ++ [[0]].flatten).length = 20033 := by
    simp only [msg_builder_begin_dset, List.length_append, hwl, htons_length,
      broad_record_length]
    rfl
  have hE := msg_builder_end_dset_length
    ⟨[] ++ [⟨⟨(msg_builder_begin_dset b1 40000).buffer.length, (4000 + [[0]].flatten.length) % 65536,
      ⟨.FDS_TYPE_TEMPLATE, 40000, extended_raw broad_tmplt 40000 [sample_ext]⟩⟩⟩],
     (msg_builder_begin_dset b1 40000).buffer ++ mem_read broad_msg.packet 20 4000
      ++ [[0]].flatten,
     (msg_builder_begin_dset b1 40000).dset_open⟩ 40000 16028
    (by simp only [msg_builder_begin_dset, hwl])
    (by
      show 16028 + 4 < ((msg_builder_begin_dset b1 40000).buffer
        ++ mem_read broad_msg.packet 20 4000 ++ [[0]].flatten).length
      rw [hRlen]
      decide)
  have hElen : (msg_builder_end_dset
    ⟨[] ++ [⟨⟨(msg_builder_begin_dset b1 40000).buffer.length, (4000 + [[0]].flatten.length) % 65536,
      ⟨.FDS_TYPE_TEMPLATE, 40000, extended_raw broad_tmplt 40000 [sample_ext]⟩⟩⟩],
     (msg_builder_begin_dset b1 40000).buffer ++ mem_read broad_msg.packet 20 4000
      ++ [[0]].flatten,
     (msg_builder_begin_dset b1 40000).dset_open⟩).2.buffer.length = 20036 := by
    rw [hE]
    dsimp only
    rw [hRlen]
  have hF := msg_builder_finish_length _ (msg_builder_end_dset_closed
    ⟨[] ++ [⟨⟨(msg_builder_begin_dset b1 40000).buffer.length, (4000 + [[0]].flatten.length) % 65536,
      ⟨.FDS_TYPE_TEMPLATE, 40000, extended_raw broad_tmplt 40000 [sample_ext]⟩⟩⟩],
     (msg_builder_begin_dset b1 40000).buffer ++ mem_read broad_msg.packet 20 4000
      ++ [[0]].flatten,
     (msg_builder_begin_dset b1 40000).dset_open⟩) (by rw [hElen]; decide)
  rw [hElen] at hF
  refine ⟨_, _, process_of_sets_done accept_api sample_init_ctx _ broad_msg sample_cfg _ rfl
    hsets (by rw [hF]; decide), rfl, hF⟩

/-! ## A configuration without Extensions -/

theorem mem_write_same (mem : List Nat) (off : Nat) (bytes : List Nat)
    (h : mem_read mem off bytes.length = bytes) : mem_write mem off bytes = mem := by
  unfold mem_write
  unfold mem_read at h
  have h1 : List.drop (off + bytes.length) mem = List.drop bytes.length (List.drop off mem) := by
    rw [List.drop_drop, Nat.add_comm]
  rw [h1, List.append_assoc]
  nth_rewrite 1 [← h]
  rw [List.take_append_drop, List.take_append_drop]

/-- The loop over the sets of a message that holds no Data Set appends the
bytes of the packet from the first set on. -/
theorem sets_loop_nondata (api : fds_api) (cfg : config) (packet : List Nat)
    (sets : List ipx_ipfix_set) (recs : List ipx_ipfix_record) (p : plugin_ctx)
    (b : msg_builder_s) (off : Nat) (h : nondata_sets_tile packet sets off = true) :
    sets_loop api cfg packet sets recs p b
      = some (.done p { b with buffer := b.buffer ++ packet.drop off }) := by
  induction sets generalizing b off with
  | nil =>
    simp only [nondata_sets_tile, beq_iff_eq] at h
    simp [sets_loop, h]
  | cons set sets ih =>
    simp only [nondata_sets_tile, Bool.and_eq_true, beq_iff_eq, decide_eq_true_eq] at h
    obtain ⟨⟨⟨hptr, hid⟩, _⟩, hrest⟩ := h
    unfold sets_loop
    simp only [hptr, hid, if_true, msg_builder_copy_set, ne_eq, not_true_eq_false, if_false]
    rw [ih _ _ hrest]
    simp only [msg_builder_write, List.append_assoc]
    have h1 : List.drop (off + ntohs_at packet (off + 2)) packet
        = List.drop (ntohs_at packet (off + 2)) (List.drop off packet) := by
      rw [List.drop_drop, Nat.add_comm]
    rw [h1, List.take_append_drop]

/-- C13, amended: with an empty Extension list, (1) a pass of the record loop
for a record whose extended Template is returned appends the bytes
`drec.data[0 .. drec.size)` of the input record and nothing else, and the
record reference keeps the size of the record; (2) a message that holds no
Data Set (a packet longer than its header, whose Length field is the length
of the packet, and whose sets, all with an ID below 256, lie one after the
other up to the end of the packet) is forwarded byte-identical, with the
plugin context unchanged. -/
theorem empty_extension_list_output (api : fds_api) (cfg : config) (hids : cfg.ids = []) :
    (∀ (packet : List Nat) (p : plugin_ctx) (b : msg_builder_s) (cur : Nat)
        (record : ipx_ipfix_record) (t : fds_template) (p1 : plugin_ctx) (b1 : msg_builder_s),
      get_or_create_extended_template api p record.drec.tmplt b [] = some (some t, p1, b1) →
      record.drec.size < 65536 →
      process_record api cfg packet p b cur record
        = some (.next p1
            { msg := b.msg ++
                [⟨⟨(manage_set_boundaries b1 cur t.id).2.1.buffer.length, record.drec.size, t⟩⟩],
              buffer := (manage_set_boundaries b1 cur t.id).2.1.buffer
                ++ mem_read packet record.drec.data record.drec.size,
              dset_open := (manage_set_boundaries b1 cur t.id).2.1.dset_open }
            (manage_set_boundaries b1 cur t.id).2.2)) ∧
    (∀ (p : plugin_ctx) (msg : ipx_msg_ipfix),
      p.config = some cfg →
      16 < msg.packet.length →
      mem_read msg.packet 2 2 = htons msg.packet.length →
      nondata_sets_tile msg.packet msg.sets 16 = true →
      ipx_plugin_process api p msg
        = some { rc := .IPX_OK, pctx := p, passed := some ⟨[], msg.packet, none⟩ }) := by
  constructor
  · intro packet p b cur record t p1 b1 hres hsz
    have h := process_record_eq api cfg packet p b cur record t p1 b1 []
      (by rw [hids]; exact hres) (by rw [hids]; exact List.Forall₂.nil) hsz
    rw [h]
    simp [Nat.mod_eq_of_lt hsz]
  · intro p msg hc hlen hfield htile
    have hsets := sets_loop_nondata api cfg msg.packet msg.sets msg.recs p
      ⟨[], msg.packet.take 16, none⟩ 16 htile
    simp only [List.take_append_drop] at hsets
    have hfin : msg_builder_finish ⟨[], msg.packet, none⟩ = ⟨[], msg.packet, none⟩ := by
      simp only [msg_builder_finish, Option.isSome_none, Bool.false_eq_true, if_false]
      rw [mem_write_same _ _ _ (by simpa [htons_length] using hfield)]
    have h := process_of_sets_done api p p msg cfg _ hc hsets (by rw [hfin]; exact ne_of_gt hlen)
    rw [h, hfin]

/-- Witness of the amended C13: the record `C0 A8 01 01` of `sample_msg` is
written unchanged when the Extension list is empty, and a message made of a
header and a Template Set is forwarded as it is. -/
theorem empty_extension_list_output_witness :
    process_record sample_api ⟨[], 0⟩ sample_msg.packet bare_ctx ⟨[], [], none⟩ 0
        ⟨⟨32, 4, sample_tmplt⟩⟩
      = some (.next ⟨bare_ctx.config, [⟨256, 40000, ⟨.FDS_TYPE_TEMPLATE, 40000,
            [156, 64, 0, 1, 0, 8, 0, 4]⟩, [156, 64, 0, 1, 0, 8, 0, 4]⟩], 40001⟩
          ⟨[⟨⟨16, 4, ⟨.FDS_TYPE_TEMPLATE, 40000, [156, 64, 0, 1, 0, 8, 0, 4]⟩⟩⟩],
           [0, 2, 0, 12, 156, 64, 0, 1, 0, 8, 0, 4, 156, 64, 0, 0] ++ [192, 168, 1, 1],
           some (40000, 12)⟩ 40000) ∧
    ipx_plugin_process sample_api bare_ctx tmplt_only_msg
      = some { rc := .IPX_OK, pctx := bare_ctx,
               passed := some ⟨[], tmplt_only_msg.packet, none⟩ } :=
  ⟨(empty_extension_list_output sample_api ⟨[], 0⟩ rfl).1 sample_msg.packet bare_ctx
      ⟨[], [], none⟩ 0 ⟨⟨32, 4, sample_tmplt⟩⟩
      ⟨.FDS_TYPE_TEMPLATE, 40000, [156, 64, 0, 1, 0, 8, 0, 4]⟩
      ⟨bare_ctx.config, [⟨256, 40000, ⟨.FDS_TYPE_TEMPLATE, 40000,
        [156, 64, 0, 1, 0, 8, 0, 4]⟩, [156, 64, 0, 1, 0, 8, 0, 4]⟩], 40001⟩
      ⟨[], [0, 2, 0, 12, 156, 64, 0, 1, 0, 8, 0, 4], none⟩ (by decide) (by decide),
   (empty_extension_list_output sample_api ⟨[], 0⟩ rfl).2 bare_ctx tmplt_only_msg rfl
      (by decide) (by decide) (by decide)⟩

/-- C13, as stated, fails: `ipx_plugin_init` accepts a configuration without
Extensions, and with it the well-formed message `sample_msg` (a Template Set
with Template 256 and a Data Set with one record) is not reproduced: the
output holds a second Template Set, for Template 40000, and the record stands
in a Data Set 40000; it has 48 bytes where the input has 36. -/
theorem empty_extension_list_counterexample :
    ipx_plugin_init sample_host 1 1 (some []) = some (.IPX_OK, some bare_ctx) ∧
    (ipx_plugin_process sample_api bare_ctx sample_msg).map (fun r => (r.rc, r.passed))
      = some (.IPX_OK, some
          ⟨[⟨⟨44, 4, ⟨.FDS_TYPE_TEMPLATE, 40000, [156, 64, 0, 1, 0, 8, 0, 4]⟩⟩⟩],
           [0, 10, 0, 48, 0, 0, 0, 1, 0, 0, 0, 1, 0, 0, 0, 1,
            0, 2, 0, 12, 1, 0, 0, 1, 0, 8, 0, 4,
            0, 2, 0, 12, 156, 64, 0, 1, 0, 8, 0, 4,
            156, 64, 0, 8, 192, 168, 1, 1], none⟩) ∧
    sample_msg.packet
      = [0, 10, 0, 36, 0, 0, 0, 1, 0, 0, 0, 1, 0, 0, 0, 1,
         0, 2, 0, 12, 1, 0, 0, 1, 0, 8, 0, 4,
         1, 0, 0, 8, 192, 168, 1, 1] := by
  refine ⟨by decide, by decide, rfl⟩

/-! ## Bytes that stay where they were written -/

theorem mem_read_append_left (a x : List Nat) (o n : Nat) (h : o + n ≤ a.length) :
    mem_read (a ++ x) o n = mem_read a o n := by
  unfold mem_read
  rw [List.drop_append_of_le_length (by omega), List.take_append_of_le_length]
  rw [List.length_drop]
  omega

theorem mem_read_append_right (a x : List Nat) (o n : Nat) (h : a.length ≤ o) :
    mem_read (a ++ x) o n = mem_read x (o - a.length) n := by
  unfold mem_read
  rw [List.drop_append_eq_append_drop, List.drop_eq_nil_of_le h, List.nil_append]

/-- A read that yields all `n > 0` bytes lies inside the region. -/
theorem mem_read_bound (mem : List Nat) (o : Nat) (bytes : List Nat)
    (h : mem_read mem o bytes.length = bytes) (hne : bytes ≠ []) :
    o + bytes.length ≤ mem.length := by
  have hl := congrArg List.length h
  unfold mem_read at hl
  rw [List.length_take, List.length_drop] at hl
  have hpos : 0 < bytes.length := List.length_pos.mpr hne
  omega

/-- A store outside the bytes read does not change them. -/
theorem mem_read_mem_write (mem : List Nat) (off : Nat) (w : List Nat) (o n : Nat)
    (hin : o + n ≤ mem.length) (hpos : 0 < n) (hd : o + n ≤ off ∨ off + w.length ≤ o) :
    mem_read (mem_write mem off w) o n = mem_read mem o n := by
  unfold mem_write
  rcases hd with hd | hd
  · rw [List.append_assoc, mem_read_append_left _ _ _ _ (by rw [List.length_take]; omega)]
    nth_rewrite 2 [← List.take_append_drop off mem]
    rw [mem_read_append_left _ _ _ _ (by rw [List.length_take]; omega)]
  · have hl : (List.take off mem ++ w).length = off + w.length := by
      rw [List.length_append, List.length_take]
      omega
    rw [mem_read_append_right _ _ _ _ (by omega), hl]
    nth_rewrite 2 [← List.take_append_drop (off + w.length) mem]
    rw [mem_read_append_right _ _ _ _ (by rw [List.length_take]; omega), List.length_take,
      Nat.min_eq_left (by omega)]

theorem mem_read_take (mem : List Nat) (s o n : Nat) (h : o + n ≤ s) (hin : o + n ≤ mem.length) :
    mem_read (mem.take s) o n = mem_read mem o n := by
  nth_rewrite 2 [← List.take_append_drop s mem]
  rw [mem_read_append_left _ _ _ _ (by rw [List.length_take]; omega)]

theorem Keeps_bound (o : Nat) (bytes : List Nat) (b : msg_builder_s) (h : Keeps o bytes b) :
    o + bytes.length ≤ b.buffer.length :=
  mem_read_bound _ _ _ h.2.2.1 h.1

/-- Bytes written to the builder stay: appending to the buffer keeps them. -/
theorem Keeps_append (o : Nat) (bytes : List Nat) (b b1 : msg_builder_s) (e : List Nat)
    (hbuf : b1.buffer = b.buffer ++ e) (hopen : b1.dset_open = b.dset_open)
    (h : Keeps o bytes b) : Keeps o bytes b1 := by
  refine ⟨h.1, h.2.1, ?_, ?_⟩
  · rw [hbuf, mem_read_append_left _ _ _ _ (Keeps_bound o bytes b h)]
    exact h.2.2.1
  · rw [hopen]
    exact h.2.2.2

theorem Keeps_write (o : Nat) (bytes : List Nat) (b : msg_builder_s) (d : List Nat) (n : Nat)
    (h : Keeps o bytes b) : Keeps o bytes (msg_builder_write b d n) :=
  Keeps_append o bytes b _ (d.take n) rfl rfl h

theorem Keeps_begin_dset (o : Nat) (bytes : List Nat) (b : msg_builder_s) (id : Nat)
    (h : Keeps o bytes b) : Keeps o bytes (msg_builder_begin_dset b id) := by
  refine ⟨h.1, h.2.1, ?_, ?_⟩
  · show mem_read (b.buffer ++ (htons id ++ htons 0)) o bytes.length = bytes
    rw [mem_read_append_left _ _ _ _ (Keeps_bound o bytes b h)]
    exact h.2.2.1
  · intro id1 s hs
    simp only [msg_builder_begin_dset, Option.some.injEq, Prod.mk.injEq] at hs
    rw [← hs.2]
    exact Or.inl (Keeps_bound o bytes b h)

theorem Keeps_end_dset (o : Nat) (bytes : List Nat) (b : msg_builder_s)
    (h : Keeps o bytes b) : Keeps o bytes (msg_builder_end_dset b).2 := by
  have hb := Keeps_bound o bytes b h
  have hpos : 0 < bytes.length := List.length_pos.mpr h.1
  unfold msg_builder_end_dset
  split
  · exact h
  · rename_i id s hopen
    have hd := h.2.2.2 id s hopen
    dsimp only
    split
    · rename_i hlen
      refine ⟨h.1, h.2.1, ?_, fun _ _ hs => by simp at hs⟩
      show mem_read (b.buffer.take s) o bytes.length = bytes
      rw [mem_read_take _ _ _ _ (by omega) hb]
      exact h.2.2.1
    · refine ⟨h.1, h.2.1, ?_, fun _ _ hs => by simp at hs⟩
      dsimp only
      rw [mem_read_mem_write _ _ _ _ _ (by rw [List.length_append]; omega) hpos
        (by rw [htons_length]; omega),
        mem_read_append_left _ _ _ _ hb]
      exact h.2.2.1

theorem Keeps_finish (o : Nat) (bytes : List Nat) (b : msg_builder_s)
    (h : Keeps o bytes b) : Keeps o bytes (msg_builder_finish b) := by
  have hpos : 0 < bytes.length := List.length_pos.mpr h.1
  have h1 : Keeps o bytes (if b.dset_open.isSome then (msg_builder_end_dset b).2 else b) := by
    split
    · exact Keeps_end_dset o bytes b h
    · exact h
  unfold msg_builder_finish
  refine ⟨h.1, h.2.1, ?_, h1.2.2.2⟩
  dsimp only
  rw [mem_read_mem_write _ _ _ _ _ (Keeps_bound _ _ _ h1) hpos
    (Or.inr (by rw [htons_length]; have := h.2.1; omega))]
  exact h1.2.2.1


/-- Function `add_value` only appends to the buffer; it leaves `data` and
`tmplt` of the record reference as they are. -/
theorem add_value_shape (m : tmp_match_t) (b b1 : msg_builder_s) (ref ref1 : ipx_ipfix_record)
    (h : add_value m b ref = some (b1, ref1)) :
    (b1.msg = b.msg ∧ b1.dset_open = b.dset_open ∧ ∃ e, b1.buffer = b.buffer ++ e) ∧
      ref1.drec.data = ref.drec.data ∧ ref1.drec.tmplt = ref.drec.tmplt := by
  unfold add_value at h
  split at h
  · simp only [Option.bind_eq_some] at h
    obtain ⟨val, _, h⟩ := h
    try dsimp only at h
    split at h <;>
      (simp only [Option.some.injEq, Prod.mk.injEq] at h
       obtain ⟨h1, h2⟩ := h
       subst h1 h2
       exact ⟨⟨rfl, rfl, _, List.append_assoc _ _ _⟩, rfl, rfl⟩)
  · simp only [Option.bind_eq_some] at h
    obtain ⟨val, _, h⟩ := h
    try dsimp only at h
    split at h <;>
      (simp only [Option.some.injEq, Prod.mk.injEq] at h
       obtain ⟨h1, h2⟩ := h
       subst h1 h2
       exact ⟨⟨rfl, rfl, _, List.append_assoc _ _ _⟩, rfl, rfl⟩)
  all_goals first
    | (simp only [Option.bind_eq_some, Option.some.injEq, Prod.mk.injEq] at h
       obtain ⟨v, _, h1, h2⟩ := h
       subst h1 h2
       exact ⟨⟨rfl, rfl, _, rfl⟩, rfl, rfl⟩)
    | (simp only [Option.some.injEq, Prod.mk.injEq] at h
       obtain ⟨h1, h2⟩ := h
       subst h1 h2
       exact ⟨⟨rfl, rfl, [], (List.append_nil _).symm⟩, rfl, rfl⟩)

theorem add_values_shape (ms : List tmp_match_t) (b b1 : msg_builder_s)
    (ref ref1 : ipx_ipfix_record) (h : add_values ms b ref = some (b1, ref1)) :
    (b1.msg = b.msg ∧ b1.dset_open = b.dset_open ∧ ∃ e, b1.buffer = b.buffer ++ e) ∧
      ref1.drec.data = ref.drec.data ∧ ref1.drec.tmplt = ref.drec.tmplt := by
  induction ms generalizing b ref with
  | nil =>
    simp only [add_values, Option.some.injEq, Prod.mk.injEq] at h
    obtain ⟨h1, h2⟩ := h
    subst h1 h2
    exact ⟨⟨rfl, rfl, [], (List.append_nil _).symm⟩, rfl, rfl⟩
  | cons m ms ih =>
    simp only [add_values] at h
    cases hv : add_value m b ref with
    | none => simp [hv] at h
    | some r =>
      obtain ⟨b2, ref2⟩ := r
      rw [hv] at h
      simp only [Option.some_bind] at h
      obtain ⟨⟨hm1, ho1, e1, he1⟩, hd1, ht1⟩ := add_value_shape m b b2 ref ref2 hv
      obtain ⟨⟨hm2, ho2, e2, he2⟩, hd2, ht2⟩ := ih b2 ref2 h
      refine ⟨⟨hm2.trans hm1, ho2.trans ho1, e1 ++ e2, ?_⟩, hd2.trans hd1, ht2.trans ht1⟩
      rw [he2, he1, List.append_assoc]


/-- What `get_or_create_extended_template` does to the builder and to the
cache: either it leaves both as they are, and a template it returns is that of
a cache entry; or it returns a new template, puts an entry with it in front of
the cache, and appends its Template Set (Set ID 2, a length, the raw record,
padding) to the buffer. -/
theorem get_or_create_cases (api : fds_api) (p : plugin_ctx) (t : fds_template)
    (b : msg_builder_s) (ext : List config_ids_t) (r : Option fds_template)
    (p1 : plugin_ctx) (b1 : msg_builder_s)
    (h : get_or_create_extended_template api p t b ext = some (r, p1, b1)) :
    (b1 = b ∧ p1.templates = p.templates ∧
      ∀ nt, r = some nt → ∃ node ∈ p.templates, node.new_tmplt = nt) ∨
    (∃ nt L pad node, r = some nt ∧ node.new_tmplt = nt ∧
      p1.templates = node :: p.templates ∧
      b1.buffer = b.buffer ++ (htons 2 ++ htons L ++ nt.raw ++ pad) ∧
      b1.dset_open = b.dset_open ∧ b1.msg = b.msg) := by
  unfold get_or_create_extended_template at h
  split at h
  · rename_i node hfind
    simp only [Option.some.injEq, Prod.mk.injEq] at h
    obtain ⟨h1, h2, h3⟩ := h
    subst h1 h2 h3
    refine Or.inl ⟨rfl, rfl, ?_⟩
    intro nt hnt
    simp only [Option.some.injEq] at hnt
    exact ⟨node, List.mem_of_find?_eq_some hfind, hnt⟩
  · split at h
    · simp only [Option.some.injEq, Prod.mk.injEq] at h
      obtain ⟨h1, h2, h3⟩ := h
      subst h1 h2 h3
      exact Or.inl ⟨rfl, rfl, fun nt hnt => by simp at hnt⟩
    · dsimp only at h
      split at h
      · simp only [Option.some.injEq, Prod.mk.injEq] at h
        obtain ⟨h1, h2, h3⟩ := h
        subst h1 h2 h3
        exact Or.inl ⟨rfl, rfl, fun nt hnt => by simp at hnt⟩
      · split at h
        · simp at h
        · split at h
          · simp only [Option.some.injEq, Prod.mk.injEq] at h
            obtain ⟨h1, h2, h3⟩ := h
            subst h1 h2 h3
            exact Or.inl ⟨rfl, rfl, fun nt hnt => by simp at hnt⟩
          · rename_i nt _
            split at h
            · simp only [Option.some.injEq, Prod.mk.injEq] at h
              obtain ⟨h1, h2, h3⟩ := h
              subst h1 h2 h3
              exact Or.inl ⟨rfl, rfl, fun nt hnt => by simp at hnt⟩
            · simp only [Option.some.injEq, Prod.mk.injEq] at h
              obtain ⟨h1, h2, h3⟩ := h
              subst h1 h2 h3
              refine Or.inr ⟨nt, _, _, _, rfl, rfl, rfl, write_template_set_buffer _ _ _, ?_,
                write_template_set_msg _ _ _⟩
              · unfold write_template_set
                dsimp only
                split_ifs <;> rfl

/-- The set-boundary block of extender.c:478, case by case. -/
theorem manage_set_boundaries_eq (b : msg_builder_s) (cur tid : Nat) :
    manage_set_boundaries b cur tid
      = if tid = cur then (.IPX_OK, b, cur)
        else if cur = 0 then (.IPX_OK, msg_builder_begin_dset b tid, tid)
        else (.IPX_OK, msg_builder_begin_dset (msg_builder_end_dset b).2 tid, tid) := by
  by_cases h1 : tid = cur <;> by_cases h2 : cur = 0 <;>
    simp [manage_set_boundaries, h1, h2, msg_builder_end_dset_ok]

/-- The set-boundary block keeps bytes that stand in the buffer. -/
theorem Keeps_manage_set_boundaries (o : Nat) (bytes : List Nat) (b : msg_builder_s)
    (cur tid : Nat) (h : Keeps o bytes b) :
    Keeps o bytes (manage_set_boundaries b cur tid).2.1 := by
  rw [manage_set_boundaries_eq]
  split
  · exact h
  · split
    · exact Keeps_begin_dset _ _ _ _ h
    · exact Keeps_begin_dset _ _ _ _ (Keeps_end_dset _ _ _ h)

/-- One pass of the record loop that goes on to the next record, taken apart:
the Template is resolved, the set-boundary block runs, the record reference
is added with the write offset as `data` and the resolved Template, and bytes
are appended to the buffer, first of all the bytes of the input record. -/
theorem process_record_next (api : fds_api) (cfg : config) (packet : List Nat)
    (p : plugin_ctx) (b : msg_builder_s) (cur : Nat) (record : ipx_ipfix_record)
    (p1 : plugin_ctx) (b2 : msg_builder_s) (cur1 : Nat)
    (h : process_record api cfg packet p b cur record = some (.next p1 b2 cur1)) :
    ∃ t b1 e sz,
      get_or_create_extended_template api p record.drec.tmplt b cfg.ids
        = some (some t, p1, b1) ∧
      cur1 = (manage_set_boundaries b1 cur t.id).2.2 ∧
      b2.buffer = (manage_set_boundaries b1 cur t.id).2.1.buffer
        ++ (mem_read packet record.drec.data record.drec.size ++ e) ∧
      b2.dset_open = (manage_set_boundaries b1 cur t.id).2.1.dset_open ∧
      b2.msg = b.msg ++ [⟨⟨(manage_set_boundaries b1 cur t.id).2.1.buffer.length, sz, t⟩⟩] := by
  unfold process_record at h
  dsimp only at h
  split at h
  · simp at h
  · simp at h
  · rename_i t p0 b1 hres
    have hmsg := get_or_create_msg api p record.drec.tmplt b cfg.ids _ _ _ hres
    split at h
    · simp at h
    · simp only [Option.map_eq_some'] at h
      obtain ⟨⟨b3, ref3⟩, hadd, h⟩ := h
      simp only [Option.some.injEq, drec_step.next.injEq] at h
      obtain ⟨h1, h2, h3⟩ := h
      subst h1 h2 h3
      obtain ⟨⟨hm, ho, e, he⟩, hd, ht⟩ := add_values_shape _ _ _ _ _ hadd
      refine ⟨t, b1, e, ref3.drec.size, hres, rfl, ?_, ?_, ?_⟩
      · show b3.buffer = _
        rw [he]
        simp only [msg_builder_write, mem_read, List.append_assoc]
      · show b3.dset_open = _
        rw [ho]
        rfl
      · show b3.msg ++ [ref3] = _
        rw [hm]
        simp only [msg_builder_write, manage_set_boundaries_msg, hmsg]
        congr 2
        obtain ⟨⟨d, s, tt⟩⟩ := ref3
        simp only [msg_builder_s.msg_len, msg_builder_write] at hd ht
        simp only at hd ht ⊢
        rw [hd, ht]


/-- An invariant of the passes of the record loop holds when the record loop
of a Data Set breaks; `R` is a property of the records of the message. -/
theorem dset_loop_inv (I : plugin_ctx → msg_builder_s → Prop) (R : ipx_ipfix_record → Prop)
    (api : fds_api) (cfg : config) (packet : List Nat) (set : ipx_ipfix_set)
    (hrec : ∀ p b cur record p1 b1 cur1, R record → I p b →
      process_record api cfg packet p b cur record = some (.next p1 b1 cur1) → I p1 b1)
    (recs : List ipx_ipfix_record) (p : plugin_ctx) (b : msg_builder_s) (cur : Nat)
    (p1 : plugin_ctx) (b1 : msg_builder_s) (cur1 : Nat) (rest : List ipx_ipfix_record)
    (hR : ∀ r ∈ recs, R r) (hI : I p b)
    (h : dset_loop api cfg packet set recs p b cur = some (.done p1 b1 cur1 rest)) :
    I p1 b1 ∧ ∀ r ∈ rest, R r := by
  induction recs generalizing p b cur with
  | nil =>
    simp only [dset_loop, Option.some.injEq, dset_result.done.injEq] at h
    obtain ⟨h1, h2, _, h4⟩ := h
    subst h1 h2 h4
    exact ⟨hI, hR⟩
  | cons record recs ih =>
    unfold dset_loop at h
    split at h
    · simp only [Option.some.injEq, dset_result.done.injEq] at h
      obtain ⟨h1, h2, _, h4⟩ := h
      subst h1 h2 h4
      exact ⟨hI, hR⟩
    · split at h
      · simp at h
      · simp at h
      · rename_i p2 b2 cur2 hstep
        exact ih p2 b2 cur2 (fun r hr => hR r (List.mem_cons_of_mem _ hr))
          (hrec p b cur record p2 b2 cur2 (hR record (List.mem_cons_self _ _)) hI hstep) h

/-- An invariant of the copy of a set, of the passes of the record loop and
of `msg_builder_end_dset` holds when the loop over the sets completes. -/
theorem sets_loop_inv (I : plugin_ctx → msg_builder_s → Prop) (R : ipx_ipfix_record → Prop)
    (api : fds_api) (cfg : config) (packet : List Nat)
    (hcopy : ∀ p b set, I p b → I p (msg_builder_copy_set b packet set).2)
    (hrec : ∀ p b cur record p1 b1 cur1, R record → I p b →
      process_record api cfg packet p b cur record = some (.next p1 b1 cur1) → I p1 b1)
    (hend : ∀ p b, I p b → I p (msg_builder_end_dset b).2)
    (sets : List ipx_ipfix_set) (recs : List ipx_ipfix_record) (p : plugin_ctx)
    (b : msg_builder_s) (p1 : plugin_ctx) (b1 : msg_builder_s)
    (hR : ∀ r ∈ recs, R r) (hI : I p b)
    (h : sets_loop api cfg packet sets recs p b = some (.done p1 b1)) : I p1 b1 := by
  induction sets generalizing recs p b with
  | nil =>
    simp only [sets_loop, Option.some.injEq, sets_result.done.injEq] at h
    obtain ⟨h1, h2⟩ := h
    subst h1 h2
    exact hI
  | cons set sets ih =>
    unfold sets_loop at h
    dsimp only at h
    split at h
    · split at h
      · simp at h
      · exact ih recs p _ hR (hcopy p b set hI) h
    · split at h
      · simp at h
      · simp at h
      · rename_i p2 b2 cur2 rest hd
        obtain ⟨hI2, hR2⟩ := dset_loop_inv I R api cfg packet set hrec recs p b 0 p2 b2 cur2 rest
          hR hI hd
        have hr : (if cur2 ≠ 0 then msg_builder_end_dset b2 else (.IPX_OK, b2)).1 = .IPX_OK := by
          split
          · exact msg_builder_end_dset_ok _
          · rfl
        simp only [hr, ne_eq, not_true_eq_false, if_false] at h
        refine ih rest p2 _ hR2 ?_ h
        split
        · exact hend p2 b2 hI2
        · exact hI2

/-- A message is forwarded only when the loop over the sets completes; what
is forwarded is the builder after `msg_builder_finish`. -/
theorem process_passed (api : fds_api) (p : plugin_ctx) (msg : ipx_msg_ipfix)
    (res : process_result) (out : msg_builder_s)
    (h : ipx_plugin_process api p msg = some res) (hout : res.passed = some out) :
    ∃ cfg p1 b1, p.config = some cfg ∧
      sets_loop api cfg msg.packet msg.sets msg.recs p ⟨[], msg.packet.take 16, none⟩
        = some (.done p1 b1) ∧
      out = msg_builder_finish b1 := by
  unfold ipx_plugin_process at h
  split at h
  · simp at h
  · rename_i cfg hc
    dsimp only at h
    split at h
    · simp at h
    · simp only [Option.some.injEq] at h
      subst h
      simp at hout
    · rename_i p1 b1 hs
      split at h
      · simp only [Option.some.injEq] at h
        subst h
        simp at hout
      · simp only [Option.some.injEq] at h
        subst h
        simp only [Option.some.injEq] at hout
        exact ⟨cfg, p1, b1, hc, hs, hout.symm⟩

/-- A pass of the record loop keeps bytes that stand in the buffer. -/
theorem Keeps_process_record (o : Nat) (bytes : List Nat) (api : fds_api) (cfg : config)
    (packet : List Nat) (p : plugin_ctx) (b : msg_builder_s) (cur : Nat)
    (record : ipx_ipfix_record) (p1 : plugin_ctx) (b2 : msg_builder_s) (cur1 : Nat)
    (hk : Keeps o bytes b)
    (h : process_record api cfg packet p b cur record = some (.next p1 b2 cur1)) :
    Keeps o bytes b2 := by
  obtain ⟨t, b1, e, sz, hres, _, hbuf, hopen, _⟩ :=
    process_record_next api cfg packet p b cur record p1 b2 cur1 h
  have hk1 : Keeps o bytes b1 := by
    rcases get_or_create_cases api p _ b cfg.ids _ p1 b1 hres with ⟨hb, _, _⟩ |
      ⟨nt, L, pad, node, _, _, _, hb, ho, _⟩
    · rw [hb]
      exact hk
    · exact Keeps_append o bytes b b1 _ hb ho hk
  exact Keeps_append o bytes _ b2 _ hbuf hopen (Keeps_manage_set_boundaries o bytes b1 cur t.id hk1)

/-- The loop over the sets keeps bytes that stand in the buffer. -/
theorem Keeps_sets_loop (o : Nat) (bytes : List Nat) (api : fds_api) (cfg : config)
    (packet : List Nat) (sets : List ipx_ipfix_set) (recs : List ipx_ipfix_record)
    (p : plugin_ctx) (b : msg_builder_s) (p1 : plugin_ctx) (b1 : msg_builder_s)
    (hk : Keeps o bytes b)
    (h : sets_loop api cfg packet sets recs p b = some (.done p1 b1)) : Keeps o bytes b1 :=
  sets_loop_inv (fun _ b => Keeps o bytes b) (fun _ => True) api cfg packet
    (fun _ b _ hI => Keeps_write o bytes b _ _ hI)
    (fun p b cur record p1 b1 cur1 _ hI hs =>
      Keeps_process_record o bytes api cfg packet p b cur record p1 b1 cur1 hI hs)
    (fun _ b hI => Keeps_end_dset o bytes b hI)
    sets recs p b p1 b1 (fun _ _ => trivial) hk h


theorem mem_write_length_ge (mem : List Nat) (off : Nat) (bytes : List Nat) :
    mem.length ≤ (mem_write mem off bytes).length := by
  simp only [mem_write, List.length_append, List.length_take, List.length_drop]
  omega

theorem Framed_append (b b1 : msg_builder_s) (e : List Nat)
    (hbuf : b1.buffer = b.buffer ++ e) (hopen : b1.dset_open = b.dset_open) (h : Framed b) :
    Framed b1 := by
  unfold Framed
  rw [hbuf, hopen, List.length_append]
  refine ⟨by have := h.1; omega, fun id s hs => ?_⟩
  have := h.2 id s hs
  omega

theorem Framed_begin_dset (b : msg_builder_s) (id : Nat) (h : Framed b) :
    Framed (msg_builder_begin_dset b id) := by
  have h4 := h.1
  refine ⟨?_, ?_⟩
  · show 4 ≤ (b.buffer ++ (htons id ++ htons 0)).length
    rw [List.length_append]
    omega
  · intro id1 s hs
    simp only [msg_builder_begin_dset, Option.some.injEq, Prod.mk.injEq] at hs
    show 4 ≤ s ∧ s + 4 ≤ (b.buffer ++ (htons id ++ htons 0)).length
    rw [List.length_append, List.length_append, htons_length, htons_length, ← hs.2]
    omega

theorem Framed_end_dset (b : msg_builder_s) (h : Framed b) :
    Framed (msg_builder_end_dset b).2 := by
  refine ⟨?_, fun id s hs => by simp [msg_builder_end_dset_closed] at hs⟩
  unfold msg_builder_end_dset
  split
  · exact h.1
  · rename_i id s hopen
    have hs := h.2 id s hopen
    dsimp only
    split
    · show 4 ≤ (b.buffer.take s).length
      rw [List.length_take]
      omega
    · dsimp only
      have := mem_write_length_ge (b.buffer
        ++ List.replicate ((4 - (b.buffer.length - s) % 4) % 4) 0) (s + 2)
        (htons (b.buffer.length - s + (4 - (b.buffer.length - s) % 4) % 4))
      rw [List.length_append] at this
      omega

theorem Framed_manage_set_boundaries (b : msg_builder_s) (cur tid : Nat) (h : Framed b) :
    Framed (manage_set_boundaries b cur tid).2.1 := by
  rw [manage_set_boundaries_eq]
  split
  · exact h
  · split
    · exact Framed_begin_dset _ _ h
    · exact Framed_begin_dset _ _ (Framed_end_dset _ h)

theorem Framed_process_record (api : fds_api) (cfg : config)
    (packet : List Nat) (p : plugin_ctx) (b : msg_builder_s) (cur : Nat)
    (record : ipx_ipfix_record) (p1 : plugin_ctx) (b2 : msg_builder_s) (cur1 : Nat)
    (hk : Framed b)
    (h : process_record api cfg packet p b cur record = some (.next p1 b2 cur1)) :
    Framed b2 := by
  obtain ⟨t, b1, e, sz, hres, _, hbuf, hopen, _⟩ :=
    process_record_next api cfg packet p b cur record p1 b2 cur1 h
  have hk1 : Framed b1 := by
    rcases get_or_create_cases api p _ b cfg.ids _ p1 b1 hres with ⟨hb, _, _⟩ |
      ⟨nt, L, pad, node, _, _, _, hb, ho, _⟩
    · rw [hb]
      exact hk
    · exact Framed_append b b1 _ hb ho hk
  exact Framed_append _ b2 _ hbuf hopen (Framed_manage_set_boundaries b1 cur t.id hk1)

theorem msg_builder_finish_msg (b : msg_builder_s) : (msg_builder_finish b).msg = b.msg := by
  unfold msg_builder_finish
  dsimp only
  split
  · exact msg_builder_end_dset_msg b
  · rfl

/-- Bytes appended to a framed builder stand in the buffer at the offset
where the buffer ended. -/
theorem Keeps_appended (b b1 : msg_builder_s) (bytes rest : List Nat) (hne : bytes ≠ [])
    (hbuf : b1.buffer = b.buffer ++ (bytes ++ rest)) (hopen : b1.dset_open = b.dset_open)
    (h : Framed b) : Keeps b.buffer.length bytes b1 := by
  refine ⟨hne, h.1, ?_, ?_⟩
  · rw [hbuf, mem_read_append_right _ _ _ _ (Nat.le_refl _), Nat.sub_self,
      mem_read_append_left _ _ _ _ (by omega)]
    simp [mem_read]
  · rw [hopen]
    intro id s hs
    exact Or.inr (h.2 id s hs).2


/-! ## Template Sets in the output message -/

theorem template_set_length (L : Nat) (raw : List Nat) :
    (htons 2 ++ htons L ++ raw).length = 4 + raw.length := by
  simp only [List.length_append, htons_length]

theorem TemplateSetsKept_step (cache0 : List template_node) (p p1 : plugin_ctx)
    (b b1 : msg_builder_s) (hf : Framed b1) (hcache : p1.templates = p.templates)
    (hmsg : b1.msg = b.msg) (hk : ∀ o bytes, Keeps o bytes b → Keeps o bytes b1)
    (h : TemplateSetsKept cache0 p b) : TemplateSetsKept cache0 p1 b1 := by
  refine ⟨hf, ?_, ?_⟩
  · rw [hcache]
    intro node hn
    rcases h.2.1 node hn with hc | ⟨o, L, hkeep⟩
    · exact Or.inl hc
    · exact Or.inr ⟨o, L, hk _ _ hkeep⟩
  · rw [hmsg]
    intro ref hr
    rcases h.2.2 ref hr with hc | ⟨o, L, hle, hkeep⟩
    · exact Or.inl hc
    · exact Or.inr ⟨o, L, hle, hk _ _ hkeep⟩

theorem TemplateSetsKept_process_record (cache0 : List template_node) (api : fds_api)
    (cfg : config) (packet : List Nat) (p : plugin_ctx) (b : msg_builder_s) (cur : Nat)
    (record : ipx_ipfix_record) (p1 : plugin_ctx) (b2 : msg_builder_s) (cur1 : Nat)
    (hI : TemplateSetsKept cache0 p b)
    (h : process_record api cfg packet p b cur record = some (.next p1 b2 cur1)) :
    TemplateSetsKept cache0 p1 b2 := by
  have hf2 := Framed_process_record api cfg packet p b cur record p1 b2 cur1 hI.1 h
  have hk2 : ∀ o bytes, Keeps o bytes b → Keeps o bytes b2 := fun o bytes hk =>
    Keeps_process_record o bytes api cfg packet p b cur record p1 b2 cur1 hk h
  obtain ⟨t, b1, e, sz, hres, _, hbuf, hopen, hmsg⟩ :=
    process_record_next api cfg packet p b cur record p1 b2 cur1 h
  have hk12 : ∀ o bytes, Keeps o bytes b1 → Keeps o bytes b2 := fun o bytes hk =>
    Keeps_append o bytes _ b2 _ hbuf hopen (Keeps_manage_set_boundaries o bytes b1 cur t.id hk)
  have hbound : ∀ o bytes, Keeps o bytes b1 →
      o + bytes.length ≤ (manage_set_boundaries b1 cur t.id).2.1.buffer.length :=
    fun o bytes hk => Keeps_bound _ _ _ (Keeps_manage_set_boundaries o bytes b1 cur t.id hk)
  have hrefs : ∀ ref ∈ b.msg, Cached cache0 ref.drec.tmplt ∨
      ∃ o L, o + (4 + ref.drec.tmplt.raw.length) ≤ ref.drec.data ∧
        Keeps o (htons 2 ++ htons L ++ ref.drec.tmplt.raw) b2 := by
    intro ref hr
    rcases hI.2.2 ref hr with hc | ⟨o, L, hle, hkeep⟩
    · exact Or.inl hc
    · exact Or.inr ⟨o, L, hle, hk2 _ _ hkeep⟩
  have hcache : ∀ node ∈ p.templates, Cached cache0 node.new_tmplt ∨
      ∃ o L, Keeps o (htons 2 ++ htons L ++ node.new_tmplt.raw) b2 := by
    intro node hn
    rcases hI.2.1 node hn with hc | ⟨o, L, hkeep⟩
    · exact Or.inl hc
    · exact Or.inr ⟨o, L, hk2 _ _ hkeep⟩
  rcases get_or_create_cases api p _ b cfg.ids _ p1 b1 hres with ⟨hb, hp, hnode⟩ |
    ⟨nt, L, pad, node, hr, hnt, hp, hb, ho, _⟩
  · subst hb
    refine ⟨hf2, ?_, ?_⟩
    · rw [hp]
      exact hcache
    · rw [hmsg]
      intro ref hr
      rcases List.mem_append.mp hr with hr | hr
      · exact hrefs ref hr
      · simp only [List.mem_singleton] at hr
        subst hr
        obtain ⟨node, hn, hnt⟩ := hnode t rfl
        subst hnt
        rcases hI.2.1 node hn with hc | ⟨o, L, hkeep⟩
        · exact Or.inl hc
        · refine Or.inr ⟨o, L, ?_, hk2 _ _ hkeep⟩
          have := hbound _ _ hkeep
          rw [template_set_length] at this
          exact this
  · simp only [Option.some.injEq] at hr
    subst hr
    have hnew : Keeps b.buffer.length (htons 2 ++ htons L ++ t.raw) b1 :=
      Keeps_appended b b1 _ pad (by simp [htons]) hb ho hI.1
    refine ⟨hf2, ?_, ?_⟩
    · rw [hp]
      intro n hn
      rcases List.mem_cons.mp hn with hn | hn
      · subst hn
        rw [hnt]
        exact Or.inr ⟨_, L, hk12 _ _ hnew⟩
      · exact hcache n hn
    · rw [hmsg]
      intro ref hr
      rcases List.mem_append.mp hr with hr | hr
      · exact hrefs ref hr
      · simp only [List.mem_singleton] at hr
        subst hr
        refine Or.inr ⟨_, L, ?_, hk12 _ _ hnew⟩
        have := hbound _ _ hnew
        rw [template_set_length] at this
        exact this

/-- C12, amended: for every state of the plugin and every input message with
a complete header for which an output message is forwarded, every Data Record
of the output whose extended Template was not in the cache when the message
arrived (it was derived while this message was processed) has the Template
Set of that Template at an earlier offset of the same output message: the Set
ID 2, a length field, and the raw bytes of the Template, ending at or before
the offset of the record. A record whose extended Template was already cached
has no such guarantee. -/
theorem template_set_precedes_record (api : fds_api) (p : plugin_ctx) (msg : ipx_msg_ipfix)
    (res : process_result) (out : msg_builder_s)
    (hhdr : 16 ≤ msg.packet.length)
    (h : ipx_plugin_process api p msg = some res) (hout : res.passed = some out) :
    ∀ ref ∈ out.msg,
      (∃ node ∈ p.templates, node.new_tmplt = ref.drec.tmplt) ∨
      ∃ o L, o + (4 + ref.drec.tmplt.raw.length) ≤ ref.drec.data ∧
        mem_read out.buffer o (4 + ref.drec.tmplt.raw.length)
          = htons 2 ++ htons L ++ ref.drec.tmplt.raw := by
  obtain ⟨cfg, p1, b1, hc, hs, hfin⟩ := process_passed api p msg res out h hout
  have hinit : TemplateSetsKept p.templates p ⟨[], msg.packet.take 16, none⟩ := by
    refine ⟨⟨?_, fun id s hs => by simp at hs⟩, fun node hn => Or.inl ⟨node, hn, rfl⟩,
      fun ref hr => by simp at hr⟩
    show 4 ≤ (msg.packet.take 16).length
    rw [List.length_take]
    omega
  have hinv := sets_loop_inv (TemplateSetsKept p.templates) (fun _ => True) api cfg msg.packet
    (fun p0 b0 set hI => TemplateSetsKept_step _ p0 p0 b0 _
      (Framed_append b0 _ _ rfl rfl hI.1) rfl rfl
      (fun o bytes hk => Keeps_write o bytes b0 _ _ hk) hI)
    (fun p0 b0 cur record p2 b2 cur2 _ hI hs =>
      TemplateSetsKept_process_record _ api cfg msg.packet p0 b0 cur record p2 b2 cur2 hI hs)
    (fun p0 b0 hI => TemplateSetsKept_step _ p0 p0 b0 _ (Framed_end_dset b0 hI.1) rfl
      (msg_builder_end_dset_msg b0) (fun o bytes hk => Keeps_end_dset o bytes b0 hk) hI)
    msg.sets msg.recs p _ p1 b1 (fun _ _ => trivial) hinit hs
  intro ref hr
  rw [hfin, msg_builder_finish_msg] at hr
  rcases hinv.2.2 ref hr with hc | ⟨o, L, hle, hkeep⟩
  · exact Or.inl hc
  · refine Or.inr ⟨o, L, hle, ?_⟩
    have := (Keeps_finish _ _ _ hkeep).2.2.1
    rw [template_set_length] at this
    rw [hfin]
    exact this


/-- Witness of the amended C12: the record of the output for `sample_msg`
references Template 40000, derived while the message was processed, and the
Template Set of Template 40000 stands in front of the record. -/
theorem template_set_precedes_record_witness :
    (∃ node ∈ sample_init_ctx.templates, node.new_tmplt
        = ⟨.FDS_TYPE_TEMPLATE, 40000, [156, 64, 0, 2, 0, 8, 0, 4, 0, 82, 255, 255]⟩) ∨
      ∃ o L, o + (4 + 12) ≤ 48 ∧
        mem_read sample_out.buffer o (4 + 12)
          = htons 2 ++ htons L ++ [156, 64, 0, 2, 0, 8, 0, 4, 0, 82, 255, 255] :=
  template_set_precedes_record sample_api sample_init_ctx sample_msg
    ⟨.IPX_OK, sample_ctx, some sample_out⟩ sample_out (by decide) (by decide) rfl
    ⟨⟨48, 9, ⟨.FDS_TYPE_TEMPLATE, 40000, [156, 64, 0, 2, 0, 8, 0, 4, 0, 82, 255, 255]⟩⟩⟩
    (List.mem_singleton_self _)

/-- C12, as stated, fails for the second of two messages: the first message
`plain_msg` leaves Template 40000 in the cache; the output for the same
message sent again holds a record that references Template 40000, and the
raw bytes of that Template stand nowhere in this output. -/
theorem cached_template_counterexample :
    (ipx_plugin_process sample_api sample_init_ctx plain_msg).map (fun r => (r.rc, r.pctx))
      = some (.IPX_OK, sample_ctx) ∧
    ipx_plugin_process sample_api sample_ctx plain_msg
      = some { rc := .IPX_OK, pctx := sample_ctx, passed := some plain_out } ∧
    ∃ ref ∈ plain_out.msg, ∀ o,
      mem_read plain_out.buffer o ref.drec.tmplt.raw.length ≠ ref.drec.tmplt.raw := by
  refine ⟨by decide, by decide, _, List.mem_singleton_self _, ?_⟩
  intro o heq
  by_cases ho : o < 21
  · interval_cases o <;> exact absurd heq (by decide)
  · have hl := congrArg List.length heq
    simp only [mem_read, plain_out, List.length_take, List.length_drop, List.length_cons,
      List.length_nil] at hl
    omega


/-! ## The sets of the output message -/

theorem BodyOpen_append (b b1 : msg_builder_s) (e : List Nat)
    (hbuf : b1.buffer = b.buffer ++ e) (hopen : b1.dset_open = b.dset_open) (h : BodyOpen b) :
    BodyOpen b1 := by
  unfold BodyOpen
  rw [hbuf, hopen, List.length_append]
  intro id s hs
  have := h id s hs
  omega

/-- Closing a Data Set that has a body does not shorten the buffer. -/
theorem msg_builder_end_dset_grows (b : msg_builder_s) (h : BodyOpen b) :
    b.buffer.length ≤ (msg_builder_end_dset b).2.buffer.length := by
  cases hopen : b.dset_open with
  | none =>
    unfold msg_builder_end_dset
    rw [hopen]
  | some x =>
    obtain ⟨id, s⟩ := x
    rw [msg_builder_end_dset_length b id s hopen (h id s hopen)]
    omega

theorem BodyOpen_end_dset (b : msg_builder_s) : BodyOpen (msg_builder_end_dset b).2 := by
  intro id s hs
  simp [msg_builder_end_dset_closed] at hs

theorem manage_set_boundaries_grows (b : msg_builder_s) (cur tid : Nat) (h : BodyOpen b) :
    b.buffer.length ≤ (manage_set_boundaries b cur tid).2.1.buffer.length := by
  rw [manage_set_boundaries_eq]
  split
  · exact Nat.le_refl _
  · split
    · show b.buffer.length ≤ (b.buffer ++ (htons tid ++ htons 0)).length
      rw [List.length_append]
      omega
    · show b.buffer.length
        ≤ ((msg_builder_end_dset b).2.buffer ++ (htons tid ++ htons 0)).length
      rw [List.length_append]
      have := msg_builder_end_dset_grows b h
      omega

theorem mem_read_length_pos (packet : List Nat) (r : ipx_ipfix_record)
    (h : NonEmptyRecord packet r) : 0 < (mem_read packet r.drec.data r.drec.size).length := by
  unfold mem_read
  rw [List.length_take, List.length_drop]
  have h1 := h.1
  have h2 := h.2
  omega

theorem RegionGrows_process_record (b0 : msg_builder_s) (api : fds_api) (cfg : config)
    (packet : List Nat) (p : plugin_ctx) (b : msg_builder_s) (cur : Nat)
    (record : ipx_ipfix_record) (p1 : plugin_ctx) (b2 : msg_builder_s) (cur1 : Nat)
    (hR : NonEmptyRecord packet record) (hI : RegionGrows b0 b)
    (h : process_record api cfg packet p b cur record = some (.next p1 b2 cur1)) :
    RegionGrows b0 b2 := by
  obtain ⟨hf, hbo, hlen, refs, hmsg0, hrefs⟩ := hI
  have hf2 := Framed_process_record api cfg packet p b cur record p1 b2 cur1 hf h
  obtain ⟨t, b1, e, sz, hres, _, hbuf, hopen, hmsg⟩ :=
    process_record_next api cfg packet p b cur record p1 b2 cur1 h
  have hpos := mem_read_length_pos packet record hR
  have hb1 : Framed b1 ∧ BodyOpen b1 ∧ b.buffer.length ≤ b1.buffer.length := by
    rcases get_or_create_cases api p _ b cfg.ids _ p1 b1 hres with ⟨hb, _, _⟩ |
      ⟨nt, L, pad, node, _, _, _, hb, ho, _⟩
    · rw [hb]
      exact ⟨hf, hbo, Nat.le_refl _⟩
    · refine ⟨Framed_append b b1 _ hb ho hf, BodyOpen_append b b1 _ hb ho hbo, ?_⟩
      rw [hb, List.length_append]
      omega
  obtain ⟨hf1, hbo1, hlen1⟩ := hb1
  have hfm := Framed_manage_set_boundaries b1 cur t.id hf1
  have hgm := manage_set_boundaries_grows b1 cur t.id hbo1
  have hlen2 : b2.buffer.length = (manage_set_boundaries b1 cur t.id).2.1.buffer.length
      + ((mem_read packet record.drec.data record.drec.size).length + e.length) := by
    rw [hbuf, List.length_append, List.length_append]
  refine ⟨hf2, ?_, by omega,
    refs ++ [⟨⟨(manage_set_boundaries b1 cur t.id).2.1.buffer.length, sz, t⟩⟩], ?_, ?_⟩
  · intro id s hs
    rw [hopen] at hs
    have := (hfm.2 id s hs).2
    omega
  · rw [hmsg, hmsg0, List.append_assoc]
  · intro r hr
    rcases List.mem_append.mp hr with hr | hr
    · have := hrefs r hr
      omega
    · simp only [List.mem_singleton] at hr
      subst hr
      dsimp only
      omega

/-- The loop over the sets lays the output out set by set: see `Tiled`. The
final buffer `out` may be any buffer that keeps the bytes standing in the
builder when the loop completes. -/
theorem Tiled_sets_loop (api : fds_api) (cfg : config) (packet : List Nat)
    (sets : List ipx_ipfix_set) (recs : List ipx_ipfix_record) (p : plugin_ctx)
    (b : msg_builder_s) (p1 : plugin_ctx) (b1 : msg_builder_s)
    (hf : Framed b) (hbo : BodyOpen b) (hR : ∀ r ∈ recs, NonEmptyRecord packet r)
    (h : sets_loop api cfg packet sets recs p b = some (.done p1 b1)) :
    BodyOpen b1 ∧ ∃ refs, b1.msg = b.msg ++ refs ∧
      ∀ out : List Nat, (∀ o bytes, Keeps o bytes b1 → mem_read out o bytes.length = bytes) →
        b1.buffer.length ≤ out.length → Tiled packet out sets refs b.buffer.length := by
  induction sets generalizing recs p b with
  | nil =>
    simp only [sets_loop, Option.some.injEq, sets_result.done.injEq] at h
    obtain ⟨h1, h2⟩ := h
    subst h1 h2
    exact ⟨hbo, [], (List.append_nil _).symm, fun out _ hle => Tiled.nil _ hle⟩
  | cons set sets ih =>
    unfold sets_loop at h
    dsimp only at h
    split at h
    · rename_i hid
      split at h
      · simp at h
      · have hbuf : (msg_builder_copy_set b packet set).2.buffer
            = b.buffer ++ (mem_read packet set.ptr (ntohs_at packet (set.ptr + 2)) ++ []) := by
          simp only [msg_builder_copy_set, msg_builder_write, mem_read, List.append_nil]
        obtain ⟨hbo1, refs, hmsg, htile⟩ := ih recs p _
          (Framed_append b _ _ hbuf rfl hf) (BodyOpen_append b _ _ hbuf rfl hbo) hR h
        refine ⟨hbo1, refs, hmsg, fun out hkeep hle => ?_⟩
        have ht := htile out hkeep hle
        rw [hbuf, List.length_append, List.append_nil] at ht
        refine Tiled.copied set sets refs _ hid ?_ ht
        by_cases hne : mem_read packet set.ptr (ntohs_at packet (set.ptr + 2)) = []
        · rw [hne]
          simp [mem_read]
        · exact hkeep _ _ (Keeps_sets_loop _ _ api cfg packet sets recs p _ p1 b1
            (Keeps_appended b _ _ [] hne hbuf rfl hf) h)
    · rename_i hid
      split at h
      · simp at h
      · simp at h
      · rename_i p2 b2 cur2 rest hd
        obtain ⟨⟨hf2, hbo2, hlen2, refs1, hmsg1, hrefs1⟩, hR2⟩ :=
          dset_loop_inv (fun _ b' => RegionGrows b b') (NonEmptyRecord packet) api cfg packet set
            (fun p0 b0 cur record p3 b3 cur3 hr hI hs =>
              RegionGrows_process_record b api cfg packet p0 b0 cur record p3 b3 cur3 hr hI hs)
            recs p b 0 p2 b2 cur2 rest hR
            ⟨hf, hbo, Nat.le_refl _, [], (List.append_nil _).symm, fun r hr => by simp at hr⟩ hd
        have hr : (if cur2 ≠ 0 then msg_builder_end_dset b2 else (.IPX_OK, b2)).1 = .IPX_OK := by
          split
          · exact msg_builder_end_dset_ok _
          · rfl
        simp only [hr, ne_eq, not_true_eq_false, if_false] at h
        have h3 : Framed (if ¬cur2 = 0 then msg_builder_end_dset b2 else (.IPX_OK, b2)).2 ∧
            BodyOpen (if ¬cur2 = 0 then msg_builder_end_dset b2 else (.IPX_OK, b2)).2 ∧
            b2.buffer.length
              ≤ (if ¬cur2 = 0 then msg_builder_end_dset b2 else (.IPX_OK, b2)).2.buffer.length ∧
            (if ¬cur2 = 0 then msg_builder_end_dset b2 else (.IPX_OK, b2)).2.msg = b2.msg := by
          split
          · exact ⟨Framed_end_dset b2 hf2, BodyOpen_end_dset b2,
              msg_builder_end_dset_grows b2 hbo2, msg_builder_end_dset_msg b2⟩
          · exact ⟨hf2, hbo2, Nat.le_refl _, rfl⟩
        obtain ⟨hf3, hbo3, hlen3, hmsg3⟩ := h3
        obtain ⟨hbo1, refs2, hmsg, htile⟩ := ih rest p2 _ hf3 hbo3 hR2 h
        refine ⟨hbo1, refs1 ++ refs2, ?_, fun out hkeep hle => ?_⟩
        · rw [hmsg, hmsg3, hmsg1, List.append_assoc]
        · refine Tiled.dset set sets refs1 refs2 _ _ hid (by omega) ?_ (htile out hkeep hle)
          intro r hr
          have := hrefs1 r hr
          omega

/-- C14, amended: for every input message with a complete header, whose Data
Records each have at least one byte inside the packet, and for which an
output message is forwarded, the output buffer is laid out behind the
16-byte header set by set, in the order of the input: every set with
flowset_id < 256 stands there with byte-identical content (the
`ntohs(length)` bytes at its start, as far as the packet holds them), and
every Data Set has a region of its own between the sets before and after it,
into which the record references added for it point. -/
theorem non_data_sets_copied (api : fds_api) (p : plugin_ctx) (msg : ipx_msg_ipfix)
    (res : process_result) (out : msg_builder_s)
    (hhdr : 16 ≤ msg.packet.length)
    (hrecs : ∀ r ∈ msg.recs, NonEmptyRecord msg.packet r)
    (h : ipx_plugin_process api p msg = some res) (hout : res.passed = some out) :
    Tiled msg.packet out.buffer msg.sets out.msg 16 := by
  obtain ⟨cfg, p1, b1, hc, hs, hfin⟩ := process_passed api p msg res out h hout
  have hlen0 : (msg.packet.take 16).length = 16 := by
    rw [List.length_take]
    omega
  obtain ⟨hbo1, refs, hmsg, htile⟩ := Tiled_sets_loop api cfg msg.packet msg.sets msg.recs p
    ⟨[], msg.packet.take 16, none⟩ p1 b1
    ⟨by show 4 ≤ (msg.packet.take 16).length; omega, fun id s hs => by simp at hs⟩
    (fun id s hs => by simp at hs) hrecs hs
  have hgrow : b1.buffer.length ≤ (msg_builder_finish b1).buffer.length := by
    unfold msg_builder_finish
    dsimp only
    refine Nat.le_trans ?_ (mem_write_length_ge _ _ _)
    split
    · exact msg_builder_end_dset_grows b1 hbo1
    · exact Nat.le_refl _
  have ht := htile (msg_builder_finish b1).buffer
    (fun o bytes hk => (Keeps_finish o bytes b1 hk).2.2.1) hgrow
  rw [hfin, msg_builder_finish_msg, hmsg]
  simpa [hlen0] using ht


/-- Witness of the amended C14: the output for `sample_msg` holds the
Template Set of the input at offset 16, unchanged, and behind it the region of
the Data Set, into which the record reference points. -/
theorem non_data_sets_copied_witness :
    Tiled sample_msg.packet sample_out.buffer sample_msg.sets sample_out.msg 16 :=
  non_data_sets_copied sample_api sample_init_ctx sample_msg
    ⟨.IPX_OK, sample_ctx, some sample_out⟩ sample_out (by decide)
    (fun r hr => by
      simp only [sample_msg, List.mem_singleton] at hr
      subst hr
      exact ⟨by decide, by decide⟩)
    (by decide) rfl

/-- C14, as stated, fails: the message `tall_msg` starts with a Template Set
(Set ID 2) and its Data Set holds a record under the Template of that set,
which is no Options Template. Extended by the two Extensions of `count_cfg`
the Template describes a record of 65516 bytes, more than an IPFIX message
holds, so the parser rejects the new Template record;
`get_or_create_extended_template` returns NULL (extender.c:283-287) and
`ipx_plugin_process` gives up with `IPX_ERR_NOMEM` (extender.c:471-474): no
output is forwarded, and the Template Set is copied nowhere. -/
theorem non_data_set_not_forwarded_counterexample :
    ntohs_at tall_msg.packet 16 = 2 ∧
    tall_tmplt.type = .FDS_TYPE_TEMPLATE ∧
    ipx_plugin_process sample_api count_ctx tall_msg
      = some { rc := .IPX_ERR_NOMEM, pctx := { count_ctx with next_template_id := 40001 },
               passed := none } := by
  refine ⟨by decide, by decide, by decide⟩


/-! ## The limits of the configuration -/

/-- When `config_parse_ids` returns 0, the Extension has one Candidate more
for each `values` element, and never more than `CONFIG_VALUSE_MAX`. -/
theorem config_parse_ids_count (V : Nat) (l : List fds_xml_cont) (id0 : config_ids_t)
    (r : Int × config_ids_t) (h : config_parse_ids V l id0 = some r) (h0 : r.1 = 0)
    (hle : id0.values.length ≤ V) :
    r.2.values.length = id0.values.length + candidate_count l ∧ r.2.values.length ≤ V := by
  induction l generalizing id0 with
  | nil =>
    simp only [config_parse_ids, Option.some.injEq] at h
    subst h
    exact ⟨rfl, hle⟩
  | cons c rest ih =>
    cases c with
    | ptr_string cid s =>
      simp only [config_parse_ids] at h
      split at h
      · split at h
        · simp only [Option.some.injEq] at h
          subst h
          simp at h0
        · exact ih { id0 with name := some s } h hle
      · split at h
        · simp at h
        · exact ih _ h hle
    | ptr_ctx cid children =>
      simp only [config_parse_ids] at h
      split at h
      · simp at h
      · split at h
        · rename_i hv
          split at h
          · simp only [Option.some.injEq] at h
            subst h
            simp at h0
          · rename_i hlt
            split at h
            · simp at h
            · have := ih _ h (by simp only [List.length_append, List.length_singleton]; omega)
              simp only [List.length_append, List.length_singleton] at this
              simp only [candidate_count, hv, if_true]
              omega
        · rename_i hv
          simp only [candidate_count, hv, if_false]
          exact ih _ h hle

/-- When `config_parse` returns a configuration, it has one Extension for
each `ids` element, never more than `CONFIG_IDS_MAX`, and each has one
Candidate for each of its `values` elements, never more than
`CONFIG_VALUSE_MAX`. -/
theorem config_parse_loop_count (K V : Nat) (l : List fds_xml_cont) (cfg0 cfg : config)
    (h : config_parse_loop K V l cfg0 = some (some cfg)) (hle : cfg0.ids.length ≤ K) :
    ∃ new, cfg.ids = cfg0.ids ++ new ∧ cfg.ids.length ≤ K ∧
      List.Forall₂ (fun (id : config_ids_t) ext =>
        id.values.length = candidate_count ext ∧ id.values.length ≤ V) new (extension_elems l) := by
  induction l generalizing cfg0 with
  | nil =>
    simp only [config_parse_loop, Option.some.injEq] at h
    subst h
    exact ⟨[], (List.append_nil _).symm, hle, List.Forall₂.nil⟩
  | cons c rest ih =>
    cases c with
    | ptr_string cid s =>
      simp only [config_parse_loop] at h
      split at h
      · simp at h
      · exact ih _ h hle
    | ptr_ctx cid children =>
      simp only [config_parse_loop] at h
      split at h
      · rename_i hc
        split at h
        · simp at h
        · split at h
          · simp at h
          · rename_i r hr
            split at h
            · simp at h
            · rename_i h0
              have hcnt := config_parse_ids_count V children zero_ids r hr (by simpa using h0)
                (Nat.zero_le _)
              obtain ⟨new, hnew, hlen, hall⟩ := ih _ h
                (by simp only [List.length_append, List.length_singleton]; omega)
              refine ⟨r.2 :: new, ?_, hlen, ?_⟩
              · rw [hnew]
                simp
              · simp only [extension_elems, hc, if_true]
                refine List.Forall₂.cons ⟨?_, hcnt.2⟩ hall
                rw [hcnt.1]
                simp [zero_ids]
      · rename_i hc
        simp only [extension_elems, hc, if_false]
        exact ih _ h hle

theorem config_parse_values_total (l : List fds_xml_cont) (slot : config_value_t)
    (h : values_typed l = true) : config_parse_values l slot ≠ none := by
  induction l generalizing slot with
  | nil => simp [config_parse_values]
  | cons c rest ih =>
    cases c with
    | ptr_string cid s =>
      simp only [values_typed] at h
      simp only [config_parse_values]
      split
      · split
        · simp
        · exact ih _ h
      · split
        · split
          · simp
          · exact ih _ h
        · exact ih _ h
    | ptr_ctx cid children =>
      simp only [values_typed, Bool.and_eq_true, Bool.not_eq_true', decide_eq_false_iff_not] at h
      simp only [config_parse_values, h.1, if_false]
      exact ih _ h.2

theorem config_parse_ids_total (V : Nat) (l : List fds_xml_cont) (id0 : config_ids_t)
    (h : ids_typed l = true) : config_parse_ids V l id0 ≠ none := by
  induction l generalizing id0 with
  | nil => simp [config_parse_ids]
  | cons c rest ih =>
    cases c with
    | ptr_string cid s =>
      simp only [ids_typed, Bool.and_eq_true, Bool.not_eq_true', decide_eq_false_iff_not] at h
      simp only [config_parse_ids, h.1, if_false]
      split
      · split
        · simp
        · exact ih _ h.2
      · exact ih _ h.2
    | ptr_ctx cid children =>
      simp only [ids_typed, Bool.and_eq_true, Bool.not_eq_true', decide_eq_false_iff_not,
        Bool.or_eq_true] at h
      simp only [config_parse_ids, h.1.1, if_false]
      split
      · rename_i hv
        split
        · simp
        · have hvt : values_typed children = true := by
            rcases h.1.2 with h1 | h1
            · exact absurd hv h1
            · exact h1
          have := config_parse_values_total children zero_value hvt
          split
          · rename_i hn
            exact absurd hn this
          · exact ih _ h.2
      · exact ih _ h.2

theorem config_parse_loop_total (K V : Nat) (l : List fds_xml_cont) (cfg0 : config)
    (h : params_typed l = true) : config_parse_loop K V l cfg0 ≠ none := by
  induction l generalizing cfg0 with
  | nil => simp [config_parse_loop]
  | cons c rest ih =>
    cases c with
    | ptr_string cid s =>
      simp only [params_typed, Bool.and_eq_true, Bool.not_eq_true', decide_eq_false_iff_not] at h
      simp only [config_parse_loop, h.1, if_false]
      exact ih _ h.2
    | ptr_ctx cid children =>
      simp only [params_typed, Bool.and_eq_true, Bool.not_eq_true', decide_eq_false_iff_not,
        Bool.or_eq_true] at h
      simp only [config_parse_loop]
      split
      · rename_i hc
        split
        · simp
        · have hit : ids_typed children = true := by
            rcases h.1 with h1 | h1
            · exact absurd hc h1
            · exact h1
          have := config_parse_ids_total V children zero_ids hit
          split
          · rename_i hn
            exact absurd hn this
          · split
            · simp
            · exact ih _ h.2
      · exact ih _ h.2


theorem init_values_length (host : iemgr_api) (name : Option CString)
    (vs : List config_value_t) (elem : Nat × fds_iemgr_element_type)
    (r : List config_value_t × (Nat × fds_iemgr_element_type))
    (h : init_values host name vs elem = some (some r)) : r.1.length = vs.length := by
  induction vs generalizing elem r with
  | nil =>
    simp only [init_values, Option.some.injEq] at h
    subst h
    rfl
  | cons v rest ih =>
    simp only [init_values] at h
    split at h
    · simp at h
    · split at h
      · simp at h
      · split at h
        · simp at h
        · split at h
          · simp at h
          · split at h
            · simp at h
            · simp at h
            · rename_i r1 hr1
              simp only [Option.some.injEq] at h
              subst h
              simp only [List.length_cons, ih _ _ hr1]

/-- Function `ipx_plugin_init` keeps the number of Extensions and the number
of Candidates of each. -/
theorem init_ids_length (host : iemgr_api) (ids ids1 : List config_ids_t)
    (h : init_ids host ids = some (some ids1)) :
    List.Forall₂ (fun (a b : config_ids_t) => b.values.length = a.values.length) ids ids1 := by
  induction ids generalizing ids1 with
  | nil =>
    simp only [init_ids, Option.some.injEq] at h
    subst h
    exact List.Forall₂.nil
  | cons id rest ih =>
    simp only [init_ids] at h
    split at h
    · simp at h
    · simp at h
    · rename_i r hr
      split at h
      · simp at h
      · simp at h
      · rename_i ids2 hids2
        simp only [Option.some.injEq] at h
        subst h
        exact List.Forall₂.cons (init_values_length host _ _ _ _ hr) (ih _ hids2)

theorem forall2_exists_left {α β : Type} (R : α → β → Prop) (l1 : List α) (l2 : List β)
    (h : List.Forall₂ R l1 l2) (b : β) (hb : b ∈ l2) : ∃ a ∈ l1, R a b := by
  induction h with
  | nil => simp at hb
  | @cons a1 b1 t1 t2 hab _ ih =>
    rcases List.mem_cons.mp hb with he | he
    · subst he
      exact ⟨a1, List.mem_cons_self _ _, hab⟩
    · obtain ⟨a, ha, hp⟩ := ih he
      exact ⟨a, List.mem_cons_of_mem _ ha, hp⟩

theorem forall2_exists_right {α β : Type} (R : α → β → Prop) (l1 : List α) (l2 : List β)
    (h : List.Forall₂ R l1 l2) (a : α) (ha : a ∈ l1) : ∃ b ∈ l2, R a b := by
  induction h with
  | nil => simp at ha
  | @cons a1 b1 t1 t2 hab _ ih =>
    rcases List.mem_cons.mp ha with he | he
    · subst he
      exact ⟨b1, List.mem_cons_self _ _, hab⟩
    · obtain ⟨b, hb, hp⟩ := ih he
      exact ⟨b, List.mem_cons_of_mem _ hb, hp⟩

/-- C21: `config_parse` enforces the limits. (1) A configuration it returns
has one Extension for each `ids` element of the text, at most
`CONFIG_IDS_MAX`, and each Extension has one Candidate for each of its
`values` elements, at most `CONFIG_VALUSE_MAX`. (2) For a configuration text
with more than `CONFIG_IDS_MAX` Extensions, or with an Extension that has more
than `CONFIG_VALUSE_MAX` Candidates, it returns `NULL`. (3) In the
configuration `ipx_plugin_init` stores, the counts are within the limits as
well, and so is the number of entries of `match` that `ipx_plugin_process`
fills for a record: every index into `ids`, `values` and `match` is below the
size of the array. -/
theorem config_limits_enforced (K V : Nat) (contents : List fds_xml_cont) :
    (∀ cfg, config_parse K V (some contents) = some (some cfg) →
      cfg.ids.length ≤ K ∧
      List.Forall₂ (fun (id : config_ids_t) ext =>
        id.values.length = candidate_count ext ∧ id.values.length ≤ V)
        cfg.ids (extension_elems contents)) ∧
    (params_typed contents = true →
      (K < (extension_elems contents).length ∨
        ∃ ext ∈ extension_elems contents, V < candidate_count ext) →
      config_parse K V (some contents) = some none) ∧
    (∀ host pctx, ipx_plugin_init host K V (some contents) = some (.IPX_OK, some pctx) →
      ∃ cfg, pctx.config = some cfg ∧ cfg.ids.length ≤ K ∧
        (∀ id ∈ cfg.ids, id.values.length ≤ V) ∧
        ∀ (api : fds_api) (packet : List Nat) (drec : fds_drec),
          (cfg.ids.map (compute_match api packet drec)).length ≤ K) := by
  have h1 : ∀ cfg, config_parse K V (some contents) = some (some cfg) →
      cfg.ids.length ≤ K ∧
      List.Forall₂ (fun (id : config_ids_t) ext =>
        id.values.length = candidate_count ext ∧ id.values.length ≤ V)
        cfg.ids (extension_elems contents) := by
    intro cfg h
    obtain ⟨new, hnew, hlen, hall⟩ := config_parse_loop_count K V contents _ cfg h (Nat.zero_le _)
    simp only [List.nil_append] at hnew
    rw [hnew]
    rw [hnew] at hlen
    exact ⟨hlen, hall⟩
  refine ⟨h1, ?_, ?_⟩
  · intro htyped hmore
    have htot := config_parse_loop_total K V contents { ids := [], max_extension_len := 0 } htyped
    cases hr : config_parse K V (some contents) with
    | none => exact absurd hr htot
    | some r =>
      cases r with
      | none => rfl
      | some cfg =>
        exfalso
        obtain ⟨hlen, hall⟩ := h1 cfg hr
        rcases hmore with hk | ⟨ext, hext, hv⟩
        · have := hall.length_eq
          omega
        · obtain ⟨id, _, hid⟩ := forall2_exists_left _ _ _ hall ext hext
          omega
  · intro host pctx hinit
    unfold ipx_plugin_init at hinit
    split at hinit
    · simp at hinit
    · simp at hinit
    · rename_i cfg hcfg
      split at hinit
      · simp at hinit
      · simp at hinit
      · rename_i ids1 hids1
        simp only [Option.some.injEq, Prod.mk.injEq, true_and] at hinit
        subst hinit
        obtain ⟨hlen, hall⟩ := h1 cfg hcfg
        have hl := init_ids_length host cfg.ids ids1 hids1
        refine ⟨_, rfl, ?_, ?_, ?_⟩
        · show ids1.length ≤ K
          rw [← hl.length_eq]
          exact hlen
        · show ∀ id ∈ ids1, id.values.length ≤ V
          intro id hid
          obtain ⟨a, ha, hab⟩ := forall2_exists_left _ _ _ hl id hid
          obtain ⟨ext, _, hext⟩ := forall2_exists_right _ _ _ hall a ha
          rw [hab]
          exact hext.2
        · intro api packet drec
          show (ids1.map (compute_match api packet drec)).length ≤ K
          rw [List.length_map, ← hl.length_eq]
          exact hlen


/-- Witness of C21: a configuration text with two Extensions, the first with
two Candidates, is refused when the limit is one Extension, and when the
limit is one Candidate per Extension; with the limits 2 and 2 it is
accepted with these counts. -/
theorem config_limits_enforced_witness :
    config_parse 1 2 (some two_ids_params) = some none ∧
    config_parse 2 1 (some two_ids_params) = some none ∧
    ∃ cfg, config_parse 2 2 (some two_ids_params) = some (some cfg) ∧ cfg.ids.length ≤ 2 ∧
      List.Forall₂ (fun (id : config_ids_t) ext =>
        id.values.length = candidate_count ext ∧ id.values.length ≤ 2)
        cfg.ids (extension_elems two_ids_params) :=
  ⟨(config_limits_enforced 1 2 two_ids_params).2.1 (by decide) (Or.inl (by decide)),
   (config_limits_enforced 2 1 two_ids_params).2.1 (by decide)
     (Or.inr ⟨_, List.mem_cons_self _ _, by decide⟩),
   ⟨⟨[⟨some [105, 102], 0, .FDS_ET_OCTET_ARRAY,
        [⟨some [49], some [101, 116, 104, 48], 0⟩, ⟨some [50], some [101, 116, 104, 49], 0⟩]⟩,
      ⟨some [105, 110], 0, .FDS_ET_OCTET_ARRAY, [⟨some [49], some [55], 0⟩]⟩], 0⟩,
    by decide,
    (config_limits_enforced 2 2 two_ids_params).1 _ (by decide)⟩⟩


/-! ## Value strings that are not decimal numbers of the width -/

/-- Function `strtoul` yields 0 for a string that starts with a character
that is neither white space, a sign nor a digit, and for the empty string. -/
theorem strtoul_no_digits (s : CString)
    (h : ∀ c, s.head? = some c → isspace c = false ∧ isdigit c = false ∧ c ≠ 45 ∧ c ≠ 43) :
    strtoul s = 0 := by
  cases s with
  | nil => decide
  | cons c cs =>
    obtain ⟨hsp, hd, h45, h43⟩ := h c rfl
    simp [strtoul, List.dropWhile_cons, hsp, h45, h43, List.takeWhile_cons, hd, digits_value,
      ULONG_MAX]

theorem takeWhile_digits_append (ds rest : List Nat) (hall : ∀ c ∈ ds, isdigit c = true)
    (hrest : ∀ c, rest.head? = some c → isdigit c = false) :
    (ds ++ rest).takeWhile isdigit = ds := by
  induction ds with
  | nil =>
    cases rest with
    | nil => rfl
    | cons c cs => simp [List.takeWhile_cons, hrest c rfl]
  | cons d ds ih =>
    have hd := hall d (by simp)
    simp only [List.cons_append, List.takeWhile_cons, hd, if_true]
    rw [ih (fun c hc => hall c (List.mem_cons_of_mem _ hc))]

/-- What `strtoul` reads of a string that starts with decimal digits: the
number the leading digits denote, whatever follows them, or `ULONG_MAX` when
that number does not fit. -/
theorem strtoul_leading_digits (ds rest : CString) (hne : ds ≠ [])
    (hall : ∀ c ∈ ds, isdigit c = true)
    (hrest : ∀ c, rest.head? = some c → isdigit c = false) :
    strtoul (ds ++ rest)
      = if ULONG_MAX < digits_value ds then ULONG_MAX else digits_value ds := by
  cases ds with
  | nil => exact absurd rfl hne
  | cons c cs =>
    have hc : isdigit c = true := hall c (by simp)
    have hc2 : 48 ≤ c ∧ c ≤ 57 := by simpa [isdigit] using hc
    have hsp : isspace c = false := by
      simp only [isspace, Bool.or_eq_false_iff, beq_eq_false_iff_ne, Bool.and_eq_false_iff,
        decide_eq_false_iff_not]
      omega
    have h45 : (c == 45) = false := by simp; omega
    have h43 : (c == 43) = false := by simp; omega
    have htw := takeWhile_digits_append (c :: cs) rest hall hrest
    simp only [List.cons_append] at htw
    simp only [strtoul, List.cons_append, List.dropWhile_cons, hsp, List.head?_cons,
      Option.some_beq_some, h45, h43, Bool.or_self, if_false, htw, Bool.false_eq_true]

/-- C24, amended: for an entry of type U8, U16, U32 or U64, of width `w` = 1,
2, 4, 8 bytes, and a matched Candidate with any value string, `add_value`
appends the `w` low-order bytes, in network byte order, of what `strtoul`
reads of the string. That is 0, so `w` zero bytes, when the string is empty
or starts with a character that is neither white space, a sign nor a digit;
for a string that starts with decimal digits it is the number the leading
digits denote, whatever follows them, saturated at `ULONG_MAX`, so that the
bytes appended denote that number modulo `2 ^ (8 w)`. -/
theorem add_value_unsigned_strtoul (dt : fds_iemgr_element_type) (w : Nat)
    (hty : (dt = .FDS_ET_UNSIGNED_8 ∧ w = 1) ∨ (dt = .FDS_ET_UNSIGNED_16 ∧ w = 2) ∨
      (dt = .FDS_ET_UNSIGNED_32 ∧ w = 4) ∨ (dt = .FDS_ET_UNSIGNED_64 ∧ w = 8))
    (id : Nat) (b : msg_builder_s) (ref : ipx_ipfix_record) :
    (∀ s : CString,
      add_value ⟨id, dt, true, some s⟩ b ref =
          some ({ b with buffer := b.buffer ++ be_bytes w (strtoul s) }, ref_add_size ref w) ∧
        (be_bytes w (strtoul s)).length = w ∧
        be_value (be_bytes w (strtoul s)) = strtoul s % 2 ^ (8 * w)) ∧
    (∀ s : CString,
      (∀ c, s.head? = some c → isspace c = false ∧ isdigit c = false ∧ c ≠ 45 ∧ c ≠ 43) →
      be_bytes w (strtoul s) = List.replicate w 0) ∧
    (∀ ds rest : CString, ds ≠ [] → (∀ c ∈ ds, isdigit c = true) →
      (∀ c, rest.head? = some c → isdigit c = false) →
      strtoul (ds ++ rest)
        = if ULONG_MAX < digits_value ds then ULONG_MAX else digits_value ds) := by
  have hpow : (256 : Nat) ^ w = 2 ^ (8 * w) := by
    rw [pow_mul]; norm_num
  refine ⟨?_, ?_, strtoul_leading_digits⟩
  · intro s
    refine ⟨?_, be_bytes_length w _, ?_⟩
    · rcases hty with ⟨h1, h2⟩ | ⟨h1, h2⟩ | ⟨h1, h2⟩ | ⟨h1, h2⟩ <;> subst h1 <;> subst h2
      · simp [add_value, msg_builder_write, be_bytes]
      · simp [add_value, msg_builder_write, ← htons_eq_be_bytes, htons]
      · simp [add_value, msg_builder_write, ← htonl_eq_be_bytes, htonl]
      · simp [add_value, strtoull, msg_builder_write, ← htobe64_eq_be_bytes, htobe64]
    · rw [be_value_be_bytes, hpow]
  · intro s hs
    rw [strtoul_no_digits s hs, be_bytes_zero_value]

/-- Witness of the amended C24: a U8 entry matched with the value "12abc"
appends the byte 12. -/
theorem add_value_unsigned_strtoul_witness :
    add_value ⟨1, .FDS_ET_UNSIGNED_8, true, some [49, 50, 97, 98, 99]⟩ ⟨[], [], none⟩
        ⟨⟨0, 4, ⟨.FDS_TYPE_TEMPLATE, 256, []⟩⟩⟩
      = some ({ (⟨[], [], none⟩ : msg_builder_s) with
                buffer := [] ++ be_bytes 1 (strtoul [49, 50, 97, 98, 99]) },
          ref_add_size ⟨⟨0, 4, ⟨.FDS_TYPE_TEMPLATE, 256, []⟩⟩⟩ 1) ∧
    strtoul ([49, 50] ++ [97, 98, 99])
      = if ULONG_MAX < digits_value [49, 50] then ULONG_MAX else digits_value [49, 50] :=
  ⟨((add_value_unsigned_strtoul .FDS_ET_UNSIGNED_8 1 (Or.inl ⟨rfl, rfl⟩) 1 ⟨[], [], none⟩
      ⟨⟨0, 4, ⟨.FDS_TYPE_TEMPLATE, 256, []⟩⟩⟩).1 [49, 50, 97, 98, 99]).1,
   (add_value_unsigned_strtoul .FDS_ET_UNSIGNED_8 1 (Or.inl ⟨rfl, rfl⟩) 1 ⟨[], [], none⟩
      ⟨⟨0, 4, ⟨.FDS_TYPE_TEMPLATE, 256, []⟩⟩⟩).2.2 [49, 50] [97, 98, 99] (by decide) (by decide)
      (by decide)⟩

/-- C24, as stated, fails: a U8 entry matched with the value "12abc", which
contains characters that are not digits, appends the byte 12; matched with
"300", a number that does not fit 8 bits, it appends the byte 44; and a U16
entry matched with "70000" appends `11 70`. None of them is encoded as
zero. -/
theorem unparseable_value_counterexample :
    add_value ⟨1, .FDS_ET_UNSIGNED_8, true, some [49, 50, 97, 98, 99]⟩ ⟨[], [], none⟩
        ⟨⟨0, 4, ⟨.FDS_TYPE_TEMPLATE, 256, []⟩⟩⟩
      = some (⟨[], [12], none⟩, ⟨⟨0, 5, ⟨.FDS_TYPE_TEMPLATE, 256, []⟩⟩⟩) ∧
    add_value ⟨1, .FDS_ET_UNSIGNED_8, true, some [51, 48, 48]⟩ ⟨[], [], none⟩
        ⟨⟨0, 4, ⟨.FDS_TYPE_TEMPLATE, 256, []⟩⟩⟩
      = some (⟨[], [44], none⟩, ⟨⟨0, 5, ⟨.FDS_TYPE_TEMPLATE, 256, []⟩⟩⟩) ∧
    add_value ⟨1, .FDS_ET_UNSIGNED_16, true, some [55, 48, 48, 48, 48]⟩ ⟨[], [], none⟩
        ⟨⟨0, 4, ⟨.FDS_TYPE_TEMPLATE, 256, []⟩⟩⟩
      = some (⟨[], [17, 112], none⟩, ⟨⟨0, 6, ⟨.FDS_TYPE_TEMPLATE, 256, []⟩⟩⟩) := by
  refine ⟨by decide, by decide, by decide⟩


/-! ## The bound on the bytes appended to a record -/

theorem max_extension_len_loop_sum (ids : List config_ids_t) (a : Nat) :
    max_extension_len_loop ids a = a + (ids.map extension_len).sum := by
  induction ids generalizing a with
  | nil => simp [max_extension_len_loop]
  | cons id ids ih =>
    simp only [max_extension_len_loop, List.map_cons, List.sum_cons, extension_len]
    split
    · rw [ih]
      omega
    · rw [ih]
      omega

theorem le_foldr_max (l : List Nat) (x : Nat) (h : x ∈ l) : x ≤ l.foldr max 0 := by
  induction l with
  | nil => simp at h
  | cons y ys ih =>
    simp only [List.foldr_cons]
    rcases List.mem_cons.mp h with he | he
    · subst he
      exact Nat.le_max_left _ _
    · exact Nat.le_trans (ih he) (Nat.le_max_right _ _)

/-- No value string of a Candidate is longer than `get_max_len` says. -/
theorem le_get_max_len (ext : config_ids_t) (v : config_value_t) (val : CString)
    (hv : v ∈ ext.values) (hval : v.value = some val) : val.length ≤ get_max_len ext := by
  unfold get_max_len
  rw [get_max_len_loop_eq, Nat.zero_max]
  apply le_foldr_max
  simp only [List.mem_map, List.mem_filterMap]
  exact ⟨val, ⟨v, hv, hval⟩, rfl⟩

theorem scan_values_data_type (api : fds_api) (packet : List Nat) (drec : fds_drec)
    (m : tmp_match_t) (vs : List config_value_t) :
    (scan_values api packet drec m vs).data_type = m.data_type := by
  induction vs with
  | nil => rfl
  | cons v rest ih =>
    unfold scan_values
    split
    · rfl
    · exact ih

/-- The value of a match entry that matched is the value of one of the
Candidates. -/
theorem scan_values_mem (api : fds_api) (packet : List Nat) (drec : fds_drec)
    (m : tmp_match_t) (vs : List config_value_t) (hm : m.matched = false)
    (h : (scan_values api packet drec m vs).matched = true) :
    ∃ v ∈ vs, (scan_values api packet drec m vs).value = v.value := by
  induction vs with
  | nil =>
    simp only [scan_values] at h
    rw [hm] at h
    exact absurd h (by decide)
  | cons v rest ih =>
    unfold scan_values at h ⊢
    split
    · exact ⟨v, List.mem_cons_self _ _, rfl⟩
    · rename_i hno
      simp only [hno, if_false] at h
      obtain ⟨x, hx, hval⟩ := ih h
      exact ⟨x, List.mem_cons_of_mem _ hx, hval⟩

/-- The number of bytes `add_value` appends for a match entry, by data type. -/
theorem appended_bytes_length (m : tmp_match_t) (e : List Nat)
    (h : appended_bytes m = some e) :
    ((m.data_type = .FDS_ET_STRING ∨ m.data_type = .FDS_ET_OCTET_ARRAY) →
      (m.matched = false ∧ e.length = 1) ∨
      ∃ val, m.matched = true ∧ m.value = some val ∧
        e.length = val.length + if val.length < 255 then 1 else 3) ∧
    (¬(m.data_type = .FDS_ET_STRING ∨ m.data_type = .FDS_ET_OCTET_ARRAY) →
      e.length ≤ size_of_data_type m.data_type ∧
      size_of_data_type m.data_type ≠ UINT16_MAX) := by
  obtain ⟨id, dt, matched, value⟩ := m
  cases dt <;> cases matched <;> cases value <;>
    simp [appended_bytes, add_value, msg_builder_write, strlen, htons, htonl, htobe64,
      size_of_data_type, UINT16_MAX] at h ⊢
  all_goals first
    | (subst h; simp)
    | (split at h <;>
        (rename_i hlen
         obtain ⟨a, ⟨x, hx⟩, ha⟩ := h
         simp only [Option.some.injEq, Prod.mk.injEq] at hx
         obtain ⟨h1, _⟩ := hx
         subst h1
         subst ha
         simp [hlen]
         try omega))

/-- For one Extension, `add_value` appends no more bytes than the Extension
adds to `max_extension_len`, whatever the filters say. -/
theorem appended_le_extension_len (api : fds_api) (packet : List Nat) (drec : fds_drec)
    (ext : config_ids_t) (e : List Nat)
    (h : appended_bytes (compute_match api packet drec ext) = some e) :
    e.length ≤ extension_len ext := by
  have hdt : (compute_match api packet drec ext).data_type = ext.data_type :=
    scan_values_data_type api packet drec _ ext.values
  obtain ⟨hs, hn⟩ := appended_bytes_length _ e h
  rw [hdt] at hs hn
  by_cases hty : ext.data_type = .FDS_ET_STRING ∨ ext.data_type = .FDS_ET_OCTET_ARRAY
  · have hsz : size_of_data_type ext.data_type = UINT16_MAX := by
      rcases hty with h1 | h1 <;> rw [h1] <;> rfl
    simp only [extension_len, hsz, if_true]
    rcases hs hty with ⟨_, hl⟩ | ⟨val, hm, hv, hl⟩
    · rw [hl]
      split <;> omega
    · obtain ⟨v, hvm, hvv⟩ := scan_values_mem api packet drec _ ext.values rfl hm
      have hv2 : v.value = some val := by
        rw [← hvv]
        exact hv
      have hle := le_get_max_len ext v val hvm hv2
      rw [hl]
      split <;> split <;> omega
  · obtain ⟨hl, hsz⟩ := hn hty
    simp only [extension_len, hsz, if_false]
    exact hl

/-- For one record, the bytes `add_value` appends over all Extensions are no
more than the sum of what the Extensions add to `max_extension_len`. -/
theorem appended_total_le (api : fds_api) (packet : List Nat) (drec : fds_drec)
    (ids : List config_ids_t) (encs : List (List Nat))
    (hall : List.Forall₂
      (fun ext e => appended_bytes (compute_match api packet drec ext) = some e) ids encs) :
    encs.flatten.length ≤ (ids.map extension_len).sum := by
  induction hall with
  | nil => simp
  | @cons ext e l1 l2 he _ ih =>
    simp only [List.flatten_cons, List.length_append, List.map_cons, List.sum_cons]
    have := appended_le_extension_len api packet drec ext e he
    omega

/-- C25: for every configuration that `ipx_plugin_init` accepts,
`max_extension_len` is the sum over the Extensions of what each adds to it, and
for every record and every outcome of the filters the bytes `add_value`
appends for an Extension are no more than what that Extension adds, so that
the bytes appended for the record, over all Extensions, are no more than
`max_extension_len`. -/
theorem extension_bound_sound (host : iemgr_api) (CONFIG_IDS_MAX CONFIG_VALUSE_MAX : Nat)
    (params_ctx : Option (List fds_xml_cont)) (pctx : plugin_ctx)
    (h : ipx_plugin_init host CONFIG_IDS_MAX CONFIG_VALUSE_MAX params_ctx
      = some (.IPX_OK, some pctx)) :
    ∃ cfg, pctx.config = some cfg ∧
      cfg.max_extension_len = (cfg.ids.map extension_len).sum ∧
      ∀ (api : fds_api) (packet : List Nat) (drec : fds_drec),
        (∀ ext ∈ cfg.ids, ∀ e,
          appended_bytes (compute_match api packet drec ext) = some e →
          e.length ≤ extension_len ext) ∧
        (∀ encs, List.Forall₂
            (fun ext e => appended_bytes (compute_match api packet drec ext) = some e)
            cfg.ids encs →
          encs.flatten.length ≤ cfg.max_extension_len) := by
  unfold ipx_plugin_init at h
  split at h
  · simp at h
  · simp at h
  · split at h
    · simp at h
    · simp at h
    · rename_i ids hids
      simp only [Option.some.injEq, Prod.mk.injEq, true_and] at h
      subst h
      refine ⟨_, rfl, ?_, ?_⟩
      · show max_extension_len_loop ids 0 = (ids.map extension_len).sum
        rw [max_extension_len_loop_sum, Nat.zero_add]
      · intro api packet drec
        refine ⟨fun ext _ e he => appended_le_extension_len api packet drec ext e he, ?_⟩
        intro encs hall
        show encs.flatten.length ≤ max_extension_len_loop ids 0
        rw [max_extension_len_loop_sum, Nat.zero_add]
        exact appended_total_le api packet drec ids encs hall

/-- Witness of C25: in the configuration of scenario 1 the Extension adds 5
bytes, and the 5 bytes appended for a record that matches (the length byte
and "eth0") are within the bound. -/
theorem extension_bound_sound_witness :
    ∃ cfg, sample_init_ctx.config = some cfg ∧
      cfg.max_extension_len = (cfg.ids.map extension_len).sum ∧
      ∀ (api : fds_api) (packet : List Nat) (drec : fds_drec),
        (∀ ext ∈ cfg.ids, ∀ e,
          appended_bytes (compute_match api packet drec ext) = some e →
          e.length ≤ extension_len ext) ∧
        (∀ encs, List.Forall₂
            (fun ext e => appended_bytes (compute_match api packet drec ext) = some e)
            cfg.ids encs →
          encs.flatten.length ≤ cfg.max_extension_len) :=
  extension_bound_sound sample_host 16 16 sample_params sample_init_ctx (by decide)


/-! ## One input Data Set, one output Data Set -/

theorem getD_encodings (f : config_ids_t → Option (List Nat)) (ids : List config_ids_t)
    (encs : List (List Nat)) (h : List.Forall₂ (fun ext e => f ext = some e) ids encs) :
    ids.map (fun ext => (f ext).getD []) = encs := by
  induction h with
  | nil => rfl
  | @cons ext e l1 l2 he _ ih =>
    simp only [List.map_cons, he, Option.getD_some, ih]

theorem extension_bytes_eq (api : fds_api) (cfg : config) (packet : List Nat) (drec : fds_drec)
    (encs : List (List Nat))
    (h : List.Forall₂
      (fun ext e => appended_bytes (compute_match api packet drec ext) = some e) cfg.ids encs) :
    extension_bytes api cfg packet drec = encs.flatten := by
  unfold extension_bytes
  rw [getD_encodings _ _ _ h]

/-- One pass of the record loop in closed form, for a configuration without
`NULL` values: the set-boundary block, then the record reference, the bytes
of the record and the bytes of its Extensions. -/
theorem process_record_closed (api : fds_api) (cfg : config) (packet : List Nat)
    (p : plugin_ctx) (b : msg_builder_s) (cur : Nat) (record : ipx_ipfix_record)
    (t : fds_template) (p1 : plugin_ctx) (b1 : msg_builder_s)
    (hres : get_or_create_extended_template api p record.drec.tmplt b cfg.ids
      = some (some t, p1, b1))
    (hval : ∀ ext ∈ cfg.ids, ∀ v ∈ ext.values, v.value ≠ none)
    (hsz : record.drec.size < 65536) :
    process_record api cfg packet p b cur record
      = some (.next p1
          (spec_write_records api cfg packet t [record]
            { (manage_set_boundaries b1 cur t.id).2.1 with msg := b.msg })
          (manage_set_boundaries b1 cur t.id).2.2) := by
  obtain ⟨encs, henc⟩ := encodings_exist api packet record.drec cfg.ids hval
  rw [process_record_eq api cfg packet p b cur record t p1 b1 encs hres henc hsz]
  simp only [spec_write_records, extension_bytes_eq api cfg packet record.drec encs henc]

/-- The record loop of a Data Set once the Template of its records is in the
cache and the output Data Set of the extended Template is open: the records
that belong to the set are written one after the other, and the loop breaks
at the first record that does not belong to it. -/
theorem dset_loop_cached (api : fds_api) (cfg : config) (packet : List Nat)
    (set : ipx_ipfix_set) (T : fds_template) (node : template_node) (p : plugin_ctx)
    (run rest : List ipx_ipfix_record) (b : msg_builder_s)
    (hfind : p.templates.find? (fun n => n.old_id == T.id) = some node)
    (hrun : ∀ r ∈ run, record_belongs_to_set packet set r.drec = true ∧ r.drec.tmplt = T ∧
      r.drec.size < 65536)
    (hrest : ∀ r, rest.head? = some r → record_belongs_to_set packet set r.drec = false)
    (hval : ∀ ext ∈ cfg.ids, ∀ v ∈ ext.values, v.value ≠ none) :
    dset_loop api cfg packet set (run ++ rest) p b node.new_tmplt.id
      = some (.done p (spec_write_records api cfg packet node.new_tmplt run b)
          node.new_tmplt.id rest) := by
  induction run generalizing b with
  | nil =>
    cases rest with
    | nil => rfl
    | cons r rs =>
      have := hrest r rfl
      simp [dset_loop, spec_write_records, this]
  | cons r rs ih =>
    obtain ⟨hbel, htm, hsz⟩ := hrun r (List.mem_cons_self _ _)
    have hres := get_or_create_hit api p r.drec.tmplt b cfg.ids node (by rw [htm]; exact hfind)
    have hrec := process_record_closed api cfg packet p b node.new_tmplt.id r node.new_tmplt p b
      hres hval hsz
    have hmsb : manage_set_boundaries b node.new_tmplt.id node.new_tmplt.id
        = (.IPX_OK, b, node.new_tmplt.id) := by
      rw [manage_set_boundaries_eq, if_pos rfl]
    rw [hmsb] at hrec
    simp only [List.cons_append, dset_loop, hbel, Bool.not_true, Bool.false_eq_true, if_false,
      hrec]
    exact ih _ (fun x hx => hrun x (List.mem_cons_of_mem _ hx))

/-- C22: an input Data Set whose records (at least one) are described by one
Template that resolves to the extended Template `t`: the record loop opens
one output Data Set with `flowset_id = t.id` behind what the resolution of the
Template left in the builder, writes the records of the set into it one after
the other in input order, and breaks at the first record that does not belong
to the set; the loop over the sets then closes that Data Set once and goes on
to the next set. For an input Data Set without records the builder is left as
it is: no Data Set is opened or closed. -/
theorem one_output_data_set (api : fds_api) (cfg : config) (packet : List Nat)
    (set : ipx_ipfix_set) (sets : List ipx_ipfix_set)
    (hds : ¬ ntohs_at packet set.ptr < 256)
    (hval : ∀ ext ∈ cfg.ids, ∀ v ∈ ext.values, v.value ≠ none) :
    (∀ (run rest : List ipx_ipfix_record) (p : plugin_ctx) (b : msg_builder_s)
        (T t : fds_template) (p1 : plugin_ctx) (b1 : msg_builder_s),
      run ≠ [] →
      (∀ r ∈ run, record_belongs_to_set packet set r.drec = true ∧ r.drec.tmplt = T ∧
        r.drec.size < 65536) →
      (∀ r, rest.head? = some r → record_belongs_to_set packet set r.drec = false) →
      get_or_create_extended_template api p T b cfg.ids = some (some t, p1, b1) →
      t.id ≠ 0 →
      dset_loop api cfg packet set (run ++ rest) p b 0
        = some (.done p1
            (spec_write_records api cfg packet t run (msg_builder_begin_dset b1 t.id))
            t.id rest) ∧
      sets_loop api cfg packet (set :: sets) (run ++ rest) p b
        = sets_loop api cfg packet sets rest p1
            (msg_builder_end_dset
              (spec_write_records api cfg packet t run (msg_builder_begin_dset b1 t.id))).2) ∧
    (∀ (recs : List ipx_ipfix_record) (p : plugin_ctx) (b : msg_builder_s),
      (∀ r, recs.head? = some r → record_belongs_to_set packet set r.drec = false) →
      dset_loop api cfg packet set recs p b 0 = some (.done p b 0 recs) ∧
      sets_loop api cfg packet (set :: sets) recs p b = sets_loop api cfg packet sets recs p b) := by
  have hfs : ¬ ntohs_at packet set.ptr < FDS_IPFIX_SET_MIN_DSET := hds
  constructor
  · intro run rest p b T t p1 b1 hne hrun hrest hres hid
    have hmsg := get_or_create_msg api p T b cfg.ids _ p1 b1 hres
    have heq : ({ msg_builder_begin_dset b1 t.id with msg := b.msg } : msg_builder_s)
        = msg_builder_begin_dset b1 t.id := by
      simp only [msg_builder_begin_dset, hmsg]
    have hd : dset_loop api cfg packet set (run ++ rest) p b 0
        = some (.done p1
            (spec_write_records api cfg packet t run
              { msg_builder_begin_dset b1 t.id with msg := b.msg }) t.id rest) := by
      cases run with
      | nil => exact absurd rfl hne
      | cons r rs =>
        obtain ⟨hbel, htm, hsz⟩ := hrun r (List.mem_cons_self _ _)
        have hrec := process_record_closed api cfg packet p b 0 r t p1 b1
          (by rw [htm]; exact hres) hval hsz
        have hmsb : manage_set_boundaries b1 0 t.id
            = (.IPX_OK, msg_builder_begin_dset b1 t.id, t.id) := by
          rw [manage_set_boundaries_eq, if_neg hid, if_pos rfl]
        rw [hmsb] at hrec
        obtain ⟨node, hfind, hnode⟩ := get_or_create_some_cached api p T b cfg.ids t p1 b1 hres
        subst hnode
        have hrest2 := dset_loop_cached api cfg packet set T node p1 rs rest
          (spec_write_records api cfg packet node.new_tmplt [r]
            { msg_builder_begin_dset b1 node.new_tmplt.id with msg := b.msg })
          hfind (fun x hx => hrun x (List.mem_cons_of_mem _ hx)) hrest hval
        simp only [List.cons_append, dset_loop, hbel, Bool.not_true, Bool.false_eq_true,
          if_false, hrec]
        exact hrest2
    rw [heq] at hd
    refine ⟨hd, ?_⟩
    simp only [sets_loop, hfs, if_false, hd, hid, ne_eq, not_false_eq_true, if_true,
      msg_builder_end_dset_ok, not_true_eq_false]
  · intro recs p b hrecs
    have hd : dset_loop api cfg packet set recs p b 0 = some (.done p b 0 recs) := by
      cases recs with
      | nil => rfl
      | cons r rs =>
        have := hrecs r rfl
        simp [dset_loop, this]
    refine ⟨hd, ?_⟩
    simp only [sets_loop, hfs, if_false, hd, ne_eq, not_true_eq_false]

/-- Witness of C22: the two records of the Data Set of `pair_msg`, both under
Template 256, go into one output Data Set 40000 that is opened behind the
Template Set of Template 40000 and closed once. -/
theorem one_output_data_set_witness :
    dset_loop sample_api sample_cfg pair_msg.packet ⟨16⟩ (pair_msg.recs ++ []) sample_init_ctx
        ⟨[], pair_msg.packet.take 16, none⟩ 0
      = some (.done sample_ctx
          (spec_write_records sample_api sample_cfg pair_msg.packet
            ⟨.FDS_TYPE_TEMPLATE, 40000, [156, 64, 0, 2, 0, 8, 0, 4, 0, 82, 255, 255]⟩
            pair_msg.recs
            (msg_builder_begin_dset
              ⟨[], pair_msg.packet.take 16
                ++ [0, 2, 0, 16, 156, 64, 0, 2, 0, 8, 0, 4, 0, 82, 255, 255], none⟩ 40000))
          40000 []) ∧
    sets_loop sample_api sample_cfg pair_msg.packet (⟨16⟩ :: []) (pair_msg.recs ++ [])
        sample_init_ctx ⟨[], pair_msg.packet.take 16, none⟩
      = sets_loop sample_api sample_cfg pair_msg.packet [] [] sample_ctx
          (msg_builder_end_dset
            (spec_write_records sample_api sample_cfg pair_msg.packet
              ⟨.FDS_TYPE_TEMPLATE, 40000, [156, 64, 0, 2, 0, 8, 0, 4, 0, 82, 255, 255]⟩
              pair_msg.recs
              (msg_builder_begin_dset
                ⟨[], pair_msg.packet.take 16
                  ++ [0, 2, 0, 16, 156, 64, 0, 2, 0, 8, 0, 4, 0, 82, 255, 255], none⟩ 40000))).2 :=
  (one_output_data_set sample_api sample_cfg pair_msg.packet ⟨16⟩ [] (by decide)
    (by decide)).1 pair_msg.recs [] sample_init_ctx ⟨[], pair_msg.packet.take 16, none⟩
    sample_tmplt ⟨.FDS_TYPE_TEMPLATE, 40000, [156, 64, 0, 2, 0, 8, 0, 4, 0, 82, 255, 255]⟩
    sample_ctx
    ⟨[], pair_msg.packet.take 16 ++ [0, 2, 0, 16, 156, 64, 0, 2, 0, 8, 0, 4, 0, 82, 255, 255],
      none⟩
    (by decide) (by decide) (by simp) (by decide) (by decide)


/-! ## Where a new Template Set is written -/

/-- A call of `get_or_create_extended_template` that finds no cache entry and
returns a template has written the Template Set of that template at the end
of the buffer, and the template is one the parser returned. -/
theorem get_or_create_new (api : fds_api) (p : plugin_ctx) (T : fds_template)
    (b : msg_builder_s) (ext : List config_ids_t) (t : fds_template)
    (p1 : plugin_ctx) (b1 : msg_builder_s)
    (hmiss : p.templates.find? (fun n => n.old_id == T.id) = none)
    (h : get_or_create_extended_template api p T b ext = some (some t, p1, b1)) :
    (∃ L pad, b1.buffer = b.buffer ++ (htons 2 ++ htons L ++ t.raw ++ pad)) ∧
    b1.dset_open = b.dset_open ∧ (∃ buf, api.fds_template_parse buf = some t) := by
  unfold get_or_create_extended_template at h
  rw [hmiss] at h
  dsimp only at h
  split at h
  · simp at h
  · split at h
    · simp at h
    · split at h
      · simp at h
      · split at h
        · simp at h
        · rename_i nt hparse
          split at h
          · simp at h
          · simp only [Option.some.injEq, Prod.mk.injEq] at h
            obtain ⟨h1, h2, h3⟩ := h
            subst h1 h2 h3
            refine ⟨⟨_, _, write_template_set_buffer _ _ _⟩, ?_, _, hparse⟩
            unfold write_template_set
            dsimp only
            split_ifs <;> rfl

/-- Function `get_or_create_extended_template` puts no Template ID 0 into the
cache, and returns none, when the parser returns none. -/
theorem get_or_create_ids (api : fds_api) (p : plugin_ctx) (T : fds_template)
    (b : msg_builder_s) (ext : List config_ids_t) (r : Option fds_template)
    (p1 : plugin_ctx) (b1 : msg_builder_s)
    (hparse : ∀ buf nt, api.fds_template_parse buf = some nt → nt.id ≠ 0)
    (hp : CacheIdsNonzero p)
    (h : get_or_create_extended_template api p T b ext = some (r, p1, b1)) :
    CacheIdsNonzero p1 ∧ ∀ t, r = some t → t.id ≠ 0 := by
  cases hfind : p.templates.find? (fun n => n.old_id == T.id) with
  | some node =>
    rw [get_or_create_hit api p T b ext node hfind] at h
    simp only [Option.some.injEq, Prod.mk.injEq] at h
    obtain ⟨h1, h2, _⟩ := h
    subst h1 h2
    refine ⟨hp, fun t ht => ?_⟩
    simp only [Option.some.injEq] at ht
    subst ht
    exact hp node (List.mem_of_find?_eq_some hfind)
  | none =>
    rcases get_or_create_cases api p T b ext r p1 b1 h with ⟨_, hc, hn⟩ |
      ⟨nt, L, pad, node, hr, hnt, hc, _, _, _⟩
    · refine ⟨fun n hn2 => hp n (by rw [← hc]; exact hn2), fun t ht => ?_⟩
      obtain ⟨node, hmem, hnode⟩ := hn t ht
      rw [← hnode]
      exact hp node hmem
    · subst hr
      obtain ⟨_, _, buf, hb⟩ := get_or_create_new api p T b ext nt p1 b1 hfind h
      have hid := hparse buf nt hb
      refine ⟨fun n hn2 => ?_, fun t ht => ?_⟩
      · rw [hc] at hn2
        rcases List.mem_cons.mp hn2 with he | he
        · rw [he, hnt]
          exact hid
        · exact hp n he
      · simp only [Option.some.injEq] at ht
        rw [← ht]
        exact hid

/-- An invariant of the passes of the record loop that may speak of
`current_set_id` holds when the record loop of a Data Set breaks; the records
not yet consumed are among those the loop started with. -/
theorem dset_loop_inv_cur (I : plugin_ctx → msg_builder_s → Nat → Prop)
    (R : ipx_ipfix_record → Prop)
    (api : fds_api) (cfg : config) (packet : List Nat) (set : ipx_ipfix_set)
    (hrec : ∀ p b cur record p1 b1 cur1, R record →
      record_belongs_to_set packet set record.drec = true → I p b cur →
      process_record api cfg packet p b cur record = some (.next p1 b1 cur1) → I p1 b1 cur1)
    (recs : List ipx_ipfix_record) (p : plugin_ctx) (b : msg_builder_s) (cur : Nat)
    (p1 : plugin_ctx) (b1 : msg_builder_s) (cur1 : Nat) (rest : List ipx_ipfix_record)
    (hR : ∀ r ∈ recs, R r) (hI : I p b cur)
    (h : dset_loop api cfg packet set recs p b cur = some (.done p1 b1 cur1 rest)) :
    I p1 b1 cur1 ∧ ∀ r ∈ rest, R r := by
  induction recs generalizing p b cur with
  | nil =>
    simp only [dset_loop, Option.some.injEq, dset_result.done.injEq] at h
    obtain ⟨h1, h2, h3, h4⟩ := h
    subst h1 h2 h3 h4
    exact ⟨hI, hR⟩
  | cons record recs ih =>
    unfold dset_loop at h
    split at h
    · simp only [Option.some.injEq, dset_result.done.injEq] at h
      obtain ⟨h1, h2, h3, h4⟩ := h
      subst h1 h2 h3 h4
      exact ⟨hI, hR⟩
    · rename_i hbel
      split at h
      · simp at h
      · simp at h
      · rename_i p2 b2 cur2 hstep
        exact ih p2 b2 cur2 (fun r hr => hR r (List.mem_cons_of_mem _ hr))
          (hrec p b cur record p2 b2 cur2 (hR record (List.mem_cons_self _ _))
            (by simpa using hbel) hI hstep) h

/-- A pass of the record loop keeps the invariant `InDset` and leaves a
`current_set_id` that is not 0. -/
theorem InDset_process_record (api : fds_api) (cfg : config) (packet : List Nat)
    (set : ipx_ipfix_set) (recs : List ipx_ipfix_record)
    (hparse : ∀ buf nt, api.fds_template_parse buf = some nt → nt.id ≠ 0)
    (hsame : ∀ r1 ∈ recs, ∀ r2 ∈ recs, record_belongs_to_set packet set r1.drec = true →
      record_belongs_to_set packet set r2.drec = true → r1.drec.tmplt = r2.drec.tmplt)
    (p : plugin_ctx) (b : msg_builder_s) (cur : Nat) (record : ipx_ipfix_record)
    (p1 : plugin_ctx) (b1 : msg_builder_s) (cur1 : Nat)
    (hmem : record ∈ recs) (hbel : record_belongs_to_set packet set record.drec = true)
    (hI : InDset packet set recs p b cur)
    (h : process_record api cfg packet p b cur record = some (.next p1 b1 cur1)) :
    InDset packet set recs p1 b1 cur1 ∧ cur1 ≠ 0 := by
  obtain ⟨hf, hids, _, _⟩ := hI
  have hf1 := Framed_process_record api cfg packet p b cur record p1 b1 cur1 hf h
  obtain ⟨t, b0, e, sz, hres, hcur, _, _, _⟩ :=
    process_record_next api cfg packet p b cur record p1 b1 cur1 h
  obtain ⟨hids1, hid⟩ := get_or_create_ids api p _ b cfg.ids _ p1 b0 hparse hids hres
  have htid := hid t rfl
  have hcur1 : cur1 ≠ 0 := by
    rw [hcur, manage_set_boundaries_eq]
    split
    · rename_i heq
      rw [← heq]
      exact htid
    · split <;> exact htid
  refine ⟨⟨hf1, hids1, fun h0 => absurd h0 hcur1, fun _ r hr hrb => ?_⟩, hcur1⟩
  obtain ⟨node, hfind, _⟩ := get_or_create_some_cached api p _ b cfg.ids t p1 b0 hres
  rw [hsame r hr record hmem hrb hbel, hfind]
  rfl


theorem DsetPass_inv (api : fds_api) (cfg : config) (packet : List Nat) (set : ipx_ipfix_set)
    (all : List ipx_ipfix_record)
    (hparse : ∀ buf nt, api.fds_template_parse buf = some nt → nt.id ≠ 0)
    (hsame : ∀ r1 ∈ all, ∀ r2 ∈ all, record_belongs_to_set packet set r1.drec = true →
      record_belongs_to_set packet set r2.drec = true → r1.drec.tmplt = r2.drec.tmplt)
    (recs : List ipx_ipfix_record) (p : plugin_ctx) (b : msg_builder_s) (cur : Nat)
    (p2 : plugin_ctx) (b2 : msg_builder_s) (cur2 : Nat) (r : ipx_ipfix_record)
    (hpass : DsetPass api cfg packet set recs p b cur p2 b2 cur2 r)
    (hR : ∀ x ∈ recs, x ∈ all) (hI : InDset packet set all p b cur) :
    InDset packet set all p2 b2 cur2 ∧ r ∈ all ∧
      record_belongs_to_set packet set r.drec = true ∧
      ∀ o bytes, Keeps o bytes b → Keeps o bytes b2 := by
  induction hpass with
  | here record rest p b cur hbel =>
    exact ⟨hI, hR record (List.mem_cons_self _ _), hbel, fun _ _ hk => hk⟩
  | later record rest p b cur p1 b1 cur1 p2 b2 cur2 r hbel hstep _ ih =>
    have hI1 := (InDset_process_record api cfg packet set all hparse hsame p b cur record
      p1 b1 cur1 (hR record (List.mem_cons_self _ _)) hbel hI hstep).1
    obtain ⟨h1, h2, h3, h4⟩ := ih (fun x hx => hR x (List.mem_cons_of_mem _ hx)) hI1
    exact ⟨h1, h2, h3, fun o bytes hk => h4 o bytes
      (Keeps_process_record o bytes api cfg packet p b cur record p1 b1 cur1 hk hstep)⟩

/-- When the record loop of a Data Set has run and the loop over the sets
has closed the Data Set it left open, no Data Set is open. -/
theorem dset_loop_closed (api : fds_api) (cfg : config) (packet : List Nat)
    (set : ipx_ipfix_set) (all : List ipx_ipfix_record)
    (hparse : ∀ buf nt, api.fds_template_parse buf = some nt → nt.id ≠ 0)
    (hsame : ∀ r1 ∈ all, ∀ r2 ∈ all, record_belongs_to_set packet set r1.drec = true →
      record_belongs_to_set packet set r2.drec = true → r1.drec.tmplt = r2.drec.tmplt)
    (recs : List ipx_ipfix_record) (p : plugin_ctx) (b : msg_builder_s)
    (p1 : plugin_ctx) (b1 : msg_builder_s) (cur1 : Nat) (rest : List ipx_ipfix_record)
    (hR : ∀ x ∈ recs, x ∈ all) (hf : Framed b) (hids : CacheIdsNonzero p)
    (hopen : b.dset_open = none)
    (h : dset_loop api cfg packet set recs p b 0 = some (.done p1 b1 cur1 rest)) :
    Framed (if cur1 ≠ 0 then msg_builder_end_dset b1 else (.IPX_OK, b1)).2 ∧
    CacheIdsNonzero p1 ∧
    (if cur1 ≠ 0 then msg_builder_end_dset b1 else (.IPX_OK, b1)).2.dset_open = none ∧
    (∀ x ∈ rest, x ∈ all) ∧
    ∀ o bytes, Keeps o bytes b →
      Keeps o bytes (if cur1 ≠ 0 then msg_builder_end_dset b1 else (.IPX_OK, b1)).2 := by
  obtain ⟨⟨⟨hf1, hids1, hz, _⟩, hk⟩, hrest⟩ := dset_loop_inv_cur
    (fun p' b' cur' => InDset packet set all p' b' cur' ∧
      ∀ o bytes, Keeps o bytes b → Keeps o bytes b')
    (fun x => x ∈ all) api cfg packet set
    (fun p0 b0 cur0 record p3 b3 cur3 hmem hbel hI hstep =>
      ⟨(InDset_process_record api cfg packet set all hparse hsame p0 b0 cur0 record p3 b3 cur3
          hmem hbel hI.1 hstep).1,
        fun o bytes hk0 => Keeps_process_record o bytes api cfg packet p0 b0 cur0 record
          p3 b3 cur3 (hI.2 o bytes hk0) hstep⟩)
    recs p b 0 p1 b1 cur1 rest hR
    ⟨⟨hf, hids, fun _ => hopen, fun h0 => absurd rfl h0⟩, fun _ _ hk0 => hk0⟩ h
  by_cases hc : cur1 ≠ 0
  · simp only [hc, if_true, ne_eq, not_false_eq_true]
    exact ⟨Framed_end_dset b1 hf1, hids1, msg_builder_end_dset_closed b1, hrest,
      fun o bytes hk0 => Keeps_end_dset o bytes b1 (hk o bytes hk0)⟩
  · have hc0 : cur1 = 0 := by simpa using hc
    simp only [hc0, ne_eq, not_true_eq_false, if_false]
    exact ⟨hf1, hids1, hz hc0, hrest, hk⟩

theorem Pass_inv (api : fds_api) (cfg : config) (packet : List Nat)
    (allsets : List ipx_ipfix_set) (all : List ipx_ipfix_record)
    (hparse : ∀ buf nt, api.fds_template_parse buf = some nt → nt.id ≠ 0)
    (hsame : ∀ set ∈ allsets, ∀ r1 ∈ all, ∀ r2 ∈ all,
      record_belongs_to_set packet set r1.drec = true →
      record_belongs_to_set packet set r2.drec = true → r1.drec.tmplt = r2.drec.tmplt)
    (sets : List ipx_ipfix_set) (recs : List ipx_ipfix_record) (p : plugin_ctx)
    (b : msg_builder_s) (before : List ipx_ipfix_set) (p2 : plugin_ctx) (b2 : msg_builder_s)
    (cur : Nat) (r : ipx_ipfix_record)
    (hpass : Pass api cfg packet sets recs p b before p2 b2 cur r)
    (hS : ∀ s ∈ sets, s ∈ allsets) (hR : ∀ x ∈ recs, x ∈ all)
    (hf : Framed b) (hids : CacheIdsNonzero p) (hopen : b.dset_open = none) :
    (∃ set ∈ allsets, InDset packet set all p2 b2 cur ∧ r ∈ all ∧
      record_belongs_to_set packet set r.drec = true) ∧
    (∀ o bytes, Keeps o bytes b → Keeps o bytes b2) ∧
    ∀ s ∈ before, ntohs_at packet s.ptr < FDS_IPFIX_SET_MIN_DSET →
      mem_read packet s.ptr (ntohs_at packet (s.ptr + 2)) ≠ [] →
      ∃ o, Keeps o (mem_read packet s.ptr (ntohs_at packet (s.ptr + 2))) b2 := by
  induction hpass with
  | in_dset set sets recs p b p2 b2 cur r hds hd =>
    have hset := hS set (List.mem_cons_self _ _)
    obtain ⟨h1, h2, h3, h4⟩ := DsetPass_inv api cfg packet set all hparse (hsame set hset)
      recs p b 0 p2 b2 cur r hd hR ⟨hf, hids, fun _ => hopen, fun h0 => absurd rfl h0⟩
    exact ⟨⟨set, hset, h1, h2, h3⟩, h4, fun s hs => by simp at hs⟩
  | after_copy set sets recs p b before p2 b2 cur r hnd _ ih =>
    have hbuf : (msg_builder_copy_set b packet set).2.buffer
        = b.buffer ++ (mem_read packet set.ptr (ntohs_at packet (set.ptr + 2)) ++ []) := by
      simp only [msg_builder_copy_set, msg_builder_write, mem_read, List.append_nil]
    obtain ⟨h1, h2, h3⟩ := ih (fun s hs => hS s (List.mem_cons_of_mem _ hs)) hR
      (Framed_append b _ _ hbuf rfl hf) hids hopen
    refine ⟨h1, fun o bytes hk => h2 o bytes (Keeps_write o bytes b _ _ hk), ?_⟩
    intro s hs hlt hne
    rcases List.mem_cons.mp hs with he | he
    · subst he
      exact ⟨_, h2 _ _ (Keeps_appended b _ _ [] hne hbuf rfl hf)⟩
    · exact h3 s he hlt hne
  | after_dset set sets recs p b p1 b1 cur1 rest before p2 b2 cur r hds hd _ ih =>
    have hset := hS set (List.mem_cons_self _ _)
    obtain ⟨hf1, hids1, hopen1, hrest, hk1⟩ := dset_loop_closed api cfg packet set all hparse
      (hsame set hset) recs p b p1 b1 cur1 rest hR hf hids hopen hd
    obtain ⟨h1, h2, h3⟩ := ih (fun s hs => hS s (List.mem_cons_of_mem _ hs)) hrest
      hf1 hids1 hopen1
    refine ⟨h1, fun o bytes hk => h2 o bytes (hk1 o bytes hk), ?_⟩
    intro s hs hlt hne
    rcases List.mem_cons.mp hs with he | he
    · subst he
      exact absurd hlt hds
    · exact h3 s he hlt hne

/-- The case of one Template per Data Set: for every input message with a
complete header whose Data Sets each hold records of one Template, processed with a parser that returns no
Template ID 0 and a cache without Template ID 0: whenever a pass of the
record loop derives a new extended Template `t` (the cache has no entry for
the Template of the record, and `get_or_create_extended_template` returns
`t`), no output Data Set is open at that moment; the Template Set of `t` is
appended to what the builder holds; the set-boundary block that follows only
opens the Data Set `t.id`, so that the header of the first Data Set that uses
`t` comes right behind the Template Set; and every set with an ID below 256
in front of that Data Set in the input stands in the buffer in front of the
Template Set. -/
theorem shared_template_set_before_data_set (api : fds_api) (cfg : config) (p : plugin_ctx)
    (msg : ipx_msg_ipfix)
    (hhdr : 16 ≤ msg.packet.length) (hsame : SetsShareTemplate msg)
    (hparse : ∀ buf nt, api.fds_template_parse buf = some nt → nt.id ≠ 0)
    (hcache : CacheIdsNonzero p)
    (before : List ipx_ipfix_set) (p2 : plugin_ctx) (b2 : msg_builder_s) (cur : Nat)
    (record : ipx_ipfix_record) (t : fds_template) (p3 : plugin_ctx) (b3 : msg_builder_s)
    (hpass : Pass api cfg msg.packet msg.sets msg.recs p ⟨[], msg.packet.take 16, none⟩
      before p2 b2 cur record)
    (hmiss : p2.templates.find? (fun n => n.old_id == record.drec.tmplt.id) = none)
    (hres : get_or_create_extended_template api p2 record.drec.tmplt b2 cfg.ids
      = some (some t, p3, b3)) :
    b2.dset_open = none ∧
    (∃ L pad, b3.buffer = b2.buffer ++ (htons 2 ++ htons L ++ t.raw ++ pad)) ∧
    manage_set_boundaries b3 cur t.id = (.IPX_OK, msg_builder_begin_dset b3 t.id, t.id) ∧
    ∀ s ∈ before, ntohs_at msg.packet s.ptr < FDS_IPFIX_SET_MIN_DSET →
      ∃ o, o + (mem_read msg.packet s.ptr (ntohs_at msg.packet (s.ptr + 2))).length
          ≤ b2.buffer.length ∧
        mem_read b3.buffer o (mem_read msg.packet s.ptr (ntohs_at msg.packet (s.ptr + 2))).length
          = mem_read msg.packet s.ptr (ntohs_at msg.packet (s.ptr + 2)) := by
  have hf0 : Framed ⟨[], msg.packet.take 16, none⟩ := by
    refine ⟨?_, fun id s hs => by simp at hs⟩
    show 4 ≤ (msg.packet.take 16).length
    rw [List.length_take]
    omega
  obtain ⟨⟨set, _, ⟨hf2, hids2, hz, hc⟩, hmem, hbel⟩, _, hbefore⟩ :=
    Pass_inv api cfg msg.packet msg.sets msg.recs hparse hsame msg.sets msg.recs p _ before
      p2 b2 cur record hpass (fun _ hs => hs) (fun _ hx => hx) hf0 hcache rfl
  have hcur : cur = 0 := by
    by_contra hne
    have := hc hne record hmem hbel
    rw [hmiss] at this
    exact absurd this (by decide)
  obtain ⟨⟨L, pad, hbuf⟩, hopen, _⟩ :=
    get_or_create_new api p2 _ b2 cfg.ids t p3 b3 hmiss hres
  have htid := (get_or_create_ids api p2 _ b2 cfg.ids _ p3 b3 hparse hids2 hres).2 t rfl
  refine ⟨hz hcur, ⟨L, pad, hbuf⟩, ?_, ?_⟩
  · rw [hcur, manage_set_boundaries_eq, if_neg htid, if_pos rfl]
  · intro s hs hlt
    by_cases hne : mem_read msg.packet s.ptr (ntohs_at msg.packet (s.ptr + 2)) = []
    · rw [hne]
      exact ⟨0, Nat.zero_le _, by simp [mem_read]⟩
    · obtain ⟨o, hk⟩ := hbefore s hs hlt hne
      exact ⟨o, Keeps_bound _ _ _ hk, (Keeps_append _ _ b2 b3 _ hbuf hopen hk).2.2.1⟩


theorem sample_parse_id (buf : List Nat) (nt : fds_template)
    (h : sample_api.fds_template_parse buf = some nt) : nt.id ≠ 0 := by
  simp only [sample_api, sample_parse] at h
  split at h
  · simp at h
  · rename_i hc
    split at h
    · simp at h
    · simp only [Option.some.injEq] at h
      subst h
      simp only [not_or, not_lt] at hc
      show ntohs_at buf 0 ≠ 0
      omega

/-- An instance of the case of one Template per Data Set: in `sample_msg` the
record of the Data Set is reached with the Template Set of the input copied
and no Data Set open; the Template Set of Template 40000 is appended at
offset 28, behind the copied set, and the Data Set 40000 is opened right
behind it. -/
theorem shared_template_set_before_data_set_witness :
    (msg_builder_copy_set ⟨[], sample_msg.packet.take 16, none⟩ sample_msg.packet ⟨16⟩).2.dset_open
      = none ∧
    (∃ L pad, (⟨[], sample_msg.packet.take 28
          ++ [0, 2, 0, 16, 156, 64, 0, 2, 0, 8, 0, 4, 0, 82, 255, 255], none⟩ : msg_builder_s).buffer
        = (msg_builder_copy_set ⟨[], sample_msg.packet.take 16, none⟩ sample_msg.packet
            ⟨16⟩).2.buffer
          ++ (htons 2 ++ htons L ++ [156, 64, 0, 2, 0, 8, 0, 4, 0, 82, 255, 255] ++ pad)) ∧
    manage_set_boundaries ⟨[], sample_msg.packet.take 28
          ++ [0, 2, 0, 16, 156, 64, 0, 2, 0, 8, 0, 4, 0, 82, 255, 255], none⟩ 0 40000
      = (.IPX_OK, msg_builder_begin_dset ⟨[], sample_msg.packet.take 28
          ++ [0, 2, 0, 16, 156, 64, 0, 2, 0, 8, 0, 4, 0, 82, 255, 255], none⟩ 40000, 40000) ∧
    ∀ s ∈ [(⟨16⟩ : ipx_ipfix_set)], ntohs_at sample_msg.packet s.ptr < FDS_IPFIX_SET_MIN_DSET →
      ∃ o, o + (mem_read sample_msg.packet s.ptr (ntohs_at sample_msg.packet (s.ptr + 2))).length
          ≤ (msg_builder_copy_set ⟨[], sample_msg.packet.take 16, none⟩ sample_msg.packet
              ⟨16⟩).2.buffer.length ∧
        mem_read (⟨[], sample_msg.packet.take 28
            ++ [0, 2, 0, 16, 156, 64, 0, 2, 0, 8, 0, 4, 0, 82, 255, 255], none⟩ : msg_builder_s).buffer
            o (mem_read sample_msg.packet s.ptr (ntohs_at sample_msg.packet (s.ptr + 2))).length
          = mem_read sample_msg.packet s.ptr (ntohs_at sample_msg.packet (s.ptr + 2)) :=
  shared_template_set_before_data_set sample_api sample_cfg sample_init_ctx sample_msg (by decide)
    (fun set _ r1 h1 r2 h2 _ _ => by
      simp only [sample_msg, List.mem_singleton] at h1 h2
      rw [h1, h2])
    sample_parse_id (fun node hn => by simp [sample_init_ctx] at hn)
    [⟨16⟩] sample_init_ctx
    (msg_builder_copy_set ⟨[], sample_msg.packet.take 16, none⟩ sample_msg.packet ⟨16⟩).2 0
    ⟨⟨32, 4, sample_tmplt⟩⟩
    ⟨.FDS_TYPE_TEMPLATE, 40000, [156, 64, 0, 2, 0, 8, 0, 4, 0, 82, 255, 255]⟩ sample_ctx
    ⟨[], sample_msg.packet.take 28
      ++ [0, 2, 0, 16, 156, 64, 0, 2, 0, 8, 0, 4, 0, 82, 255, 255], none⟩
    (Pass.after_copy ⟨16⟩ [⟨28⟩] _ _ _ [] _ _ 0 _ (by decide)
      (Pass.in_dset ⟨28⟩ [] _ _ _ _ _ 0 _ (by decide)
        (DsetPass.here ⟨⟨32, 4, sample_tmplt⟩⟩ [] _ _ 0 (by decide))))
    (by decide) (by decide)

/-! ## A Data Set with records of two Templates -/

/-- The passes of `DsetPass` are passes of `dset_loop`: when the record loop
comes to the record `r` with `p2`, `b2` and `cur2`, what `dset_loop` returns
is what it returns continued at `r`. -/
theorem DsetPass_dset_loop (api : fds_api) (cfg : config) (packet : List Nat)
    (set : ipx_ipfix_set) (recs : List ipx_ipfix_record) (p : plugin_ctx) (b : msg_builder_s)
    (cur : Nat) (p2 : plugin_ctx) (b2 : msg_builder_s) (cur2 : Nat) (r : ipx_ipfix_record)
    (hpass : DsetPass api cfg packet set recs p b cur p2 b2 cur2 r) :
    record_belongs_to_set packet set r.drec = true ∧
    ∃ rest, dset_loop api cfg packet set recs p b cur
      = dset_loop api cfg packet set (r :: rest) p2 b2 cur2 := by
  induction hpass with
  | here record rest p b cur hbel => exact ⟨hbel, rest, rfl⟩
  | later record rest p b cur p1 b1 cur1 p2 b2 cur2 r hbel hstep _ ih =>
    obtain ⟨hb, rest2, h⟩ := ih
    refine ⟨hb, rest2, ?_⟩
    rw [← h]
    simp only [dset_loop, hbel, hstep, Bool.not_true, Bool.false_eq_true, if_false]

/-- The passes of `Pass` are passes of `sets_loop`: when the loop over `sets`
comes to the record `r` with `p2`, `b2` and `cur`, what `sets_loop` returns is
what the rest of that iteration returns, the record loop of the Data Set
continued at `r` (extender.c:456-491) and the sets behind it. -/
theorem Pass_sets_loop (api : fds_api) (cfg : config) (packet : List Nat)
    (sets : List ipx_ipfix_set) (recs : List ipx_ipfix_record) (p : plugin_ctx)
    (b : msg_builder_s) (before : List ipx_ipfix_set) (p2 : plugin_ctx) (b2 : msg_builder_s)
    (cur : Nat) (r : ipx_ipfix_record)
    (hpass : Pass api cfg packet sets recs p b before p2 b2 cur r) :
    ∃ set after rest, sets = before ++ set :: after ∧
      ¬ ntohs_at packet set.ptr < FDS_IPFIX_SET_MIN_DSET ∧
      record_belongs_to_set packet set r.drec = true ∧
      sets_loop api cfg packet sets recs p b
        = match dset_loop api cfg packet set (r :: rest) p2 b2 cur with
          | none => none
          | some (.cleanup rc pctx builder) => some (.cleanup rc pctx builder)
          | some (.done pctx builder current_set_id rest) =>
            if (if current_set_id ≠ 0 then msg_builder_end_dset builder
                else (.IPX_OK, builder)).1 ≠ .IPX_OK then
              some (.cleanup (if current_set_id ≠ 0 then msg_builder_end_dset builder
                else (.IPX_OK, builder)).1 pctx
                (if current_set_id ≠ 0 then msg_builder_end_dset builder
                else (.IPX_OK, builder)).2)
            else sets_loop api cfg packet after rest pctx
              (if current_set_id ≠ 0 then msg_builder_end_dset builder
                else (.IPX_OK, builder)).2 := by
  induction hpass with
  | in_dset set sets recs p b p2 b2 cur r hid hd =>
    obtain ⟨hbel, rest, h⟩ := DsetPass_dset_loop api cfg packet set recs p b 0 p2 b2 cur r hd
    refine ⟨set, sets, rest, rfl, hid, hbel, ?_⟩
    rw [← h]
    simp only [sets_loop, hid, if_false]
  | after_copy set sets recs p b before p2 b2 cur r hid _ ih =>
    obtain ⟨s2, after, rest, hs, hid2, hbel, h⟩ := ih
    refine ⟨s2, after, rest, by rw [hs]; rfl, hid2, hbel, ?_⟩
    rw [← h]
    simp only [sets_loop, hid, if_true, msg_builder_copy_set, ne_eq, not_true_eq_false, if_false]
  | after_dset set sets recs p b p1 b1 cur1 rest1 before p2 b2 cur r hid hloop _ ih =>
    obtain ⟨s2, after, rest, hs, hid2, hbel, h⟩ := ih
    refine ⟨s2, after, rest, by rw [hs]; rfl, hid2, hbel, ?_⟩
    rw [← h]
    have hok : (if cur1 ≠ 0 then msg_builder_end_dset b1 else (.IPX_OK, b1)).1 = .IPX_OK := by
      split
      · exact msg_builder_end_dset_ok b1
      · rfl
    simp only [sets_loop, hid, if_false, hloop, hok, ne_eq, not_true_eq_false]

end Extender
